import Mathlib

/-!
# image_update: boot-state record, checksums and the update sequence

A shallow embedding of `src/image_update.c` (Xilinx `image_update`, the A/B
firmware update utility for QSPI flash).

Conventions of the embedding

* `unsigned int` values are natural numbers below `2 ^ 32`; additions that can
  wrap are reduced `% 2 ^ 32` where the C code performs them.
* `char` values are natural numbers below `256` (the code only compares them
  for equality and masks them with `0xFF`, so signedness plays no role).
* `int ret` is an integer.  All sizes handled by the program (flash partitions,
  the image file) are taken to fit an `int`, so the C conversions between
  `ssize_t`, `int` and `unsigned int` keep the value.
* The target is little-endian (Zynq MPSoC, AArch64 Linux): the cast
  `(unsigned int *)&boot_img_info` reads word `idx` from bytes
  `4 * idx .. 4 * idx + 3`, least significant byte first.
* The process-wide variables `boot_img_info`, `srcaddr` and `image_size` are
  fields of an explicit program state that every function takes and returns.
* What the program prints is left out, except the final message
  "... updated successfully" of `main`, which is an event of the log.
* `main` is given as a chain of definitions, each a range of its source lines:
  `main`, `print_reports`, `verify_and_update`, `load_state`, `confirm_and_update`,
  `update_run`, `write_and_commit`.
-/

namespace ImageUpdate

/-! ## Constants -/

/-- Error code `XST_SUCCESS`. -/
def XST_SUCCESS : Int := 0x0

/-- Error code `XST_FAILURE`. -/
def XST_FAILURE : Int := 0x1

/-- Word index of the `checksum` field inside the record. -/
def SYS_CHECKSUM_OFFSET : Nat := 0x3

/-- Byte offset of the identification string inside an image. -/
def XBIU_IDEN_STR_OFFSET : Nat := 0x24

/-- Length of the identification string of an image. -/
def XBIU_IDEN_STR_LEN : Nat := 0x4

/-- Size of the manufacturing information blob. -/
def XBIU_QSPI_MFG_INFO_SIZE : Nat := 0x100

/-- Byte offset of the revision string inside an image partition. -/
def XBIU_IMG_REVISON_OFFSET : Nat := 0x70

/-- Length of the revision string. -/
def XBIU_IMG_REVISON_SIZE : Nat := 0x24

/-- Enumerator `SYS_BOOT_IMG_A_ID`. -/
def SYS_BOOT_IMG_A_ID : Nat := 0

/-- Enumerator `SYS_BOOT_IMG_B_ID`. -/
def SYS_BOOT_IMG_B_ID : Nat := 1

/-! ## The persistent record -/

/-- The C `struct sys_persistent_state`: four `char` fields. -/
structure sys_persistent_state where
  last_booted_img : Nat
  requested_boot_img : Nat
  img_b_bootable : Nat
  img_a_bootable : Nat
deriving DecidableEq, Repr

/-- The C `struct sys_boot_img_info`; `idstr0 .. idstr3` are `idstr[0] .. idstr[3]`. -/
structure sys_boot_img_info where
  idstr0 : Nat
  idstr1 : Nat
  idstr2 : Nat
  idstr3 : Nat
  ver : Nat
  len : Nat
  checksum : Nat
  persistent_state : sys_persistent_state
  boot_img_a_offset : Nat
  boot_img_b_offset : Nat
  recovery_img_offset : Nat
deriving DecidableEq, Repr

/-- Every field holds a value of its C type (`char` below 256, `unsigned int` below `2 ^ 32`). -/
def sys_boot_img_info.WF (r : sys_boot_img_info) : Prop :=
  r.idstr0 < 256 ∧ r.idstr1 < 256 ∧ r.idstr2 < 256 ∧ r.idstr3 < 256 ∧
  r.ver < 2 ^ 32 ∧ r.len < 2 ^ 32 ∧ r.checksum < 2 ^ 32 ∧
  r.persistent_state.last_booted_img < 256 ∧
  r.persistent_state.requested_boot_img < 256 ∧
  r.persistent_state.img_b_bootable < 256 ∧
  r.persistent_state.img_a_bootable < 256 ∧
  r.boot_img_a_offset < 2 ^ 32 ∧ r.boot_img_b_offset < 2 ^ 32 ∧
  r.recovery_img_offset < 2 ^ 32

instance (r : sys_boot_img_info) : Decidable r.WF := by
  unfold sys_boot_img_info.WF
  infer_instance

/-- `sizeof(boot_img_info)`: 4 + 3 * 4 + 4 + 3 * 4 bytes, no padding. -/
def sizeof_boot_img_info : Nat := 32

/-- The four bytes of an `unsigned int` in memory, least significant first. -/
def le32 (x : Nat) : List Nat :=
  [x % 256, x / 256 % 256, x / 65536 % 256, x / 16777216 % 256]

/-- The memory image of the record: the bytes that `(char *)&boot_img_info` points to. -/
def sys_boot_img_info.toBytes (r : sys_boot_img_info) : List Nat :=
  [r.idstr0 % 256, r.idstr1 % 256, r.idstr2 % 256, r.idstr3 % 256] ++
  le32 r.ver ++ le32 r.len ++ le32 r.checksum ++
  [r.persistent_state.last_booted_img % 256,
   r.persistent_state.requested_boot_img % 256,
   r.persistent_state.img_b_bootable % 256,
   r.persistent_state.img_a_bootable % 256] ++
  le32 r.boot_img_a_offset ++ le32 r.boot_img_b_offset ++ le32 r.recovery_img_offset

/-- Byte `i` of a memory image (`0` past its end). -/
def byte_at (m : List Nat) (i : Nat) : Nat := m.getD i 0 % 256

/-- The `unsigned int` at word index `idx` of a memory image: `((unsigned int *)m)[idx]`. -/
def word_at (m : List Nat) (idx : Nat) : Nat :=
  byte_at m (4 * idx) + 256 * byte_at m (4 * idx + 1) +
  65536 * byte_at m (4 * idx + 2) + 16777216 * byte_at m (4 * idx + 3)

/-- The record whose memory image is `m` (what the fields read after
`read(fd, (char *)&boot_img_info, sizeof(boot_img_info))` stored `m`). -/
def sys_boot_img_info.ofBytes (m : List Nat) : sys_boot_img_info :=
  { idstr0 := byte_at m 0, idstr1 := byte_at m 1, idstr2 := byte_at m 2, idstr3 := byte_at m 3,
    ver := word_at m 1, len := word_at m 2, checksum := word_at m 3,
    persistent_state :=
      { last_booted_img := byte_at m 16, requested_boot_img := byte_at m 17,
        img_b_bootable := byte_at m 18, img_a_bootable := byte_at m 19 },
    boot_img_a_offset := word_at m 5, boot_img_b_offset := word_at m 6,
    recovery_img_offset := word_at m 7 }

/-! ## The complement-sum checksum of the record -/

/-- The C `calculate_checksum`: the wrapping sum of the words `data[0 .. 2]` and
`data[4 .. 7]` of the record, subtracted from `0xFFFFFFFF`. -/
def calculate_checksum (boot_img_info : sys_boot_img_info) : Nat :=
  let data := word_at boot_img_info.toBytes
  let boot_img_info_size := sizeof_boot_img_info / 4
  let checksum := 0
  let checksum := (List.range' 0 SYS_CHECKSUM_OFFSET).foldl
    (fun checksum idx => (checksum + data idx) % 2 ^ 32) checksum
  let checksum := (List.range' (SYS_CHECKSUM_OFFSET + 1)
      (boot_img_info_size - (SYS_CHECKSUM_OFFSET + 1))).foldl
    (fun checksum idx => (checksum + data idx) % 2 ^ 32) checksum
  0xFFFFFFFF - checksum

/-- The C `validate_boot_img_info`: returns the status and the record, whose
`checksum` field the function overwrites when the identification string matches. -/
def validate_boot_img_info (boot_img_info : sys_boot_img_info) : Int × sys_boot_img_info :=
  let ret := XST_FAILURE
  let checksum := boot_img_info.checksum
  if boot_img_info.idstr0 = 0x41 ∧ boot_img_info.idstr1 = 0x42 ∧
      boot_img_info.idstr2 = 0x55 ∧ boot_img_info.idstr3 = 0x4D then
    let boot_img_info := { boot_img_info with checksum := calculate_checksum boot_img_info }
    if checksum = boot_img_info.checksum then (XST_SUCCESS, boot_img_info)
    else (ret, boot_img_info)
  else (ret, boot_img_info)

/-! ## The image CRC -/

/-- The C table `crc_table`. -/
def crc_table : List Nat := [
  0x00000000, 0x77073096, 0xEE0E612C, 0x990951BA,
  0x076DC419, 0x706AF48F, 0xE963A535, 0x9E6495A3,
  0x0EDB8832, 0x79DCB8A4, 0xE0D5E91E, 0x97D2D988,
  0x09B64C2B, 0x7EB17CBD, 0xE7B82D07, 0x90BF1D91,
  0x1DB71064, 0x6AB020F2, 0xF3B97148, 0x84BE41DE,
  0x1ADAD47D, 0x6DDDE4EB, 0xF4D4B551, 0x83D385C7,
  0x136C9856, 0x646BA8C0, 0xFD62F97A, 0x8A65C9EC,
  0x14015C4F, 0x63066CD9, 0xFA0F3D63, 0x8D080DF5,
  0x3B6E20C8, 0x4C69105E, 0xD56041E4, 0xA2677172,
  0x3C03E4D1, 0x4B04D447, 0xD20D85FD, 0xA50AB56B,
  0x35B5A8FA, 0x42B2986C, 0xDBBBC9D6, 0xACBCF940,
  0x32D86CE3, 0x45DF5C75, 0xDCD60DCF, 0xABD13D59,
  0x26D930AC, 0x51DE003A, 0xC8D75180, 0xBFD06116,
  0x21B4F4B5, 0x56B3C423, 0xCFBA9599, 0xB8BDA50F,
  0x2802B89E, 0x5F058808, 0xC60CD9B2, 0xB10BE924,
  0x2F6F7C87, 0x58684C11, 0xC1611DAB, 0xB6662D3D,
  0x76DC4190, 0x01DB7106, 0x98D220BC, 0xEFD5102A,
  0x71B18589, 0x06B6B51F, 0x9FBFE4A5, 0xE8B8D433,
  0x7807C9A2, 0x0F00F934, 0x9609A88E, 0xE10E9818,
  0x7F6A0DBB, 0x086D3D2D, 0x91646C97, 0xE6635C01,
  0x6B6B51F4, 0x1C6C6162, 0x856530D8, 0xF262004E,
  0x6C0695ED, 0x1B01A57B, 0x8208F4C1, 0xF50FC457,
  0x65B0D9C6, 0x12B7E950, 0x8BBEB8EA, 0xFCB9887C,
  0x62DD1DDF, 0x15DA2D49, 0x8CD37CF3, 0xFBD44C65,
  0x4DB26158, 0x3AB551CE, 0xA3BC0074, 0xD4BB30E2,
  0x4ADFA541, 0x3DD895D7, 0xA4D1C46D, 0xD3D6F4FB,
  0x4369E96A, 0x346ED9FC, 0xAD678846, 0xDA60B8D0,
  0x44042D73, 0x33031DE5, 0xAA0A4C5F, 0xDD0D7CC9,
  0x5005713C, 0x270241AA, 0xBE0B1010, 0xC90C2086,
  0x5768B525, 0x206F85B3, 0xB966D409, 0xCE61E49F,
  0x5EDEF90E, 0x29D9C998, 0xB0D09822, 0xC7D7A8B4,
  0x59B33D17, 0x2EB40D81, 0xB7BD5C3B, 0xC0BA6CAD,
  0xEDB88320, 0x9ABFB3B6, 0x03B6E20C, 0x74B1D29A,
  0xEAD54739, 0x9DD277AF, 0x04DB2615, 0x73DC1683,
  0xE3630B12, 0x94643B84, 0x0D6D6A3E, 0x7A6A5AA8,
  0xE40ECF0B, 0x9309FF9D, 0x0A00AE27, 0x7D079EB1,
  0xF00F9344, 0x8708A3D2, 0x1E01F268, 0x6906C2FE,
  0xF762575D, 0x806567CB, 0x196C3671, 0x6E6B06E7,
  0xFED41B76, 0x89D32BE0, 0x10DA7A5A, 0x67DD4ACC,
  0xF9B9DF6F, 0x8EBEEFF9, 0x17B7BE43, 0x60B08ED5,
  0xD6D6A3E8, 0xA1D1937E, 0x38D8C2C4, 0x4FDFF252,
  0xD1BB67F1, 0xA6BC5767, 0x3FB506DD, 0x48B2364B,
  0xD80D2BDA, 0xAF0A1B4C, 0x36034AF6, 0x41047A60,
  0xDF60EFC3, 0xA867DF55, 0x316E8EEF, 0x4669BE79,
  0xCB61B38C, 0xBC66831A, 0x256FD2A0, 0x5268E236,
  0xCC0C7795, 0xBB0B4703, 0x220216B9, 0x5505262F,
  0xC5BA3BBE, 0xB2BD0B28, 0x2BB45A92, 0x5CB36A04,
  0xC2D7FFA7, 0xB5D0CF31, 0x2CD99E8B, 0x5BDEAE1D,
  0x9B64C2B0, 0xEC63F226, 0x756AA39C, 0x026D930A,
  0x9C0906A9, 0xEB0E363F, 0x72076785, 0x05005713,
  0x95BF4A82, 0xE2B87A14, 0x7BB12BAE, 0x0CB61B38,
  0x92D28E9B, 0xE5D5BE0D, 0x7CDCEFB7, 0x0BDBDF21,
  0x86D3D2D4, 0xF1D4E242, 0x68DDB3F8, 0x1FDA836E,
  0x81BE16CD, 0xF6B9265B, 0x6FB077E1, 0x18B74777,
  0x88085AE6, 0xFF0F6A70, 0x66063BCA, 0x11010B5C,
  0x8F659EFF, 0xF862AE69, 0x616BFFD3, 0x166CCF45,
  0xA00AE278, 0xD70DD2EE, 0x4E048354, 0x3903B3C2,
  0xA7672661, 0xD06016F7, 0x4969474D, 0x3E6E77DB,
  0xAED16A4A, 0xD9D65ADC, 0x40DF0B66, 0x37D83BF0,
  0xA9BCAE53, 0xDEBB9EC5, 0x47B2CF7F, 0x30B5FFE9,
  0xBDBDF21C, 0xCABAC28A, 0x53B39330, 0x24B4A3A6,
  0xBAD03605, 0xCDD70693, 0x54DE5729, 0x23D967BF,
  0xB3667A2E, 0xC4614AB8, 0x5D681B02, 0x2A6F2B94,
  0xB40BBE37, 0xC30C8EA1, 0x5A05DF1B, 0x2D02EF8D,
]

/-- One iteration of the loop of `calculate_image_checksum`:
`(crc >> 8) ^ crc_table[(crc ^ byte) & 0xFF]`. -/
def crc_step (calc_crc : Nat) (byte : Nat) : Nat :=
  (calc_crc >>> 8) ^^^ crc_table.getD ((calc_crc ^^^ byte) &&& 0xFF) 0

/-- The C `calculate_image_checksum`: `srcaddr` holds the `len` bytes, `calc_crc`
is the value of `*calc_crc` on entry, the result its value on return. -/
def calculate_image_checksum (srcaddr : List Nat) (calc_crc : Nat) : Nat :=
  srcaddr.foldl crc_step calc_crc

/-! ## The environment: flash partitions, the image file, the board

The program talks to its environment through `open`, `ioctl`, `lseek`, `read`,
`write`, `close`, `fstat`, `calloc` and `popen`.  The environment is a state
`World`: the bytes each file holds, the board revision that `fru-print.py`
reports, a script that tells for each coming call whether it goes wrong, and
the log of the calls made so far.

A call that transfers no data either succeeds or fails with `-1`.  A `read` or
`write` either moves the requested bytes (as many as the file has room for),
fails with `-1`, or moves other bytes than the requested ones (fewer of them,
or with different values): this is how short transfers and flash corruption
enter the model.  A failing call leaves the medium as it was.
-/

/-- The files that the program opens. -/
inductive Path
  /-- The partition "/dev/mtd2": persistent registers. -/
  | mtd2
  /-- The partition "/dev/mtd3": persistent registers backup. -/
  | mtd3
  /-- The partition "/dev/mtd5": image A. -/
  | mtd5
  /-- The partition "/dev/mtd7": image B. -/
  | mtd7
  /-- The partition "/dev/mtd14": manufacturing information. -/
  | mtd14
  /-- The input image file named by the option `-i`. -/
  | image_file
deriving DecidableEq, Repr

/-- How the environment answers one call. -/
inductive Outcome
  /-- The call does what it is asked to do. -/
  | ok
  /-- The call fails and returns `-1`. -/
  | fail
  /-- A `read` or `write` that moves these bytes in place of the requested ones. -/
  | xfer (bytes : List Nat)
deriving DecidableEq, Repr

/-- One call made by the program, with the value it returned. -/
inductive Event
  | open (path : Path) (succeeded : Bool)
  | fstat (path : Path) (ret : Int)
  | getinfo (path : Path) (ret : Int)
  | erase (path : Path) (ret : Int)
  | lseek (path : Path) (offset : Nat) (ret : Int)
  | write (path : Path) (buf : List Nat) (ret : Int)
  | read (path : Path) (len : Nat) (buf : List Nat) (ret : Int)
  | close (path : Path)
  /-- The message "... updated successfully" printed by `main`. -/
  | updated_successfully
deriving DecidableEq, Repr

/-- The environment of the program. -/
structure World where
  /-- The bytes each file holds; the length is the size of the partition or file. -/
  content : Path → List Nat
  /-- The token that `fscanf(cmd, "%9s", revision)` stores, `none` when `popen` fails. -/
  revision : Option String
  /-- The answers to the coming calls, first call first; `ok` once the list is used up. -/
  script : List Outcome
  /-- The calls made so far, oldest first. -/
  log : List Event

/-- An open file descriptor: the file it refers to and its file offset. -/
structure Fd where
  path : Path
  pos : Nat
deriving DecidableEq, Repr

/-- The answer of the environment to the next call. -/
def World.next (w : World) : Outcome × World :=
  match w.script with
  | [] => (Outcome.ok, w)
  | o :: rest => (o, { w with script := rest })

/-- Append an event to the log. -/
def World.emit (w : World) (e : Event) : World :=
  { w with log := w.log ++ [e] }

/-- Replace the bytes of one file. -/
def World.store (w : World) (p : Path) (bytes : List Nat) : World :=
  { w with content := fun q => if q = p then bytes else w.content q }

/-- The bytes `old` with `bytes` laid over them from offset `pos` on. -/
def overlay (old : List Nat) (pos : Nat) (bytes : List Nat) : List Nat :=
  old.take pos ++ bytes ++ old.drop (pos + bytes.length)

/-- The call `open(path, flags)`: an open descriptor, or `none` for a negative result. -/
def sys_open (w : World) (path : Path) : Option Fd × World :=
  match w.next with
  | (Outcome.ok, w) => (some { path := path, pos := 0 }, w.emit (Event.open path true))
  | (_, w) => (none, w.emit (Event.open path false))

/-- The call `close(fd)`. -/
def sys_close (w : World) (fd : Fd) : World :=
  w.emit (Event.close fd.path)

/-- The call `fstat(fd, &st)`: the return value and `st.st_size`. -/
def sys_fstat (w : World) (fd : Fd) : Int × Nat × World :=
  match w.next with
  | (Outcome.ok, w) => (0, (w.content fd.path).length, w.emit (Event.fstat fd.path 0))
  | (_, w) => (-1, 0, w.emit (Event.fstat fd.path (-1)))

/-- The call `ioctl(fd, MEMGETINFO, &info)`: the return value and `info.size`. -/
def ioctl_MEMGETINFO (w : World) (fd : Fd) : Int × Nat × World :=
  match w.next with
  | (Outcome.ok, w) => (0, (w.content fd.path).length, w.emit (Event.getinfo fd.path 0))
  | (_, w) => (-1, 0, w.emit (Event.getinfo fd.path (-1)))

/-- The call `ioctl(fd, MEMERASE, &ei)` with `ei.start = start` and `ei.length = length`:
the erased range reads `0xFF` afterwards. -/
def ioctl_MEMERASE (w : World) (fd : Fd) (start length : Nat) : Int × World :=
  match w.next with
  | (Outcome.ok, w) =>
    let old := w.content fd.path
    let erased := List.replicate (min length (old.length - start)) 0xFF
    (0, (w.store fd.path (overlay old start erased)).emit (Event.erase fd.path 0))
  | (_, w) => (-1, w.emit (Event.erase fd.path (-1)))

/-- The call `lseek(fd, offset, SEEK_SET)`. -/
def sys_lseek (w : World) (fd : Fd) (offset : Nat) : Int × Fd × World :=
  match w.next with
  | (Outcome.ok, w) =>
    (offset, { fd with pos := offset }, w.emit (Event.lseek fd.path offset offset))
  | (_, w) => (-1, fd, w.emit (Event.lseek fd.path offset (-1)))

/-- The bytes `data` reach the medium at the file offset, as far as the file has room. -/
def put (w : World) (fd : Fd) (buf data : List Nat) : Int × Fd × World :=
  let old := w.content fd.path
  let moved := data.take (old.length - fd.pos)
  (moved.length, { fd with pos := fd.pos + moved.length },
    (w.store fd.path (overlay old fd.pos moved)).emit (Event.write fd.path buf moved.length))

/-- The call `write(fd, buf, buf.length)`. -/
def sys_write (w : World) (fd : Fd) (buf : List Nat) : Int × Fd × World :=
  match w.next with
  | (Outcome.ok, w) => put w fd buf buf
  | (Outcome.fail, w) => (-1, fd, w.emit (Event.write fd.path buf (-1)))
  | (Outcome.xfer bytes, w) => put w fd buf ((bytes.take buf.length).map (· % 256))

/-- The call `read(fd, buf, len)`: the return value and the bytes stored in `buf`. -/
def sys_read (w : World) (fd : Fd) (len : Nat) : Int × List Nat × Fd × World :=
  match w.next with
  | (Outcome.ok, w) =>
    let bytes := ((w.content fd.path).drop fd.pos).take len
    (bytes.length, bytes, { fd with pos := fd.pos + bytes.length },
      w.emit (Event.read fd.path len bytes bytes.length))
  | (Outcome.fail, w) => (-1, [], fd, w.emit (Event.read fd.path len [] (-1)))
  | (Outcome.xfer bytes, w) =>
    let bytes := (bytes.take len).map (· % 256)
    (bytes.length, bytes, { fd with pos := fd.pos + bytes.length },
      w.emit (Event.read fd.path len bytes bytes.length))

/-- The call `calloc(size, 1)`: the zeroed buffer, or `none` for a null pointer. -/
def sys_calloc (w : World) (size : Nat) : Option (List Nat) × World :=
  match w.next with
  | (Outcome.ok, w) => (some (List.replicate size 0), w)
  | (_, w) => (none, w)

/-! ## The program state -/

/-- The variables of the program that outlive a function call, and the environment. -/
structure State where
  /-- The variable `boot_img_info`. -/
  boot_img_info : sys_boot_img_info
  /-- The buffer that `srcaddr` points to (empty while `srcaddr` is `NULL`). -/
  srcaddr : List Nat
  /-- The variable `image_size`. -/
  image_size : Nat
  world : World

/-- The record after `bytes` were stored at the start of `boot_img_info`. -/
def load (boot_img_info : sys_boot_img_info) (bytes : List Nat) : sys_boot_img_info :=
  sys_boot_img_info.ofBytes (bytes ++ boot_img_info.toBytes.drop bytes.length)

/-! ## The functions of the program -/

/-- The C `update_persistent_registers`. -/
def update_persistent_registers (s : State) (qspi_mtd_pers_reg_file : Path) : Int × State :=
  let ret := XST_FAILURE
  match sys_open s.world qspi_mtd_pers_reg_file with
  | (none, w) => (ret, { s with world := w })
  | (some fd_pers_reg, w) =>
    match ioctl_MEMGETINFO w fd_pers_reg with
    | (ret, size, w) =>
      if ret ≠ XST_SUCCESS then (ret, { s with world := sys_close w fd_pers_reg })
      else
        match ioctl_MEMERASE w fd_pers_reg 0 size with
        | (ret, w) =>
          if ret < 0 then (ret, { s with world := sys_close w fd_pers_reg })
          else
            match sys_lseek w fd_pers_reg 0 with
            | (ret, fd_pers_reg, w) =>
              if ret ≠ 0 then (ret, { s with world := sys_close w fd_pers_reg })
              else
                let boot_img_info :=
                  { s.boot_img_info with checksum := calculate_checksum s.boot_img_info }
                match sys_write w fd_pers_reg boot_img_info.toBytes with
                | (ret, fd_pers_reg, w) =>
                  if ret ≠ sizeof_boot_img_info then
                    (XST_FAILURE,
                      { s with boot_img_info := boot_img_info, world := sys_close w fd_pers_reg })
                  else
                    (XST_SUCCESS,
                      { s with boot_img_info := boot_img_info, world := sys_close w fd_pers_reg })

/-- The marking step of `verify_current_running_image` (source lines 448 to 455):
the bank that booted last is marked bootable. -/
def mark_running_bootable (boot_img_info : sys_boot_img_info) : sys_boot_img_info :=
  if boot_img_info.persistent_state.last_booted_img = SYS_BOOT_IMG_A_ID then
    if boot_img_info.persistent_state.img_a_bootable = 0 then
      { boot_img_info with
        persistent_state := { boot_img_info.persistent_state with img_a_bootable := 1 } }
    else boot_img_info
  else
    if boot_img_info.persistent_state.img_b_bootable = 0 then
      { boot_img_info with
        persistent_state := { boot_img_info.persistent_state with img_b_bootable := 1 } }
    else boot_img_info

/-- The C `verify_current_running_image`. -/
def verify_current_running_image (s : State) (qspi_mtd_file : Path) : Int × State :=
  let ret := XST_FAILURE
  match sys_open s.world qspi_mtd_file with
  | (none, w) => (ret, { s with world := w })
  | (some fd_pers_reg, w) =>
    match sys_read w fd_pers_reg sizeof_boot_img_info with
    | (ret, bytes, fd_pers_reg, w) =>
      let boot_img_info := load s.boot_img_info bytes
      if ret ≠ sizeof_boot_img_info then
        (XST_FAILURE, { s with boot_img_info := boot_img_info, world := sys_close w fd_pers_reg })
      else
        match validate_boot_img_info boot_img_info with
        | (ret, boot_img_info) =>
          if ret ≠ XST_SUCCESS then
            (ret, { s with boot_img_info := boot_img_info, world := sys_close w fd_pers_reg })
          else
            (ret, { s with boot_img_info := mark_running_bootable boot_img_info,
                           world := sys_close w fd_pers_reg })

/-- The C library function `strncmp` on strings given as byte lists (a list that
ends early reads as terminated by a null byte). -/
def strncmp : List Nat → List Nat → Nat → Int
  | _, _, 0 => 0
  | s1, s2, n + 1 =>
    let c1 := s1.headD 0
    let c2 := s2.headD 0
    if c1 ≠ c2 then (c1 : Int) - (c2 : Int)
    else if c1 = 0 then 0
    else strncmp s1.tail s2.tail n

/-- The string literal `"XNLX"` that `read_image_file` assigns to `iden_str`. -/
def iden_str : List Nat := [0x58, 0x4E, 0x4C, 0x58, 0]

/-- The C `read_image_file`.  An image shorter than `0x28` bytes makes the C code
compare bytes past the end of its buffer; the embedding reads them as null bytes.
The length `st_size` of the image file is taken to fit the `unsigned int`
`image_size` and the `int ret` that line 493 and line 500 store it in (see the
conventions above): for a file of `2 ^ 31` bytes or more the C conversions change
the value, and the embedding does not describe such a run. -/
def read_image_file (s : State) (input_file : Path) : Int × State :=
  let ret := XST_FAILURE
  match sys_open s.world input_file with
  | (none, w) => (ret, { s with world := w })
  | (some fp, w) =>
    match sys_fstat w fp with
    | (ret, st_size, w) =>
      if ret ≠ XST_SUCCESS then (ret, { s with world := sys_close w fp })
      else
        let image_size := st_size
        match sys_calloc w image_size with
        | (none, w) =>
          (XST_FAILURE, { s with srcaddr := [], image_size := image_size,
                                 world := sys_close w fp })
        | (some buf, w) =>
          match sys_read w fp image_size with
          | (ret, bytes, fp, w) =>
            let srcaddr := bytes ++ buf.drop bytes.length
            if ret ≠ image_size then
              (XST_FAILURE, { s with srcaddr := srcaddr, image_size := image_size,
                                     world := sys_close w fp })
            else
              let iden_str_ptr := srcaddr.drop XBIU_IDEN_STR_OFFSET
              if strncmp iden_str_ptr iden_str XBIU_IDEN_STR_LEN ≠ 0 then
                (XST_FAILURE, { s with srcaddr := srcaddr, image_size := image_size,
                                       world := sys_close w fp })
              else
                (XST_SUCCESS, { s with srcaddr := srcaddr, image_size := image_size,
                                       world := sys_close w fp })

/-- The read-back loop of `update_image` (source lines 593 to 608).  The result
tells whether the loop ran to its end (`true`) or left through `goto END`
(`false`), and gives `ret`, `image_size`, `qspi_image_checksum`, the descriptor
and the environment at that point.  Every iteration lowers `image_size`, so
`fuel = image_size` iterations are enough (`read_back_fuel`). -/
def read_back : Nat → World → Fd → Nat → Nat → Int → Bool × Int × Nat × Nat × Fd × World
  | 0, w, fd, image_size, qspi_image_checksum, ret =>
    (true, ret, image_size, qspi_image_checksum, fd, w)
  | fuel + 1, w, fd, image_size, qspi_image_checksum, ret =>
    if image_size > 0 then
      let len := if image_size > 1024 then 1024 else image_size
      match sys_read w fd len with
      | (ret, read_buffer, fd, w) =>
        if ret ≠ len then (false, XST_FAILURE, image_size, qspi_image_checksum, fd, w)
        else
          read_back fuel w fd (image_size - len)
            (calculate_image_checksum read_buffer qspi_image_checksum) ret
    else (true, ret, image_size, qspi_image_checksum, fd, w)

/-- The C `update_image`. -/
def update_image (s : State) (qspi_mtd_file : Path) : Int × State :=
  let ret := XST_FAILURE
  let input_image_checksum := 0xFFFFFFFF
  let qspi_image_checksum := 0xFFFFFFFF
  match sys_open s.world qspi_mtd_file with
  | (none, w) => (ret, { s with world := w })
  | (some fd, w) =>
    match ioctl_MEMGETINFO w fd with
    | (ret, size, w) =>
      if ret ≠ XST_SUCCESS then (ret, { s with world := sys_close w fd })
      else if s.image_size > size then (XST_FAILURE, { s with world := sys_close w fd })
      else
        match ioctl_MEMERASE w fd 0 size with
        | (ret, w) =>
          if ret < 0 then (ret, { s with world := sys_close w fd })
          else
            match sys_lseek w fd 0 with
            | (ret, fd, w) =>
              if ret ≠ 0 then (ret, { s with world := sys_close w fd })
              else
                match sys_write w fd (s.srcaddr.take s.image_size) with
                | (ret, fd, w) =>
                  if ret ≠ s.image_size then
                    (XST_FAILURE, { s with world := sys_close w fd })
                  else
                    match sys_lseek w fd 0 with
                    | (ret, fd, w) =>
                      if ret ≠ 0 then (ret, { s with world := sys_close w fd })
                      else
                        let input_image_checksum :=
                          calculate_image_checksum (s.srcaddr.take s.image_size)
                            input_image_checksum
                        match read_back s.image_size w fd s.image_size
                            qspi_image_checksum ret with
                        | (false, ret, image_size, _, fd, w) =>
                          (ret, { s with image_size := image_size, world := sys_close w fd })
                        | (true, ret, image_size, qspi_image_checksum, fd, w) =>
                          if input_image_checksum ≠ qspi_image_checksum then
                            (ret, { s with image_size := image_size,
                                           world := sys_close w fd })
                          else
                            (XST_SUCCESS, { s with image_size := image_size,
                                                   world := sys_close w fd })

/-- The C `validate_board_string`. -/
def validate_board_string (w : World) : Int :=
  match w.revision with
  | none => XST_FAILURE
  | some revision =>
    if revision = "A" ∨ revision = "B" ∨ revision = "Y" ∨ revision = "Z" ∨ revision = "1" then
      XST_SUCCESS
    else XST_FAILURE

/-- The C `print_persistent_state` (what it prints is not modelled). -/
def print_persistent_state (s : State) (qspi_mtd_file : Path) : Int × State :=
  let ret := XST_FAILURE
  match sys_open s.world qspi_mtd_file with
  | (none, w) => (ret, { s with world := w })
  | (some fd_pers_reg, w) =>
    match sys_read w fd_pers_reg sizeof_boot_img_info with
    | (ret, bytes, fd_pers_reg, w) =>
      let boot_img_info := load s.boot_img_info bytes
      if ret ≠ sizeof_boot_img_info then
        (XST_FAILURE, { s with boot_img_info := boot_img_info, world := sys_close w fd_pers_reg })
      else
        match validate_boot_img_info boot_img_info with
        | (ret, boot_img_info) =>
          (ret, { s with boot_img_info := boot_img_info, world := sys_close w fd_pers_reg })

/-- The C `print_image_rev_info` (what it prints is not modelled). -/
def print_image_rev_info (s : State) (qspi_mtd_file : Path) : Int × State :=
  let ret := XST_FAILURE
  match sys_open s.world qspi_mtd_file with
  | (none, w) => (ret, { s with world := w })
  | (some fd, w) =>
    match sys_lseek w fd XBIU_IMG_REVISON_OFFSET with
    | (ret, fd, w) =>
      if ret ≠ XBIU_IMG_REVISON_OFFSET then (ret, { s with world := sys_close w fd })
      else
        match sys_read w fd XBIU_IMG_REVISON_SIZE with
        | (ret, _, fd, w) =>
          if ret ≠ XBIU_IMG_REVISON_SIZE then (XST_FAILURE, { s with world := sys_close w fd })
          else (XST_SUCCESS, { s with world := sys_close w fd })

/-- The C `print_qspi_mfg_info` (what it prints is not modelled). -/
def print_qspi_mfg_info (s : State) : Int × State :=
  let ret := XST_FAILURE
  match sys_open s.world Path.mtd14 with
  | (none, w) => (ret, { s with world := w })
  | (some fd_pers_reg, w) =>
    match sys_read w fd_pers_reg XBIU_QSPI_MFG_INFO_SIZE with
    | (ret, _, fd_pers_reg, w) =>
      if ret ≠ XBIU_QSPI_MFG_INFO_SIZE then
        (XST_FAILURE, { s with world := sys_close w fd_pers_reg })
      else
        match print_image_rev_info { s with world := w } Path.mtd5 with
        | (ret, s) =>
          if ret = XST_SUCCESS then
            match print_image_rev_info s Path.mtd7 with
            | (ret, s) => (ret, { s with world := sys_close s.world fd_pers_reg })
          else (ret, { s with world := sys_close s.world fd_pers_reg })

/-- What the `getopt` loop of `main` leaves behind: whether it met an option
outside `"hpvi"` (the `default` case, which returns at once), and the four flags. -/
structure Args where
  invalid_option : Bool
  help_flag : Bool
  print_flag : Bool
  verify_flag : Bool
  update_flag : Bool
deriving DecidableEq, Repr

/-- The state in which `main` starts: the variables are zero-initialised. -/
def initial_state (w : World) : State :=
  { boot_img_info :=
      { idstr0 := 0, idstr1 := 0, idstr2 := 0, idstr3 := 0, ver := 0, len := 0, checksum := 0,
        persistent_state :=
          { last_booted_img := 0, requested_boot_img := 0,
            img_b_bootable := 0, img_a_bootable := 0 },
        boot_img_a_offset := 0, boot_img_b_offset := 0, recovery_img_offset := 0 },
    srcaddr := [], image_size := 0, world := w }

/-- The block `if (print_flag == 1) { ... }` of `main` up to the assignment of
`ret` by `print_qspi_mfg_info` (source lines 220 to 228). -/
def print_reports (s : State) : Int × State :=
  match print_persistent_state s Path.mtd2 with
  | (ret, s) =>
    match (if ret ≠ XST_SUCCESS then print_persistent_state s Path.mtd3 else (ret, s)) with
    | (ret, s) =>
      if ret = XST_SUCCESS then print_qspi_mfg_info s else (ret, s)

/-- Target selection in `main` (source lines 280 to 287): the bank other than the
one that booted last is marked non bootable; the result is the record and `qspi_mtd_file`. -/
def select_target (boot_img_info : sys_boot_img_info) : sys_boot_img_info × Path :=
  if boot_img_info.persistent_state.last_booted_img = SYS_BOOT_IMG_A_ID then
    ({ boot_img_info with
       persistent_state := { boot_img_info.persistent_state with img_b_bootable := 0 } },
     Path.mtd7)
  else
    ({ boot_img_info with
       persistent_state := { boot_img_info.persistent_state with img_a_bootable := 0 } },
     Path.mtd5)

/-- The update of `requested_boot_img` in `main` (source lines 304 to 311). -/
def request_target (boot_img_info : sys_boot_img_info) : sys_boot_img_info :=
  if boot_img_info.persistent_state.last_booted_img = SYS_BOOT_IMG_A_ID then
    { boot_img_info with
      persistent_state :=
        { boot_img_info.persistent_state with requested_boot_img := SYS_BOOT_IMG_B_ID } }
  else
    { boot_img_info with
      persistent_state :=
        { boot_img_info.persistent_state with requested_boot_img := SYS_BOOT_IMG_A_ID } }

/-- The part of `main` from "Writing Image.." to the end (source lines 298 to 327):
the state has the target marked non bootable, `qspi_mtd_file` is the target partition. -/
def write_and_commit (s : State) (qspi_mtd_file : Path) : Int × State :=
  match update_image s qspi_mtd_file with
  | (ret, s) =>
    if ret ≠ XST_SUCCESS then (ret, s)
    else
      let s := { s with boot_img_info := request_target s.boot_img_info }
      match update_persistent_registers s Path.mtd2 with
      | (ret, s) =>
        if ret < 0 then (ret, s)
        else
          match update_persistent_registers s Path.mtd3 with
          | (ret, s) =>
            if ret < 0 then (ret, s)
            else (ret, { s with world := s.world.emit Event.updated_successfully })

/-- The part of `main` from "Reading Image.." to the end (source lines 272 to 327). -/
def update_run (s : State) : Int × State :=
  match read_image_file s Path.image_file with
  | (ret, s) =>
    if ret ≠ XST_SUCCESS then (ret, s)
    else
      match select_target s.boot_img_info with
      | (boot_img_info, qspi_mtd_file) =>
        let s := { s with boot_img_info := boot_img_info }
        match update_persistent_registers s Path.mtd2 with
        | (ret, s) =>
          if ret < 0 then (ret, s)
          else
            match update_persistent_registers s Path.mtd3 with
            | (ret, s) =>
              if ret < 0 then (ret, s)
              else write_and_commit s qspi_mtd_file

/-- The confirm step and what follows it in `main` (source lines 259 to 327): the
record is loaded and the running bank is marked bootable in memory. -/
def confirm_and_update (s : State) (update_flag : Bool) : Int × State :=
  match update_persistent_registers s Path.mtd2 with
  | (ret, s) =>
    if ret < 0 then (XST_FAILURE, s)
    else
      match update_persistent_registers s Path.mtd3 with
      | (ret, s) =>
        if ret < 0 then (XST_FAILURE, s)
        else if update_flag = false then (ret, s)
        else update_run s

/-- Loading the state in `main` (source lines 249 to 253): the primary copy, and the
backup when the primary is not accepted. -/
def load_state (s : State) : Int × State :=
  match verify_current_running_image s Path.mtd2 with
  | (ret, s) =>
    if ret ≠ XST_SUCCESS then verify_current_running_image s Path.mtd3
    else (ret, s)

/-- The part of `main` after the options and the reports are dealt with
(source lines 242 to 327). -/
def verify_and_update (s : State) (update_flag : Bool) : Int × State :=
  if validate_board_string s.world ≠ XST_SUCCESS then (XST_FAILURE, s)
  else
    match load_state s with
    | (ret, s) =>
      if ret ≠ XST_SUCCESS then (XST_FAILURE, s)
      else confirm_and_update s update_flag

/-- The C `main`: the value it returns and the final state. -/
def main (w : World) (args : Args) : Int × State :=
  let ret := XST_FAILURE
  let s := initial_state w
  if args.invalid_option then (ret, s)
  else if args.help_flag then (XST_SUCCESS, s)
  else if (args.print_flag || args.verify_flag || args.update_flag) = false then (ret, s)
  else
    match (if args.print_flag then print_reports s else (ret, s)) with
    | (ret, s) =>
      if args.print_flag ∧ ret ≠ XST_SUCCESS then (ret, s)
      else if args.verify_flag = false ∧ args.update_flag = false then (XST_SUCCESS, s)
      else verify_and_update s args.update_flag

/-! ## Notions used to state the properties -/

/-- The memory image `m` with bit `pos % 8` of byte `pos / 8` flipped: the 256 bits
of the 32-byte record are numbered byte by byte, so the `checksum` field
(bytes 12 to 15) holds the bits 96 to 127. -/
def flip_bit (m : List Nat) (pos : Nat) : List Nat :=
  m.set (pos / 8) (byte_at m (pos / 8) ^^^ 2 ^ (pos % 8))

/-- The bytes that the `read` calls on `path` in a log delivered, in order. -/
def bytes_read (log : List Event) (path : Path) : List Nat :=
  match log with
  | [] => []
  | Event.read q _ buf _ :: rest => if q = path then buf ++ bytes_read rest path
                                    else bytes_read rest path
  | _ :: rest => bytes_read rest path

/-- A record that validates: `"ABUM"`, version 1, bank A booted last, both banks bootable. -/
def sample_record : sys_boot_img_info :=
  { idstr0 := 0x41, idstr1 := 0x42, idstr2 := 0x55, idstr3 := 0x4D, ver := 1, len := 4,
    checksum := 0xAEB1BDB9,
    persistent_state :=
      { last_booted_img := 0, requested_boot_img := 0, img_b_bootable := 1, img_a_bootable := 1 },
    boot_img_a_offset := 0x200000, boot_img_b_offset := 0xF80000,
    recovery_img_offset := 0x1E00000 }

/-- The record with its `checksum` field recomputed, as `update_persistent_registers`
leaves it before the write. -/
def stamped (r : sys_boot_img_info) : sys_boot_img_info :=
  { r with checksum := calculate_checksum r }

/-- An image of 43 bytes that carries `"XNLX"` at offset `0x24`. -/
def sample_image : List Nat :=
  List.replicate 0x24 7 ++ [0x58, 0x4E, 0x4C, 0x58] ++ [1, 2, 3]

/-- A board of revision "A" whose state partitions hold the sample record, whose
image partitions have 64 bytes, and whose calls all succeed. -/
def sample_world : World :=
  { content := fun p =>
      match p with
      | Path.mtd2 => sample_record.toBytes ++ List.replicate 8 0
      | Path.mtd3 => sample_record.toBytes ++ List.replicate 8 0
      | Path.mtd5 => List.replicate 64 0
      | Path.mtd7 => List.replicate 64 0
      | Path.mtd14 => List.replicate 256 0x30
      | Path.image_file => sample_image,
    revision := some "A", script := [], log := [] }

/-- The sample record in memory, in the sample world. -/
def sample_state : State :=
  { boot_img_info := sample_record, srcaddr := [], image_size := 0, world := sample_world }

/-- The calls `evs` lead from `w` to `w1` and leave every file but `p` as it was. -/
def Eff (p : Path) (w w1 : World) (evs : List Event) : Prop :=
  w1.log = w.log ++ evs ∧ (∀ q, q ≠ p → w1.content q = w.content q) ∧
    w1.revision = w.revision

/-- The sample image with its last byte changed. -/
def corrupted_image : List Nat :=
  List.replicate 0x24 7 ++ [0x58, 0x4E, 0x4C, 0x58] ++ [1, 2, 4]

/-- The state in which `main` calls `update_image` on an update run of the sample
world, on a medium that stores `corrupted_image` when the image is written. -/
def corrupt_write_state : State :=
  { boot_img_info := sample_record, srcaddr := sample_image, image_size := 43,
    world := { sample_world with
      script := [Outcome.ok, Outcome.ok, Outcome.ok, Outcome.ok, Outcome.xfer corrupted_image] } }

/-- The arguments of an update run: `image_update -i <file>`. -/
def update_args : Args :=
  { invalid_option := false, help_flag := false, print_flag := false, verify_flag := false,
    update_flag := true }

/-- The sample world in which every `open("/dev/mtd2", O_WRONLY)` fails (the primary
state partition is not writable) and every other call succeeds.  On an update run
the calls number 3, 13 and 26 are these opens. -/
def readonly_primary_world : World :=
  { sample_world with
    script := [Outcome.ok, Outcome.ok, Outcome.fail] ++ List.replicate 9 Outcome.ok ++
      [Outcome.fail] ++ List.replicate 12 Outcome.ok ++ [Outcome.fail] }

/-- The bootable flag of the bank held by the image partition `target`. -/
def target_flag (r : sys_boot_img_info) (target : Path) : Nat :=
  if target = Path.mtd7 then r.persistent_state.img_b_bootable
  else r.persistent_state.img_a_bootable

/-- An erase or a write on the image partition `target`. -/
def is_image_write (target : Path) (e : Event) : Bool :=
  match e with
  | Event.erase p _ => decide (p = target)
  | Event.write p _ _ => decide (p = target)
  | _ => false

/-- The calls `pre` contain a full write to the state partition `part` of a record
whose bootable flag for the bank of `target` is 0. -/
def persisted_nonbootable (pre : List Event) (part target : Path) : Bool :=
  pre.any fun e =>
    match e with
    | Event.write p buf ret =>
      decide (p = part) && decide (ret = sizeof_boot_img_info) &&
        decide (target_flag (sys_boot_img_info.ofBytes buf) target = 0)
    | _ => false

/-- The ordering of claim C6 on a log: every erase or write on the image partition
`target` comes after full writes, to "/dev/mtd2" and to "/dev/mtd3", of a record
that marks the bank of `target` non bootable. -/
def nonbootable_before_image_write (log : List Event) (target : Path) : Bool :=
  (List.range log.length).all fun i =>
    match log[i]? with
    | some e =>
      !is_image_write target e ||
        (persisted_nonbootable (log.take i) Path.mtd2 target &&
          persisted_nonbootable (log.take i) Path.mtd3 target)
    | none => true

/-- The record that a state partition holds at offset 0. -/
def stored_record (w : World) (part : Path) : sys_boot_img_info :=
  sys_boot_img_info.ofBytes ((w.content part).take sizeof_boot_img_info)

/-- The state partition `part` holds a copy that `verify_current_running_image` accepts. -/
def valid_copy (w : World) (part : Path) : Prop :=
  sizeof_boot_img_info ≤ (w.content part).length ∧
    (validate_boot_img_info (stored_record w part)).1 = XST_SUCCESS

instance (w : World) (part : Path) : Decidable (valid_copy w part) := by
  unfold valid_copy
  infer_instance

/-- The image passes the identification check of `read_image_file`. -/
def passes_identification (image : List Nat) : Prop :=
  strncmp (image.drop XBIU_IDEN_STR_OFFSET) iden_str XBIU_IDEN_STR_LEN = 0

instance (image : List Nat) : Decidable (passes_identification image) := by
  unfold passes_identification
  infer_instance

/-- The record that the run loads: the primary copy when it is valid, else the backup. -/
def loaded_record (w : World) : sys_boot_img_info :=
  if valid_copy w Path.mtd2 then stored_record w Path.mtd2 else stored_record w Path.mtd3

/-- The sample world with an image partition B of 40 bytes, less than the 43 bytes
of the image. -/
def oversize_image_world : World :=
  { sample_world with
    content := fun p => if p = Path.mtd7 then List.replicate 40 0 else sample_world.content p }

/-- The sample world on a board whose revision "C" is not supported. -/
def unsupported_board_world : World :=
  { sample_world with revision := some "C" }

/-- One bit step of the reflected CRC with polynomial `0xEDB88320`, in the words of
claim C15: `x -> (x >> 1) ^ (0xEDB88320 if x is odd else 0)`. -/
def crc_bit_step (x : Nat) : Nat := (x >>> 1) ^^^ (if x % 2 = 1 then 0xEDB88320 else 0)

/-- The bit-by-bit reflected CRC of one byte: the byte is folded into the low bits
of the running value, then eight bit steps follow. -/
def crc_bitwise_byte (seed byte : Nat) : Nat := crc_bit_step^[8] (seed ^^^ byte)

/-- The bit-by-bit reflected CRC of a byte sequence from `seed`, with no final complement. -/
def crc_bitwise (data : List Nat) (seed : Nat) : Nat := data.foldl crc_bitwise_byte seed

/-- The ASCII string "123456789". -/
def check_string : List Nat := [0x31, 0x32, 0x33, 0x34, 0x35, 0x36, 0x37, 0x38, 0x39]

/-- The calls made between `w` and `w1` all satisfy `P`. -/
def Emits (P : Event → Prop) (w w1 : World) : Prop :=
  ∃ evs, w1.log = w.log ++ evs ∧ ∀ e ∈ evs, P e

/-- A call on the file `p`.  Without `data` it is no erase and no write; with
`data` a write writes these bytes. -/
def call_on (p : Path) (data : Option (List Nat)) (e : Event) : Prop :=
  match e with
  | Event.open q _ => q = p
  | Event.fstat q _ => q = p
  | Event.getinfo q _ => q = p
  | Event.erase q _ => q = p ∧ data.isSome = true
  | Event.lseek q _ _ => q = p
  | Event.write q buf _ => q = p ∧ data = some buf
  | Event.read q _ _ _ => q = p
  | Event.close q => q = p
  | Event.updated_successfully => False

/-- An erase or a write. -/
def is_storage_call (e : Event) : Bool :=
  match e with
  | Event.erase _ _ => true
  | Event.write _ _ _ => true
  | _ => false

/-- What a run that holds the record `M` in memory when it reaches the confirm step
may do to the flash: erase and write the two state partitions and, on an update
run, the target partition.  A write to a state partition writes `M` with its
checksum recomputed or, on an update run, one of the two records that the update
derives from `M`: the target marked non bootable, then the target requested. -/
def run_call (M : sys_boot_img_info) (update : Bool) (e : Event) : Prop :=
  match e with
  | Event.erase p _ =>
    p = Path.mtd2 ∨ p = Path.mtd3 ∨ (update = true ∧ p = (select_target M).2)
  | Event.write p buf _ =>
    ((p = Path.mtd2 ∨ p = Path.mtd3) ∧
      (buf = (stamped M).toBytes ∨
        (update = true ∧
          (buf = (stamped (select_target M).1).toBytes ∨
           buf = (stamped (request_target (select_target M).1)).toBytes)))) ∨
    (update = true ∧ p = (select_target M).2)
  | _ => True

/-- The numbers of bytes that the `read` calls on `path` in a log delivered, in order. -/
def read_sizes (log : List Event) (path : Path) : List Nat :=
  match log with
  | [] => []
  | Event.read q _ buf _ :: rest => if q = path then buf.length :: read_sizes rest path
                                    else read_sizes rest path
  | _ :: rest => read_sizes rest path

/-- The reads of claim C19 for an image of `n` bytes: `ceil(n / 1024)` reads, the
read number `i` (counted from 0) of `min(1024, remaining)` bytes, where
`remaining = n - 1024 * i`. -/
def chunk_sizes (n : Nat) : List Nat :=
  (List.range ((n + 1023) / 1024)).map (fun i => min 1024 (n - 1024 * i))

/-- The arguments of a verify run: `image_update -v`. -/
def verify_args : Args :=
  { invalid_option := false, help_flag := false, print_flag := false, verify_flag := true,
    update_flag := false }

/-- The sample world with a primary state partition that holds no valid copy. -/
def backup_only_world : World :=
  { sample_world with
    content := fun p => if p = Path.mtd2 then List.replicate 40 0 else sample_world.content p }

/-- An image of 43 bytes without `"XNLX"` at offset `0x24`. -/
def untagged_image : List Nat := List.replicate 43 7

/-- The sample world with the image file holding `untagged_image`. -/
def untagged_image_world : World :=
  { sample_world with
    content := fun p => if p = Path.image_file then untagged_image else sample_world.content p }

/-- The state in which `main` calls `update_image` on an update run of the world
`oversize_image_world`: the image has 43 bytes, the target partition 40. -/
def oversize_image_state : State :=
  { boot_img_info := sample_record, srcaddr := sample_image, image_size := 43,
    world := oversize_image_world }

/-- The state in which `main` calls `update_image` when the target partition has
exactly the 43 bytes of the image. -/
def exact_fit_state : State :=
  { boot_img_info := sample_record, srcaddr := sample_image, image_size := 43,
    world := { sample_world with
      content := fun p => if p = Path.mtd7 then List.replicate 43 0 else sample_world.content p } }

/-- The exit status that the operating system reports for the value that `main`
returns: the value reduced modulo 256. -/
def exit_status (ret : Int) : Int := ret % 256

/-- An image of 256 bytes that carries `"XNLX"` at offset `0x24`. -/
def image_256 : List Nat :=
  List.replicate 0x24 7 ++ [0x58, 0x4E, 0x4C, 0x58] ++ List.replicate 216 0

/-- The image `image_256` with its last 216 bytes changed. -/
def corrupted_image_256 : List Nat :=
  List.replicate 0x24 7 ++ [0x58, 0x4E, 0x4C, 0x58] ++ List.replicate 216 1

/-- The sample world with the image `image_256`, an image partition B of 256 bytes,
and a medium that stores `corrupted_image_256` when the image is written (the
write is the call number 31 of an update run) and answers every other call
faithfully. -/
def corrupt_write_world_256 : World :=
  { sample_world with
    content := fun p =>
      if p = Path.image_file then image_256
      else if p = Path.mtd7 then List.replicate 256 0
      else sample_world.content p,
    script := List.replicate 30 Outcome.ok ++ [Outcome.xfer corrupted_image_256] }

/-- An image of 43 bytes that carries `"XLNX"`, the tag that the comment on
`read_image_file` names, at offset `0x24`. -/
def xlnx_image : List Nat :=
  List.replicate 0x24 7 ++ [0x58, 0x4C, 0x4E, 0x58] ++ [1, 2, 3]

/-- The sample state with the image file holding `xlnx_image`. -/
def xlnx_image_state : State :=
  { sample_state with
    world := { sample_world with
      content := fun p => if p = Path.image_file then xlnx_image else sample_world.content p } }

/-- The sample record with a running bank A that is not yet marked bootable. -/
def unconfirmed_record : sys_boot_img_info :=
  { sample_record with
    persistent_state := { sample_record.persistent_state with img_a_bootable := 0 } }

/-- A state in which `update_image` is called with an image of 2100 bytes for a
partition of 2100 bytes. -/
def three_chunk_state : State :=
  { boot_img_info := sample_record, srcaddr := List.replicate 2100 7, image_size := 2100,
    world := { sample_world with
      content := fun p =>
        if p = Path.mtd7 then List.replicate 2100 0 else sample_world.content p } }

/-- The sample record with bank B requested, and the checksum that goes with it. -/
def other_request_record : sys_boot_img_info :=
  stamped { sample_record with
    persistent_state := { sample_record.persistent_state with requested_boot_img := 1 } }

/-- The sample world with a backup state partition that holds another valid copy
than the primary: it requests bank B where the primary requests bank A. -/
def split_copies_world : World :=
  { sample_world with
    content := fun p =>
      if p = Path.mtd3 then other_request_record.toBytes ++ List.replicate 8 0
      else sample_world.content p }

/-- The bootable flag of the bank that booted last, as the branches on
`last_booted_img` in `verify_current_running_image` and in `main` tell the banks
apart: bank A when `last_booted_img` is 0, bank B for every other value. -/
def running_flag (r : sys_boot_img_info) : Nat :=
  if r.persistent_state.last_booted_img = SYS_BOOT_IMG_A_ID then
    r.persistent_state.img_a_bootable
  else r.persistent_state.img_b_bootable

/-- The bootable flag of the other bank. -/
def other_flag (r : sys_boot_img_info) : Nat :=
  if r.persistent_state.last_booted_img = SYS_BOOT_IMG_A_ID then
    r.persistent_state.img_b_bootable
  else r.persistent_state.img_a_bootable

/-- The fields that a run carries from the loaded record: `idstr`, `ver`, `len`,
`last_booted_img` and the three offsets. -/
def carried (r : sys_boot_img_info) : List Nat :=
  [r.idstr0, r.idstr1, r.idstr2, r.idstr3, r.ver, r.len, r.persistent_state.last_booted_img,
    r.boot_img_a_offset, r.boot_img_b_offset, r.recovery_img_offset]

/-- The sample world in which every `open("/dev/mtd2", O_WRONLY)` fails (the primary
state partition is not writable), the medium stores `corrupted_image` when the
image is written, and every other call succeeds.  On an update run the calls
number 3 and 13 are these opens and the call number 23 is the write of the image. -/
def readonly_primary_corrupt_write_world : World :=
  { sample_world with
    script := [Outcome.ok, Outcome.ok, Outcome.fail] ++ List.replicate 9 Outcome.ok ++
      [Outcome.fail] ++ List.replicate 9 Outcome.ok ++ [Outcome.xfer corrupted_image] }

/-- One attempt to read a copy of the record, as the environment answers it: `open`,
a `read` of 32 bytes, `close`.  The result holds the bytes when the `open`
succeeded and the `read` returned 32, and the environment afterwards. -/
def read_copy (w : World) (p : Path) : Option (List Nat) × World :=
  match sys_open w p with
  | (none, w) => (none, w)
  | (some fd, w) =>
    match sys_read w fd sizeof_boot_img_info with
    | (ret, bytes, fd, w) =>
      (if ret = sizeof_boot_img_info then some bytes else none, sys_close w fd)

/-- The record that an attempt to read the copy on `p` delivers: the copy was read
fully and it validates. -/
def accepted_copy (w : World) (p : Path) : Option sys_boot_img_info :=
  match (read_copy w p).1 with
  | some bytes =>
    if (validate_boot_img_info (sys_boot_img_info.ofBytes bytes)).1 = XST_SUCCESS then
      some (sys_boot_img_info.ofBytes bytes)
    else none
  | none => none

/-- The world `split_copies_world` (two valid copies that differ) in which the first
call, the `open` of the primary state partition, fails. -/
def primary_open_fails_world : World :=
  { split_copies_world with script := [Outcome.fail] }

/-- The world `split_copies_world` in which the `read` of the primary state partition
delivers 10 bytes only. -/
def primary_short_read_world : World :=
  { split_copies_world with
    script := [Outcome.ok, Outcome.xfer (List.replicate 10 0x41)] }

/-! ## Lemmas -/

theorem calculate_image_checksum_append (a b : List Nat) (seed : Nat) :
    calculate_image_checksum (a ++ b) seed =
      calculate_image_checksum b (calculate_image_checksum a seed) := by
  simp [calculate_image_checksum, List.foldl_append]

theorem validate_iff (r : sys_boot_img_info) :
    (validate_boot_img_info r).1 = XST_SUCCESS ↔
      (r.idstr0 = 0x41 ∧ r.idstr1 = 0x42 ∧ r.idstr2 = 0x55 ∧ r.idstr3 = 0x4D) ∧
        r.checksum = calculate_checksum r := by
  unfold validate_boot_img_info
  by_cases h : r.idstr0 = 0x41 ∧ r.idstr1 = 0x42 ∧ r.idstr2 = 0x55 ∧ r.idstr3 = 0x4D
  · by_cases hc : r.checksum = calculate_checksum r
    · simp [h, hc, XST_SUCCESS, XST_FAILURE]
    · simp [h, hc, XST_SUCCESS, XST_FAILURE]
  · simp [h, XST_SUCCESS, XST_FAILURE]

theorem validate_ret (r : sys_boot_img_info) :
    (validate_boot_img_info r).1 = XST_SUCCESS ∨ (validate_boot_img_info r).1 = XST_FAILURE := by
  unfold validate_boot_img_info
  by_cases h : r.idstr0 = 0x41 ∧ r.idstr1 = 0x42 ∧ r.idstr2 = 0x55 ∧ r.idstr3 = 0x4D
  · by_cases hc : r.checksum = calculate_checksum r
    · simp [h, hc]
    · simp [h, hc]
  · simp [h]

theorem calculate_checksum_eq (r : sys_boot_img_info) :
    calculate_checksum r = 0xFFFFFFFF -
      (word_at r.toBytes 0 + word_at r.toBytes 1 + word_at r.toBytes 2 + word_at r.toBytes 4 +
        word_at r.toBytes 5 + word_at r.toBytes 6 + word_at r.toBytes 7) % 2 ^ 32 := by
  simp only [calculate_checksum, SYS_CHECKSUM_OFFSET, sizeof_boot_img_info, List.range',
    List.foldl, Nat.reduceAdd, Nat.zero_add, Nat.reduceSub, Nat.reduceDiv]
  omega

theorem xor_bit_lt (b k : Nat) (hb : b < 256) (hk : k < 8) : b ^^^ 2 ^ k < 256 := by
  have h2 : 2 ^ k < 2 ^ 8 := Nat.pow_lt_pow_right (by norm_num) hk
  exact Nat.xor_lt_two_pow (n := 8) hb h2

theorem xor_bit_ne (b k : Nat) : b ^^^ 2 ^ k ≠ b := by
  intro h
  have h1 : b ^^^ (b ^^^ 2 ^ k) = b ^^^ b := by rw [h]
  rw [← Nat.xor_assoc, Nat.xor_self, Nat.zero_xor] at h1
  exact absurd h1 (by positivity)

theorem byte_at_lt (m : List Nat) (i : Nat) : byte_at m i < 256 := by
  unfold byte_at; omega

theorem word_at_lt (m : List Nat) (j : Nat) : word_at m j < 2 ^ 32 := by
  have h0 := byte_at_lt m (4 * j)
  have h1 := byte_at_lt m (4 * j + 1)
  have h2 := byte_at_lt m (4 * j + 2)
  have h3 := byte_at_lt m (4 * j + 3)
  unfold word_at; omega

theorem byte_at_set (m : List Nat) (i b k : Nat) :
    byte_at (m.set i b) k = if k = i ∧ i < m.length then b % 256 else byte_at m k := by
  unfold byte_at
  by_cases h : k = i
  · subst h
    by_cases hl : k < m.length
    · simp [List.getD_eq_getElem?_getD, hl]
    · have hl2 : m.length ≤ k := Nat.le_of_not_lt hl
      simp [List.getD_eq_getElem?_getD, List.getElem?_set, hl, List.getElem?_eq_none hl2]
  · have h2 : ¬ i = k := fun e => h e.symm
    simp [List.getD_eq_getElem?_getD, h, List.getElem?_set, h2]

theorem toBytes_length (r : sys_boot_img_info) : r.toBytes.length = 32 := by
  simp [sys_boot_img_info.toBytes, le32]

theorem le32_sum (x : Nat) :
    x % 256 + 256 * (x / 256 % 256) + 65536 * (x / 65536 % 256) + 16777216 * (x / 16777216 % 256)
      = x % 2 ^ 32 := by
  omega

theorem word_at_toBytes (r : sys_boot_img_info) :
    word_at r.toBytes 0 = r.idstr0 % 256 + 256 * (r.idstr1 % 256) + 65536 * (r.idstr2 % 256) +
        16777216 * (r.idstr3 % 256) ∧
    word_at r.toBytes 1 = r.ver % 2 ^ 32 ∧
    word_at r.toBytes 2 = r.len % 2 ^ 32 ∧
    word_at r.toBytes 3 = r.checksum % 2 ^ 32 ∧
    word_at r.toBytes 4 = r.persistent_state.last_booted_img % 256 +
        256 * (r.persistent_state.requested_boot_img % 256) +
        65536 * (r.persistent_state.img_b_bootable % 256) +
        16777216 * (r.persistent_state.img_a_bootable % 256) ∧
    word_at r.toBytes 5 = r.boot_img_a_offset % 2 ^ 32 ∧
    word_at r.toBytes 6 = r.boot_img_b_offset % 2 ^ 32 ∧
    word_at r.toBytes 7 = r.recovery_img_offset % 2 ^ 32 := by
  simp only [← le32_sum]
  simp [word_at, byte_at, sys_boot_img_info.toBytes, le32]

theorem word_at_ofBytes (m : List Nat) :
    word_at (sys_boot_img_info.ofBytes m).toBytes 0 = word_at m 0 ∧
    word_at (sys_boot_img_info.ofBytes m).toBytes 1 = word_at m 1 ∧
    word_at (sys_boot_img_info.ofBytes m).toBytes 2 = word_at m 2 ∧
    word_at (sys_boot_img_info.ofBytes m).toBytes 3 = word_at m 3 ∧
    word_at (sys_boot_img_info.ofBytes m).toBytes 4 = word_at m 4 ∧
    word_at (sys_boot_img_info.ofBytes m).toBytes 5 = word_at m 5 ∧
    word_at (sys_boot_img_info.ofBytes m).toBytes 6 = word_at m 6 ∧
    word_at (sys_boot_img_info.ofBytes m).toBytes 7 = word_at m 7 := by
  obtain ⟨h0, h1, h2, h3, h4, h5, h6, h7⟩ := word_at_toBytes (sys_boot_img_info.ofBytes m)
  rw [h0, h1, h2, h3, h4, h5, h6, h7]
  have b0 := byte_at_lt m 0
  have b1 := byte_at_lt m 1
  have b2 := byte_at_lt m 2
  have b3 := byte_at_lt m 3
  have b16 := byte_at_lt m 16
  have b17 := byte_at_lt m 17
  have b18 := byte_at_lt m 18
  have b19 := byte_at_lt m 19
  have w1 := word_at_lt m 1
  have w2 := word_at_lt m 2
  have w3 := word_at_lt m 3
  have w5 := word_at_lt m 5
  have w6 := word_at_lt m 6
  have w7 := word_at_lt m 7
  simp only [sys_boot_img_info.ofBytes]
  refine ⟨?_, ?_, ?_, ?_, ?_, ?_, ?_, ?_⟩
  · simp only [word_at, Nat.mul_zero, Nat.zero_add]; omega
  · omega
  · omega
  · omega
  · simp only [word_at, Nat.reduceMul, Nat.reduceAdd]; omega
  · omega
  · omega
  · omega

theorem word_at_set_ne (m : List Nat) (i b j : Nat) (h : i / 4 ≠ j) :
    word_at (m.set i b) j = word_at m j := by
  unfold word_at
  rw [byte_at_set, byte_at_set, byte_at_set, byte_at_set]
  rw [if_neg (by omega), if_neg (by omega), if_neg (by omega), if_neg (by omega)]

theorem word_at_set_eq (m : List Nat) (i b : Nat) (hi : i < m.length) (hb : b < 256)
    (hne : b ≠ byte_at m i) : word_at (m.set i b) (i / 4) ≠ word_at m (i / 4) := by
  have c0 := byte_at_lt m (4 * (i / 4))
  have c1 := byte_at_lt m (4 * (i / 4) + 1)
  have c2 := byte_at_lt m (4 * (i / 4) + 2)
  have c3 := byte_at_lt m (4 * (i / 4) + 3)
  unfold word_at
  rw [byte_at_set, byte_at_set, byte_at_set, byte_at_set]
  have hc : i % 4 = 0 ∨ i % 4 = 1 ∨ i % 4 = 2 ∨ i % 4 = 3 := by omega
  rcases hc with hc | hc | hc | hc
  · have e : 4 * (i / 4) = i := by omega
    rw [if_pos ⟨e, hi⟩, if_neg (by omega), if_neg (by omega), if_neg (by omega)]
    have e2 : byte_at m (4 * (i / 4)) = byte_at m i := by rw [e]
    omega
  · have e : 4 * (i / 4) + 1 = i := by omega
    rw [if_neg (by omega), if_pos ⟨e, hi⟩, if_neg (by omega), if_neg (by omega)]
    have e2 : byte_at m (4 * (i / 4) + 1) = byte_at m i := by rw [e]
    omega
  · have e : 4 * (i / 4) + 2 = i := by omega
    rw [if_neg (by omega), if_neg (by omega), if_pos ⟨e, hi⟩, if_neg (by omega)]
    have e2 : byte_at m (4 * (i / 4) + 2) = byte_at m i := by rw [e]
    omega
  · have e : 4 * (i / 4) + 3 = i := by omega
    rw [if_neg (by omega), if_neg (by omega), if_neg (by omega), if_pos ⟨e, hi⟩]
    have e2 : byte_at m (4 * (i / 4) + 3) = byte_at m i := by rw [e]
    omega

theorem byte_at_toBytes_idstr (r : sys_boot_img_info) :
    byte_at r.toBytes 0 = r.idstr0 % 256 ∧ byte_at r.toBytes 1 = r.idstr1 % 256 ∧
    byte_at r.toBytes 2 = r.idstr2 % 256 ∧ byte_at r.toBytes 3 = r.idstr3 % 256 := by
  simp [byte_at, sys_boot_img_info.toBytes]

/-- Replacing one of the bytes of `idstr` of a record that carries `"ABUM"` by a
different byte value breaks the identification string. -/
theorem corrupt_idstr_detected (r : sys_boot_img_info)
    (hid : r.idstr0 = 0x41 ∧ r.idstr1 = 0x42 ∧ r.idstr2 = 0x55 ∧ r.idstr3 = 0x4D)
    (i b : Nat) (hi : i < 4) (hb : b < 256) (hne : b ≠ byte_at r.toBytes i) :
    ¬ ((sys_boot_img_info.ofBytes (r.toBytes.set i b)).idstr0 = 0x41 ∧
       (sys_boot_img_info.ofBytes (r.toBytes.set i b)).idstr1 = 0x42 ∧
       (sys_boot_img_info.ofBytes (r.toBytes.set i b)).idstr2 = 0x55 ∧
       (sys_boot_img_info.ofBytes (r.toBytes.set i b)).idstr3 = 0x4D) := by
  obtain ⟨h0, h1, h2, h3⟩ := hid
  rintro ⟨g0, g1, g2, g3⟩
  have hlen := toBytes_length r
  obtain ⟨e0, e1, e2, e3⟩ := byte_at_toBytes_idstr r
  simp only [sys_boot_img_info.ofBytes, byte_at_set, hlen] at g0 g1 g2 g3
  have hcase : i = 0 ∨ i = 1 ∨ i = 2 ∨ i = 3 := by omega
  rcases hcase with hcase | hcase | hcase | hcase <;> subst hcase <;>
    simp at g0 g1 g2 g3 <;> omega

theorem sum7_change (f g : Nat → Nat) (j0 : Nat)
    (hj : j0 = 0 ∨ j0 = 1 ∨ j0 = 2 ∨ j0 = 4 ∨ j0 = 5 ∨ j0 = 6 ∨ j0 = 7)
    (hf : f j0 < 2 ^ 32) (hg : g j0 < 2 ^ 32) (hne : f j0 ≠ g j0)
    (hsame : ∀ j, j0 ≠ j → f j = g j) :
    (f 0 + f 1 + f 2 + f 4 + f 5 + f 6 + f 7) % 2 ^ 32 ≠
      (g 0 + g 1 + g 2 + g 4 + g 5 + g 6 + g 7) % 2 ^ 32 := by
  intro h
  apply hne
  rcases hj with hj | hj | hj | hj | hj | hj | hj <;> subst hj
  · rw [hsame 1 (by decide), hsame 2 (by decide), hsame 4 (by decide), hsame 5 (by decide),
      hsame 6 (by decide), hsame 7 (by decide)] at h
    omega
  · rw [hsame 0 (by decide), hsame 2 (by decide), hsame 4 (by decide), hsame 5 (by decide),
      hsame 6 (by decide), hsame 7 (by decide)] at h
    omega
  · rw [hsame 0 (by decide), hsame 1 (by decide), hsame 4 (by decide), hsame 5 (by decide),
      hsame 6 (by decide), hsame 7 (by decide)] at h
    omega
  · rw [hsame 0 (by decide), hsame 1 (by decide), hsame 2 (by decide), hsame 5 (by decide),
      hsame 6 (by decide), hsame 7 (by decide)] at h
    omega
  · rw [hsame 0 (by decide), hsame 1 (by decide), hsame 2 (by decide), hsame 4 (by decide),
      hsame 6 (by decide), hsame 7 (by decide)] at h
    omega
  · rw [hsame 0 (by decide), hsame 1 (by decide), hsame 2 (by decide), hsame 4 (by decide),
      hsame 5 (by decide), hsame 7 (by decide)] at h
    omega
  · rw [hsame 0 (by decide), hsame 1 (by decide), hsame 2 (by decide), hsame 4 (by decide),
      hsame 5 (by decide), hsame 6 (by decide)] at h
    omega

/-- Replacing one byte after the `checksum` field, or of `ver` or `len`, of a record
whose checksum is right by a different byte value makes the checksum wrong. -/
theorem corrupt_word_detected (r : sys_boot_img_info)
    (hc : r.checksum = calculate_checksum r) (i b : Nat) (hi : i < 32) (h4 : 4 ≤ i)
    (hout : ¬ (12 ≤ i ∧ i < 16)) (hb : b < 256) (hne : b ≠ byte_at r.toBytes i) :
    (sys_boot_img_info.ofBytes (r.toBytes.set i b)).checksum ≠
      calculate_checksum (sys_boot_img_info.ofBytes (r.toBytes.set i b)) := by
  rw [calculate_checksum_eq] at hc
  rw [calculate_checksum_eq]
  intro gc
  have hlen := toBytes_length r
  obtain ⟨a0, a1, a2, a3, a4, a5, a6, a7⟩ := word_at_ofBytes (r.toBytes.set i b)
  rw [a0, a1, a2, a4, a5, a6, a7] at gc
  have hck : (sys_boot_img_info.ofBytes (r.toBytes.set i b)).checksum =
      word_at r.toBytes 3 := by
    show word_at (r.toBytes.set i b) 3 = _
    exact word_at_set_ne _ _ _ _ (by omega)
  rw [hck] at gc
  have h3 := (word_at_toBytes r).2.2.2.1
  have key := sum7_change (word_at (r.toBytes.set i b)) (word_at r.toBytes) (i / 4) (by omega)
    (word_at_lt _ _) (word_at_lt _ _) (word_at_set_eq r.toBytes i b (by omega) hb hne)
    (fun j hj => word_at_set_ne _ _ _ _ hj)
  have hB := Nat.mod_lt (word_at (r.toBytes.set i b) 0 + word_at (r.toBytes.set i b) 1 +
    word_at (r.toBytes.set i b) 2 + word_at (r.toBytes.set i b) 4 +
    word_at (r.toBytes.set i b) 5 + word_at (r.toBytes.set i b) 6 +
    word_at (r.toBytes.set i b) 7) (show 0 < 2 ^ 32 by norm_num)
  have hA := Nat.mod_lt (word_at r.toBytes 0 + word_at r.toBytes 1 + word_at r.toBytes 2 +
    word_at r.toBytes 4 + word_at r.toBytes 5 + word_at r.toBytes 6 +
    word_at r.toBytes 7) (show 0 < 2 ^ 32 by norm_num)
  generalize (word_at (r.toBytes.set i b) 0 + word_at (r.toBytes.set i b) 1 +
    word_at (r.toBytes.set i b) 2 + word_at (r.toBytes.set i b) 4 +
    word_at (r.toBytes.set i b) 5 + word_at (r.toBytes.set i b) 6 +
    word_at (r.toBytes.set i b) 7) % 2 ^ 32 = B at key gc hB
  generalize (word_at r.toBytes 0 + word_at r.toBytes 1 + word_at r.toBytes 2 +
    word_at r.toBytes 4 + word_at r.toBytes 5 + word_at r.toBytes 6 +
    word_at r.toBytes 7) % 2 ^ 32 = A at key hc hA
  omega

theorem next_eq (w : World) :
    w.next = (w.script.headD Outcome.ok, { w with script := w.script.tail }) := by
  unfold World.next
  rcases w with ⟨c, r, s, l⟩
  cases s <;> rfl

theorem bytes_read_append (a b : List Event) (p : Path) :
    bytes_read (a ++ b) p = bytes_read a p ++ bytes_read b p := by
  induction a with
  | nil => simp [bytes_read]
  | cons e es ih =>
    cases e <;> simp [bytes_read, ih]
    split <;> simp

/-- The stale value of the `checksum` field plays no role in `calculate_checksum`. -/
theorem calculate_checksum_stale (r : sys_boot_img_info) (X : Nat) :
    calculate_checksum { r with checksum := X } = calculate_checksum r := by
  rw [calculate_checksum_eq, calculate_checksum_eq]
  obtain ⟨a0, a1, a2, _, a4, a5, a6, a7⟩ := word_at_toBytes r
  obtain ⟨b0, b1, b2, _, b4, b5, b6, b7⟩ := word_at_toBytes { r with checksum := X }
  rw [a0, a1, a2, a4, a5, a6, a7, b0, b1, b2, b4, b5, b6, b7]

theorem word_at_WF (r : sys_boot_img_info) (h : r.WF) :
    word_at r.toBytes 1 = r.ver ∧ word_at r.toBytes 2 = r.len ∧
    word_at r.toBytes 3 = r.checksum ∧ word_at r.toBytes 5 = r.boot_img_a_offset ∧
    word_at r.toBytes 6 = r.boot_img_b_offset ∧ word_at r.toBytes 7 = r.recovery_img_offset := by
  obtain ⟨_, a1, a2, a3, _, a5, a6, a7⟩ := word_at_toBytes r
  unfold sys_boot_img_info.WF at h
  rw [a1, a2, a3, a5, a6, a7]
  omega


@[simp] theorem emit_script (w : World) (e : Event) : (w.emit e).script = w.script := rfl
@[simp] theorem emit_content (w : World) (e : Event) : (w.emit e).content = w.content := rfl
@[simp] theorem emit_revision (w : World) (e : Event) : (w.emit e).revision = w.revision := rfl
@[simp] theorem store_script (w : World) (p : Path) (b : List Nat) :
    (w.store p b).script = w.script := rfl
@[simp] theorem store_revision (w : World) (p : Path) (b : List Nat) :
    (w.store p b).revision = w.revision := rfl
@[simp] theorem store_content_same (w : World) (p : Path) (b : List Nat) :
    (w.store p b).content p = b := by simp [World.store]
theorem store_content_other (w : World) (p q : Path) (b : List Nat) (h : q ≠ p) :
    (w.store p b).content q = w.content q := by simp [World.store, h]

theorem next_nil (w : World) (h : w.script = []) : w.next = (Outcome.ok, w) := by
  unfold World.next; rw [h]

theorem sys_open_ok (w : World) (p : Path) (h : w.script = []) :
    sys_open w p = (some { path := p, pos := 0 }, w.emit (Event.open p true)) := by
  unfold sys_open; rw [next_nil w h]

theorem ioctl_MEMGETINFO_ok (w : World) (fd : Fd) (h : w.script = []) :
    ioctl_MEMGETINFO w fd =
      (0, (w.content fd.path).length, w.emit (Event.getinfo fd.path 0)) := by
  unfold ioctl_MEMGETINFO; rw [next_nil w h]

theorem ioctl_MEMERASE_ok (w : World) (fd : Fd) (start length : Nat) (h : w.script = []) :
    ioctl_MEMERASE w fd start length =
      (0, (w.store fd.path (overlay (w.content fd.path) start
        (List.replicate (min length ((w.content fd.path).length - start)) 0xFF))).emit
          (Event.erase fd.path 0)) := by
  unfold ioctl_MEMERASE; rw [next_nil w h]

theorem sys_lseek_ok (w : World) (fd : Fd) (offset : Nat) (h : w.script = []) :
    sys_lseek w fd offset =
      (((offset : Nat) : Int), { fd with pos := offset },
        w.emit (Event.lseek fd.path offset offset)) := by
  unfold sys_lseek; rw [next_nil w h]

theorem sys_write_ok (w : World) (fd : Fd) (buf : List Nat) (h : w.script = []) :
    sys_write w fd buf = put w fd buf buf := by
  unfold sys_write; rw [next_nil w h]

theorem sys_read_ok (w : World) (fd : Fd) (len : Nat) (h : w.script = []) :
    sys_read w fd len =
      ((((((w.content fd.path).drop fd.pos).take len).length : Nat) : Int),
        ((w.content fd.path).drop fd.pos).take len,
        { fd with pos := fd.pos + (((w.content fd.path).drop fd.pos).take len).length },
        w.emit (Event.read fd.path len (((w.content fd.path).drop fd.pos).take len)
          (((w.content fd.path).drop fd.pos).take len).length)) := by
  unfold sys_read; rw [next_nil w h]

theorem sys_calloc_ok (w : World) (size : Nat) (h : w.script = []) :
    sys_calloc w size = (some (List.replicate size 0), w) := by
  unfold sys_calloc; rw [next_nil w h]

theorem sys_fstat_ok (w : World) (fd : Fd) (h : w.script = []) :
    sys_fstat w fd = (0, (w.content fd.path).length, w.emit (Event.fstat fd.path 0)) := by
  unfold sys_fstat; rw [next_nil w h]

/-- On a faithful medium of at least 32 bytes, `update_persistent_registers`
succeeds; the partition then holds the record followed by erased bytes. -/
theorem update_persistent_registers_ok (s : State) (p : Path) (h : s.world.script = [])
    (hsz : 32 ≤ (s.world.content p).length) :
    ∃ w, update_persistent_registers s p =
        (XST_SUCCESS, { s with boot_img_info := stamped s.boot_img_info, world := w }) ∧
      w.script = [] ∧ w.revision = s.world.revision ∧
      w.content p = (stamped s.boot_img_info).toBytes ++
          List.replicate ((s.world.content p).length - 32) 0xFF ∧
      ∀ q, q ≠ p → w.content q = s.world.content q := by
  have hl := toBytes_length (stamped s.boot_img_info)
  unfold stamped at *
  simp only [update_persistent_registers, sys_open_ok _ _ h, ioctl_MEMGETINFO_ok, h,
    emit_script, store_script, ioctl_MEMERASE_ok, sys_lseek_ok, sys_write_ok, put, sys_close,
    XST_SUCCESS, XST_FAILURE, sizeof_boot_img_info]
  simp [overlay, hl, hsz, store_content_other]
  refine ⟨h, fun q hq => ?_⟩
  simp [World.store, World.emit, hq]

theorem update_persistent_registers_small (s : State) (p : Path) (h : s.world.script = [])
    (hsz : (s.world.content p).length < 32) :
    (update_persistent_registers s p).1 = XST_FAILURE := by
  have hl := toBytes_length (stamped s.boot_img_info)
  unfold stamped at *
  simp only [update_persistent_registers, sys_open_ok _ _ h, ioctl_MEMGETINFO_ok, h,
    emit_script, store_script, ioctl_MEMERASE_ok, sys_lseek_ok, sys_write_ok, put, sys_close,
    XST_SUCCESS, XST_FAILURE, sizeof_boot_img_info]
  simp [overlay, hl, hsz]

theorem ofBytes_toBytes (r : sys_boot_img_info) (h : r.WF) :
    sys_boot_img_info.ofBytes r.toBytes = r := by
  obtain ⟨a1, a2, a3, a5, a6, a7⟩ := word_at_WF r h
  unfold sys_boot_img_info.WF at h
  rcases r with ⟨i0, i1, i2, i3, v, l, c, ⟨p0, p1, p2, p3⟩, oa, ob, orr⟩
  simp only at h a1 a2 a3 a5 a6 a7
  simp only [sys_boot_img_info.ofBytes, a1, a2, a3, a5, a6, a7]
  simp [byte_at, sys_boot_img_info.toBytes, le32]
  omega

theorem load_full (old : sys_boot_img_info) (bytes : List Nat) (h : bytes.length = 32) :
    load old bytes = sys_boot_img_info.ofBytes bytes := by
  unfold load
  rw [h, List.drop_of_length_le (by rw [toBytes_length])]
  simp

theorem stamped_WF (r : sys_boot_img_info) (h : r.WF) : (stamped r).WF := by
  have hc : calculate_checksum r < 2 ^ 32 := by rw [calculate_checksum_eq]; omega
  unfold sys_boot_img_info.WF at *
  simp only [stamped]
  omega

theorem stamped_valid (r : sys_boot_img_info)
    (hid : r.idstr0 = 0x41 ∧ r.idstr1 = 0x42 ∧ r.idstr2 = 0x55 ∧ r.idstr3 = 0x4D) :
    (validate_boot_img_info (stamped r)).1 = XST_SUCCESS := by
  rw [validate_iff]
  unfold stamped
  exact ⟨hid, (calculate_checksum_stale r _).symm⟩

theorem Eff.trans {p : Path} {w w1 w2 : World} {e1 e2 : List Event}
    (h1 : Eff p w w1 e1) (h2 : Eff p w1 w2 e2) : Eff p w w2 (e1 ++ e2) := by
  obtain ⟨a1, b1, c1⟩ := h1
  obtain ⟨a2, b2, c2⟩ := h2
  refine ⟨by rw [a2, a1, List.append_assoc], fun q hq => ?_, by rw [c2, c1]⟩
  rw [b2 q hq, b1 q hq]

theorem Eff.refl (p : Path) (w : World) : Eff p w w [] :=
  ⟨by simp, fun _ _ => rfl, rfl⟩

theorem sys_open_eff (w : World) (p : Path) :
    Eff p w (sys_open w p).2 [Event.open p (sys_open w p).1.isSome] ∧
    ∀ fd, (sys_open w p).1 = some fd → fd.path = p := by
  unfold sys_open
  rw [next_eq]
  cases w.script.headD Outcome.ok <;> simp [Eff, World.emit]

theorem sys_close_eff (w : World) (fd : Fd) :
    Eff fd.path w (sys_close w fd) [Event.close fd.path] := by
  simp [Eff, sys_close, World.emit]

theorem ioctl_MEMGETINFO_eff (w : World) (fd : Fd) :
    Eff fd.path w (ioctl_MEMGETINFO w fd).2.2 [Event.getinfo fd.path (ioctl_MEMGETINFO w fd).1] := by
  unfold ioctl_MEMGETINFO
  rw [next_eq]
  cases w.script.headD Outcome.ok <;> simp [Eff, World.emit]

theorem ioctl_MEMERASE_eff (w : World) (fd : Fd) (start length : Nat) :
    Eff fd.path w (ioctl_MEMERASE w fd start length).2
      [Event.erase fd.path (ioctl_MEMERASE w fd start length).1] := by
  unfold ioctl_MEMERASE
  rw [next_eq]
  cases w.script.headD Outcome.ok <;> simp +contextual [Eff, World.emit, World.store]

theorem sys_lseek_eff (w : World) (fd : Fd) (offset : Nat) :
    Eff fd.path w (sys_lseek w fd offset).2.2
      [Event.lseek fd.path offset (sys_lseek w fd offset).1] ∧
    (sys_lseek w fd offset).2.1.path = fd.path := by
  unfold sys_lseek
  rw [next_eq]
  cases w.script.headD Outcome.ok <;> simp [Eff, World.emit]

theorem put_eff (w : World) (fd : Fd) (buf data : List Nat) :
    Eff fd.path w (put w fd buf data).2.2 [Event.write fd.path buf (put w fd buf data).1] ∧
    (put w fd buf data).2.1.path = fd.path := by
  simp +contextual [put, Eff, World.emit, World.store]

theorem sys_write_eff (w : World) (fd : Fd) (buf : List Nat) :
    Eff fd.path w (sys_write w fd buf).2.2 [Event.write fd.path buf (sys_write w fd buf).1] ∧
    (sys_write w fd buf).2.1.path = fd.path := by
  unfold sys_write
  rw [next_eq]
  cases w.script.headD Outcome.ok
  · exact put_eff _ _ _ _
  · simp [Eff, World.emit]
  · exact put_eff _ _ _ _

theorem sys_read_eff (w : World) (fd : Fd) (len : Nat) :
    Eff fd.path w (sys_read w fd len).2.2.2
      [Event.read fd.path len (sys_read w fd len).2.1 (sys_read w fd len).1] ∧
    (sys_read w fd len).2.2.1.path = fd.path := by
  unfold sys_read
  rw [next_eq]
  cases w.script.headD Outcome.ok <;> simp [Eff, World.emit]

/-- The read-back loop only reads from the file of its descriptor; when it runs to
its end, its value is the one-pass CRC of the bytes it read. -/
theorem read_back_eff (fuel : Nat) (w : World) (fd : Fd) (n crc : Nat) (ret : Int) :
    ∃ evs, Eff fd.path w (read_back fuel w fd n crc ret).2.2.2.2.2 evs ∧
      (read_back fuel w fd n crc ret).2.2.2.2.1.path = fd.path ∧
      ((read_back fuel w fd n crc ret).1 = true →
        (read_back fuel w fd n crc ret).2.2.2.1 =
          calculate_image_checksum (bytes_read evs fd.path) crc) ∧
      ((read_back fuel w fd n crc ret).1 = false →
        (read_back fuel w fd n crc ret).2.1 = XST_FAILURE) := by
  induction fuel generalizing w fd n crc ret with
  | zero =>
    exact ⟨[], Eff.refl _ _, rfl, by simp [read_back, bytes_read, calculate_image_checksum],
      by simp [read_back]⟩
  | succ k ih =>
    unfold read_back
    by_cases hn : n > 0
    · simp only [hn, if_true]
      obtain ⟨hl, hp⟩ := sys_read_eff w fd (if n > 1024 then 1024 else n)
      rcases hr : sys_read w fd (if n > 1024 then 1024 else n) with ⟨r, buf, fd1, w1⟩
      rw [hr] at hl hp
      simp only at hl hp ⊢
      by_cases hc : r ≠ ((if n > 1024 then 1024 else n : Nat) : Int)
      · rw [if_pos hc]
        exact ⟨_, hl, hp, by simp, by simp⟩
      · rw [if_neg hc]
        obtain ⟨evs, h1, h2, h3, h4⟩ := ih w1 fd1 (n - if n > 1024 then 1024 else n)
          (calculate_image_checksum buf crc) r
        rw [hp] at h1 h2 h3
        refine ⟨_, hl.trans h1, h2, ?_, h4⟩
        intro ht
        rw [h3 ht]
        simp [bytes_read, calculate_image_checksum_append]
    · rw [if_neg hn]
      exact ⟨[], Eff.refl _ _, rfl, by simp [bytes_read, calculate_image_checksum], by simp⟩

theorem read_back_ret_pos (fuel : Nat) (w : World) (fd : Fd) (n crc : Nat) (ret : Int)
    (hret : 1 ≤ ret ∧ ret ≤ 1024) (hfin : (read_back fuel w fd n crc ret).1 = true) :
    1 ≤ (read_back fuel w fd n crc ret).2.1 ∧ (read_back fuel w fd n crc ret).2.1 ≤ 1024 := by
  induction fuel generalizing w fd n crc ret with
  | zero => simpa [read_back] using hret
  | succ k ih =>
    unfold read_back at hfin ⊢
    by_cases hn : n > 0
    · simp only [hn, if_true] at hfin ⊢
      rcases hr : sys_read w fd (if n > 1024 then 1024 else n) with ⟨r, buf, fd1, w1⟩
      rw [hr] at hfin
      simp only at hfin ⊢
      by_cases hc : r ≠ ((if n > 1024 then 1024 else n : Nat) : Int)
      · rw [if_pos hc] at hfin
        exact absurd hfin (by simp)
      · rw [if_neg hc] at hfin ⊢
        rw [not_not] at hc
        refine ih w1 fd1 _ _ r ?_ hfin
        rw [hc]
        split <;> omega
    · rw [if_neg hn]
      exact hret

/-- When the read-back loop runs to its end, either it had nothing to read and left
`ret` and the CRC as they were, or `ret` is the length of its last chunk. -/
theorem read_back_ret (fuel : Nat) (w : World) (fd : Fd) (n crc : Nat) (ret : Int)
    (hfin : (read_back fuel w fd n crc ret).1 = true) :
    ((fuel = 0 ∨ n = 0) ∧ (read_back fuel w fd n crc ret).2.2.2.1 = crc) ∨
    (1 ≤ (read_back fuel w fd n crc ret).2.1 ∧ (read_back fuel w fd n crc ret).2.1 ≤ 1024) := by
  cases fuel with
  | zero => exact Or.inl ⟨Or.inl rfl, rfl⟩
  | succ k =>
    unfold read_back at hfin ⊢
    by_cases hn : n > 0
    · right
      simp only [hn, if_true] at hfin ⊢
      rcases hr : sys_read w fd (if n > 1024 then 1024 else n) with ⟨r, buf, fd1, w1⟩
      rw [hr] at hfin
      simp only at hfin ⊢
      by_cases hc : r ≠ ((if n > 1024 then 1024 else n : Nat) : Int)
      · rw [if_pos hc] at hfin
        exact absurd hfin (by simp)
      · rw [if_neg hc] at hfin ⊢
        rw [not_not] at hc
        refine read_back_ret_pos k w1 fd1 _ _ r ?_ hfin
        rw [hc]
        split <;> omega
    · rw [if_neg hn]
      exact Or.inl ⟨Or.inr (by omega), rfl⟩

theorem update_image_spec (s : State) (p : Path) :
    ∃ evs, Eff p s.world (update_image s p).2.world evs ∧
      (update_image s p).2.boot_img_info = s.boot_img_info ∧
      (update_image s p).2.srcaddr = s.srcaddr ∧
      ((update_image s p).1 = XST_SUCCESS →
        calculate_image_checksum (bytes_read evs p) 0xFFFFFFFF =
          calculate_image_checksum (s.srcaddr.take s.image_size) 0xFFFFFFFF) := by
  unfold update_image
  obtain ⟨e1, hfd⟩ := sys_open_eff s.world p
  rcases h1 : sys_open s.world p with ⟨_ | fd, w1⟩
  · rw [h1] at e1
    exact ⟨_, e1, rfl, rfl, by simp [XST_SUCCESS, XST_FAILURE]⟩
  · rw [h1] at e1 hfd
    have hp : fd.path = p := hfd fd rfl
    subst hp
    simp only at e1 ⊢
    have e2 := ioctl_MEMGETINFO_eff w1 fd
    rcases h2 : ioctl_MEMGETINFO w1 fd with ⟨r2, size, w2⟩
    rw [h2] at e2
    simp only at e2 ⊢
    by_cases c2 : r2 ≠ XST_SUCCESS
    · rw [if_pos c2]
      exact ⟨_, (e1.trans e2).trans (sys_close_eff w2 fd), rfl, rfl,
        fun h => absurd h c2⟩
    rw [if_neg c2]
    by_cases c3 : s.image_size > size
    · rw [if_pos c3]
      exact ⟨_, (e1.trans e2).trans (sys_close_eff w2 fd), rfl, rfl,
        by simp [XST_SUCCESS, XST_FAILURE]⟩
    rw [if_neg c3]
    have e3 := ioctl_MEMERASE_eff w2 fd 0 size
    rcases h3 : ioctl_MEMERASE w2 fd 0 size with ⟨r3, w3⟩
    rw [h3] at e3
    simp only at e3 ⊢
    by_cases c4 : r3 < 0
    · rw [if_pos c4]
      exact ⟨_, ((e1.trans e2).trans e3).trans (sys_close_eff w3 fd), rfl, rfl,
        fun h => by simp only [XST_SUCCESS] at h; omega⟩
    rw [if_neg c4]
    obtain ⟨e4, p4⟩ := sys_lseek_eff w3 fd 0
    rcases h4 : sys_lseek w3 fd 0 with ⟨r4, fd4, w4⟩
    rw [h4] at e4 p4
    simp only at e4 p4 ⊢
    by_cases c5 : r4 ≠ 0
    · rw [if_pos c5]
      have ec := sys_close_eff w4 fd4
      rw [p4] at ec
      exact ⟨_, (((e1.trans e2).trans e3).trans e4).trans ec, rfl, rfl,
        fun h => absurd h c5⟩
    rw [if_neg c5]
    obtain ⟨e5, p5⟩ := sys_write_eff w4 fd4 (s.srcaddr.take s.image_size)
    rcases h5 : sys_write w4 fd4 (s.srcaddr.take s.image_size) with ⟨r5, fd5, w5⟩
    rw [h5] at e5 p5
    rw [p4] at e5 p5
    simp only at e5 p5 ⊢
    by_cases c6 : r5 ≠ (s.image_size : Int)
    · rw [if_pos c6]
      have ec := sys_close_eff w5 fd5
      rw [p5] at ec
      exact ⟨_, ((((e1.trans e2).trans e3).trans e4).trans e5).trans ec, rfl, rfl,
        by simp [XST_SUCCESS, XST_FAILURE]⟩
    rw [if_neg c6]
    obtain ⟨e6, p6⟩ := sys_lseek_eff w5 fd5 0
    rcases h6 : sys_lseek w5 fd5 0 with ⟨r6, fd6, w6⟩
    rw [h6] at e6 p6
    rw [p5] at e6 p6
    simp only at e6 p6 ⊢
    by_cases c7 : r6 ≠ 0
    · rw [if_pos c7]
      have ec := sys_close_eff w6 fd6
      rw [p6] at ec
      exact ⟨_, (((((e1.trans e2).trans e3).trans e4).trans e5).trans e6).trans ec, rfl, rfl,
        fun h => absurd h c7⟩
    rw [if_neg c7]
    obtain ⟨evs, e7, p7, hcrc, hfail⟩ := read_back_eff s.image_size w6 fd6 s.image_size 0xFFFFFFFF r6
    rcases h7 : read_back s.image_size w6 fd6 s.image_size 0xFFFFFFFF r6 with
      ⟨fin, r7, sz7, crc7, fd7, w7⟩
    rw [h7] at e7 p7 hcrc hfail
    rw [p6] at e7 p7 hcrc
    simp only at e7 p7 hcrc hfail
    have ec := sys_close_eff w7 fd7
    rw [p7] at ec
    have eall := ((((((e1.trans e2).trans e3).trans e4).trans e5).trans e6).trans e7).trans ec
    have hrb := read_back_ret s.image_size w6 fd6 s.image_size 0xFFFFFFFF r6
    rw [h7] at hrb
    simp only at hrb
    have hbytes : bytes_read ([Event.open fd.path (some fd).isSome] ++
        [Event.getinfo fd.path r2] ++ [Event.erase fd.path r3] ++ [Event.lseek fd.path 0 r4] ++
        [Event.write fd.path (List.take s.image_size s.srcaddr) r5] ++
        [Event.lseek fd.path 0 r6] ++ evs ++ [Event.close fd.path]) fd.path =
        bytes_read evs fd.path := by
      simp [bytes_read, bytes_read_append]
    cases fin
    · refine ⟨_, eall, rfl, rfl, fun h => ?_⟩
      have h2 : r7 = XST_SUCCESS := h
      rw [hfail rfl] at h2
      exact absurd h2 (by decide)
    · by_cases c8 : calculate_image_checksum (s.srcaddr.take s.image_size) 0xFFFFFFFF ≠ crc7
      · simp only [if_pos c8]
        refine ⟨_, eall, trivial, trivial, fun h => ?_⟩
        exfalso
        rcases hrb rfl with ⟨hz, hcrc0⟩ | hpos
        · have hz2 : s.image_size = 0 := by omega
          rw [hz2, hcrc0] at c8
          simp [calculate_image_checksum] at c8
        · simp only [XST_SUCCESS] at h
          omega
      · simp only [if_neg c8]
        refine ⟨_, eall, trivial, trivial, fun _ => ?_⟩
        rw [not_not] at c8
        rw [c8, hcrc rfl, hbytes]

theorem read_back_ok (fuel : Nat) (w : World) (fd : Fd) (n crc : Nat) (ret : Int)
    (h : w.script = []) (hfuel : n ≤ fuel) (hroom : fd.pos + n ≤ (w.content fd.path).length) :
    ∃ ret1 fd1 w1, read_back fuel w fd n crc ret =
        (true, ret1, 0,
          calculate_image_checksum (((w.content fd.path).drop fd.pos).take n) crc, fd1, w1) ∧
      w1.script = [] ∧ w1.content = w.content ∧ w1.revision = w.revision := by
  induction fuel generalizing w fd n crc ret with
  | zero =>
    have hn : n = 0 := by omega
    subst hn
    exact ⟨ret, fd, w, by simp [read_back, calculate_image_checksum], h, rfl, rfl⟩
  | succ k ih =>
    unfold read_back
    by_cases hn : n > 0
    · simp only [hn, if_true]
      rw [sys_read_ok _ _ _ h]
      have hlen : (((w.content fd.path).drop fd.pos).take (if n > 1024 then 1024 else n)).length
          = if n > 1024 then 1024 else n := by
        rw [List.length_take, List.length_drop]
        split <;> omega
      simp only [hlen, ne_eq, not_true_eq_false, if_false]
      obtain ⟨ret1, fd1, w1, e, h1, h2, h3⟩ := ih
        (w.emit (Event.read fd.path (if n > 1024 then 1024 else n)
          (((w.content fd.path).drop fd.pos).take (if n > 1024 then 1024 else n))
          ((if n > 1024 then 1024 else n : Nat) : Int)))
        { fd with pos := fd.pos + if n > 1024 then 1024 else n }
        (n - if n > 1024 then 1024 else n)
        (calculate_image_checksum
          (((w.content fd.path).drop fd.pos).take (if n > 1024 then 1024 else n)) crc)
        ((if n > 1024 then 1024 else n : Nat) : Int) (by simpa using h)
        (by split <;> omega) (by simp only [emit_content]; split <;> omega)
      refine ⟨ret1, fd1, w1, ?_, h1, h2, h3⟩
      rw [e]
      simp only [emit_content, ← calculate_image_checksum_append]
      congr 3
      have hsplit : n = (if n > 1024 then 1024 else n) + (n - if n > 1024 then 1024 else n) := by
        split <;> omega
      conv_rhs => rw [hsplit, List.take_add, List.drop_drop]
    · have hn0 : n = 0 := by omega
      subst hn0
      exact ⟨ret, fd, w, by simp [calculate_image_checksum], h, rfl, rfl⟩

theorem read_back_ok_inv (fuel : Nat) (w : World) (fd : Fd) (n crc : Nat) (ret : Int)
    (h : w.script = []) (hfuel : n ≤ fuel) (hroom : fd.pos + n ≤ (w.content fd.path).length)
    (fin : Bool) (ret1 : Int) (sz crc1 : Nat) (fd1 : Fd) (w1 : World)
    (heq : read_back fuel w fd n crc ret = (fin, ret1, sz, crc1, fd1, w1)) :
    fin = true ∧ sz = 0 ∧
      crc1 = calculate_image_checksum (((w.content fd.path).drop fd.pos).take n) crc ∧
      w1.script = [] ∧ w1.content = w.content ∧ w1.revision = w.revision := by
  obtain ⟨r, f, v, e, h1, h2, h3⟩ := read_back_ok fuel w fd n crc ret h hfuel hroom
  rw [e] at heq
  simp only [Prod.mk.injEq] at heq
  obtain ⟨a, _, b, c, _, d⟩ := heq
  subst a b c d
  exact ⟨rfl, rfl, rfl, h1, h2, h3⟩

theorem validate_snd (r : sys_boot_img_info) (h : (validate_boot_img_info r).1 = XST_SUCCESS) :
    (validate_boot_img_info r).2 = r := by
  obtain ⟨hid, hc⟩ := (validate_iff r).1 h
  have e : ({ r with checksum := calculate_checksum r } : sys_boot_img_info) = r := by
    rw [← hc]
  unfold validate_boot_img_info
  rw [if_pos hid]
  dsimp only
  rw [if_pos hc, e]

theorem overlay_erase_all (old : List Nat) :
    overlay old 0 (List.replicate (min old.length (old.length - 0)) 0xFF) =
      List.replicate old.length 0xFF := by
  simp [overlay]

theorem overlay_write_erased (n : Nat) (data : List Nat) (h : data.length ≤ n) :
    overlay (List.replicate n 0xFF) 0 (data.take (n - 0)) =
      data ++ List.replicate (n - data.length) 0xFF := by
  simp [overlay, List.take_of_length_le h]

/-- On a faithful medium `update_image` writes an image that fits, reads it back,
finds the CRCs equal and succeeds. -/
theorem update_image_ok (s : State) (p : Path) (h : s.world.script = [])
    (hsrc : s.image_size = s.srcaddr.length)
    (hfit : s.image_size ≤ (s.world.content p).length) :
    ∃ w, update_image s p = (XST_SUCCESS, { s with image_size := 0, world := w }) ∧
      w.script = [] ∧ w.revision = s.world.revision ∧
      w.content p = s.srcaddr ++ List.replicate ((s.world.content p).length - s.image_size) 0xFF ∧
      ∀ q, q ≠ p → w.content q = s.world.content q := by
  have htake : s.srcaddr.take s.image_size = s.srcaddr := by
    rw [hsrc]; exact List.take_length _
  have hnot : ¬ s.image_size > (s.world.content p).length := by omega
  unfold update_image
  simp only [sys_open_ok _ _ h, ioctl_MEMGETINFO_ok, ioctl_MEMERASE_ok, sys_lseek_ok, h,
    emit_script, store_script, XST_SUCCESS, XST_FAILURE, emit_content, hnot, if_false,
    ne_eq, not_true_eq_false, lt_self_iff_false, overlay_erase_all, Nat.cast_zero, htake,
    sys_write_ok, put, store_content_same, List.length_replicate,
    overlay_write_erased _ _ (hsrc ▸ hfit)]
  have hlen : ((s.srcaddr.take ((s.world.content p).length - 0)).length : Int) = s.image_size := by
    rw [List.take_of_length_le (by omega), hsrc]
  simp only [hlen, not_true_eq_false, if_false, List.take_of_length_le (show s.srcaddr.length ≤
    (s.world.content p).length - 0 by omega)]
  rw [if_neg (by simp [hsrc])]
  split
  · rename_i ret1 sz crc1 fd1 w1 heq
    have := read_back_ok_inv _ _ _ _ _ _ (by simp [h]) le_rfl
      (by simp [World.store, World.emit]; omega) _ _ _ _ _ _ heq
    exact absurd this.1 (by simp)
  · rename_i ret1 sz crc1 fd1 w1 heq
    obtain ⟨-, hsz, hcrc, hs1, hc1, hr1⟩ := read_back_ok_inv _ _ _ _ _ _ (by simp [h]) le_rfl
      (by simp [World.store, World.emit]; omega) _ _ _ _ _ _ heq
    have hcrc2 : crc1 = calculate_image_checksum s.srcaddr 4294967295 := by
      rw [hcrc]
      simp [World.store, World.emit, hsrc]
    subst hsz
    rw [if_neg (by rw [hcrc2]; simp)]
    refine ⟨_, rfl, by simpa [sys_close] using hs1, by simp [sys_close, hr1, World.store, World.emit], ?_, ?_⟩
    · simp [sys_close, hc1, World.store, World.emit, hsrc]
    · intro q hq
      simp [sys_close, hc1, World.store, World.emit, hq]

/-- On a faithful medium `verify_current_running_image` loads a valid copy and marks
the running bank bootable. -/
theorem verify_ok (s : State) (p : Path) (h : s.world.script = []) (hv : valid_copy s.world p) :
    ∃ w, verify_current_running_image s p =
        (XST_SUCCESS,
          { s with boot_img_info := mark_running_bootable (stored_record s.world p), world := w }) ∧
      w.script = [] ∧ w.revision = s.world.revision ∧ w.content = s.world.content := by
  obtain ⟨hsz, hval⟩ := hv
  simp only [sizeof_boot_img_info] at hsz
  have hlen : ((s.world.content p).take 32).length = 32 := by
    rw [List.length_take]; omega
  have hload : load s.boot_img_info ((s.world.content p).take 32) = stored_record s.world p :=
    load_full _ _ hlen
  have hsnd := validate_snd _ hval
  unfold verify_current_running_image
  simp only [sys_open_ok _ _ h, sys_read_ok _ _ _ (show (s.world.emit _).script = [] from h),
    emit_content, List.drop_zero, sizeof_boot_img_info, hlen, hload, Nat.cast_ofNat,
    ne_eq, not_true_eq_false, if_false, hval, hsnd]
  exact ⟨_, rfl, by simp [sys_close, h], by simp [sys_close], by simp [sys_close]⟩

/-- On a faithful medium `verify_current_running_image` rejects a copy that is not valid
and leaves the medium as it is. -/
theorem verify_fail (s : State) (p : Path) (h : s.world.script = []) (hv : ¬ valid_copy s.world p) :
    ∃ ret r w, verify_current_running_image s p =
        (ret, { s with boot_img_info := r, world := w }) ∧ ret ≠ XST_SUCCESS ∧
      w.script = [] ∧ w.revision = s.world.revision ∧ w.content = s.world.content := by
  unfold verify_current_running_image
  simp only [sys_open_ok _ _ h, sys_read_ok _ _ _ (show (s.world.emit _).script = [] from h),
    emit_content, List.drop_zero, sizeof_boot_img_info]
  by_cases hsz : 32 ≤ (s.world.content p).length
  · have hlen : ((s.world.content p).take 32).length = 32 := by
      rw [List.length_take]; omega
    have hload : load s.boot_img_info ((s.world.content p).take 32) = stored_record s.world p :=
      load_full _ _ hlen
    have hval : (validate_boot_img_info (stored_record s.world p)).1 ≠ XST_SUCCESS :=
      fun hval => hv ⟨hsz, hval⟩
    simp only [hlen, hload, Nat.cast_ofNat, ne_eq, not_true_eq_false, if_false, hval,
      not_false_eq_true, if_true]
    exact ⟨_, _, _, rfl, hval, by simp [sys_close, h], by simp [sys_close], by simp [sys_close]⟩
  · have hlen : (((s.world.content p).take 32).length : Int) ≠ ((32 : Nat) : Int) := by
      rw [List.length_take]; omega
    rw [if_pos hlen]
    exact ⟨_, _, _, rfl, by decide, by simp [sys_close, h], by simp [sys_close],
      by simp [sys_close]⟩

/-- On a faithful medium `read_image_file` loads an image that passes the
identification check. -/
theorem read_image_file_ok (s : State) (p : Path) (h : s.world.script = [])
    (hid : passes_identification (s.world.content p)) :
    ∃ w, read_image_file s p =
        (XST_SUCCESS,
          { s with srcaddr := s.world.content p, image_size := (s.world.content p).length,
                   world := w }) ∧
      w.script = [] ∧ w.revision = s.world.revision ∧ w.content = s.world.content := by
  unfold passes_identification at hid
  unfold read_image_file
  simp only [sys_open_ok _ _ h, sys_fstat_ok _ _ (show (s.world.emit _).script = [] from h),
    sys_calloc_ok _ _ (show ((s.world.emit _).emit _).script = [] from h),
    sys_read_ok _ _ _ (show ((s.world.emit _).emit _).script = [] from h),
    emit_content, List.drop_zero, List.take_length, XST_SUCCESS, ne_eq, not_true_eq_false,
    if_false, List.length_replicate, List.drop_length, List.drop_of_length_le, List.append_nil]
  simp [hid, sys_close, h]

theorem ofBytes_WF (m : List Nat) : (sys_boot_img_info.ofBytes m).WF := by
  have b := byte_at_lt m
  have w := word_at_lt m
  unfold sys_boot_img_info.WF sys_boot_img_info.ofBytes
  exact ⟨b 0, b 1, b 2, b 3, w 1, w 2, w 3, b 16, b 17, b 18, b 19, w 5, w 6, w 7⟩

theorem stamped_stamped (r : sys_boot_img_info) : stamped (stamped r) = stamped r := by
  have := calculate_checksum_stale r (calculate_checksum r)
  unfold stamped
  simp only
  rw [this]

theorem mark_running_bootable_WF (r : sys_boot_img_info) (h : r.WF) :
    (mark_running_bootable r).WF := by
  unfold sys_boot_img_info.WF at *
  unfold mark_running_bootable
  split <;> split <;> first | omega | (simp only; omega)

theorem select_target_WF (r : sys_boot_img_info) (h : r.WF) : (select_target r).1.WF := by
  unfold sys_boot_img_info.WF at *
  unfold select_target
  split <;> first | omega | (simp only; omega)

theorem request_target_WF (r : sys_boot_img_info) (h : r.WF) : (request_target r).WF := by
  unfold sys_boot_img_info.WF at *
  unfold request_target SYS_BOOT_IMG_A_ID SYS_BOOT_IMG_B_ID
  split <;> first | omega | (simp only; omega)

theorem stamped_with (r : sys_boot_img_info) (c : Nat) :
    stamped { r with checksum := c } = stamped r := by
  have := calculate_checksum_stale r c
  unfold stamped
  simp only
  rw [this]

theorem select_target_with (r : sys_boot_img_info) (c : Nat) :
    select_target { r with checksum := c } =
      ({ (select_target r).1 with checksum := c }, (select_target r).2) := by
  unfold select_target
  by_cases hl : r.persistent_state.last_booted_img = SYS_BOOT_IMG_A_ID
  · simp only [hl, if_true]
  · simp only [hl, if_false]

theorem request_target_with (r : sys_boot_img_info) (c : Nat) :
    request_target { r with checksum := c } = { request_target r with checksum := c } := by
  unfold request_target
  by_cases hl : r.persistent_state.last_booted_img = SYS_BOOT_IMG_A_ID
  · simp only [hl, if_true]
  · simp only [hl, if_false]

theorem select_target_stamped (r : sys_boot_img_info) :
    (select_target (stamped r)).2 = (select_target r).2 ∧
    stamped (select_target (stamped r)).1 = stamped (select_target r).1 := by
  have e : stamped r = { r with checksum := calculate_checksum r } := rfl
  rw [e, select_target_with]
  exact ⟨rfl, stamped_with _ _⟩

theorem request_target_stamped (r : sys_boot_img_info) :
    stamped (request_target (stamped r)) = stamped (request_target r) := by
  have e : stamped r = { r with checksum := calculate_checksum r } := rfl
  rw [e, request_target_with]
  exact stamped_with _ _

theorem mark_last (r : sys_boot_img_info) :
    (mark_running_bootable r).persistent_state.last_booted_img =
      r.persistent_state.last_booted_img := by
  unfold mark_running_bootable
  split <;> split <;> rfl

theorem select_target_mark (r : sys_boot_img_info) :
    (select_target (mark_running_bootable r)).2 = (select_target r).2 := by
  have := mark_last r
  unfold select_target
  rw [this]
  split <;> rfl

theorem stored_record_congr (w w1 : World) (p : Path) (h : w1.content = w.content) :
    stored_record w1 p = stored_record w p := by
  unfold stored_record; rw [h]

theorem valid_copy_congr (w w1 : World) (p : Path) (h : w1.content = w.content) :
    valid_copy w1 p ↔ valid_copy w p := by
  unfold valid_copy; rw [stored_record_congr w w1 p h, h]

/-- Loading the state on a faithful medium with a valid copy. -/
theorem load_state_ok (s : State) (h : s.world.script = [])
    (hvalid : valid_copy s.world Path.mtd2 ∨ valid_copy s.world Path.mtd3) :
    ∃ w, load_state s =
        (XST_SUCCESS,
          { s with boot_img_info := mark_running_bootable (loaded_record s.world), world := w }) ∧
      w.script = [] ∧ w.revision = s.world.revision ∧ w.content = s.world.content := by
  unfold load_state loaded_record
  by_cases hv2 : valid_copy s.world Path.mtd2
  · obtain ⟨w1, e1, s1, r1, c1⟩ := verify_ok s Path.mtd2 h hv2
    rw [e1, if_pos hv2]
    exact ⟨w1, by simp, s1, r1, c1⟩
  · have hv3 : valid_copy s.world Path.mtd3 := hvalid.resolve_left hv2
    obtain ⟨ret, r, w0, e0, hne, s0, r0, c0⟩ := verify_fail s Path.mtd2 h hv2
    rw [e0, if_neg hv2]
    simp only [hne, ne_eq, not_false_eq_true, if_true]
    obtain ⟨w1, e1, s1, r1, c1⟩ := verify_ok { s with boot_img_info := r, world := w0 }
      Path.mtd3 s0 ((valid_copy_congr _ _ _ c0).2 hv3)
    rw [e1]
    simp only at r1 c1 ⊢
    rw [stored_record_congr _ _ _ c0]
    exact ⟨w1, rfl, s1, by rw [r1, r0], by rw [c1, c0]⟩

/-- The two writes of a dual-write step on a faithful medium: both succeed and both
state partitions end with the stamped record. -/
theorem persist_both_ok (s : State) (h : s.world.script = [])
    (hsz2 : 32 ≤ (s.world.content Path.mtd2).length)
    (hsz3 : 32 ≤ (s.world.content Path.mtd3).length) :
    ∃ w1 w2, update_persistent_registers s Path.mtd2 =
        (XST_SUCCESS, { s with boot_img_info := stamped s.boot_img_info, world := w1 }) ∧
      update_persistent_registers { s with boot_img_info := stamped s.boot_img_info, world := w1 }
          Path.mtd3 =
        (XST_SUCCESS, { s with boot_img_info := stamped s.boot_img_info, world := w2 }) ∧
      w2.script = [] ∧ w2.revision = s.world.revision ∧
      w2.content Path.mtd2 = (stamped s.boot_img_info).toBytes ++
        List.replicate ((s.world.content Path.mtd2).length - 32) 0xFF ∧
      w2.content Path.mtd3 = (stamped s.boot_img_info).toBytes ++
        List.replicate ((s.world.content Path.mtd3).length - 32) 0xFF ∧
      (∀ q, q ≠ Path.mtd2 → q ≠ Path.mtd3 → w2.content q = s.world.content q) := by
  obtain ⟨w1, e1, s1, r1, c1, f1⟩ := update_persistent_registers_ok s Path.mtd2 h hsz2
  have hsz3b : 32 ≤ (w1.content Path.mtd3).length := by
    rw [f1 Path.mtd3 (by decide)]; exact hsz3
  obtain ⟨w2, e2, s2, r2, c2, f2⟩ := update_persistent_registers_ok
    { s with boot_img_info := stamped s.boot_img_info, world := w1 } Path.mtd3 s1 hsz3b
  simp only [stamped_stamped] at e2 c2
  refine ⟨w1, w2, e1, e2, s2, by rw [r2, r1], ?_, ?_, ?_⟩
  · rw [f2 Path.mtd2 (by decide), c1]
  · rw [c2, f1 Path.mtd3 (by decide)]
  · intro q h2 h3
    rw [f2 q h3, f1 q h2]

theorem select_target_path (r : sys_boot_img_info) :
    (select_target r).2 = Path.mtd7 ∨ (select_target r).2 = Path.mtd5 := by
  unfold select_target
  split
  · exact Or.inl rfl
  · exact Or.inr rfl

/-- The confirm step and the update on a faithful medium. -/
theorem confirm_and_update_ok (s : State) (h : s.world.script = [])
    (hsz2 : 32 ≤ (s.world.content Path.mtd2).length)
    (hsz3 : 32 ≤ (s.world.content Path.mtd3).length)
    (hid : passes_identification (s.world.content Path.image_file))
    (hfit : (s.world.content Path.image_file).length ≤
      (s.world.content (select_target s.boot_img_info).2).length) :
    ∃ w, confirm_and_update s true =
        (XST_SUCCESS,
          { boot_img_info := stamped (request_target (select_target s.boot_img_info).1),
            srcaddr := s.world.content Path.image_file, image_size := 0, world := w }) ∧
      w.content Path.mtd2 = (stamped (request_target (select_target s.boot_img_info).1)).toBytes ++
        List.replicate ((s.world.content Path.mtd2).length - 32) 0xFF ∧
      w.content Path.mtd3 = (stamped (request_target (select_target s.boot_img_info).1)).toBytes ++
        List.replicate ((s.world.content Path.mtd3).length - 32) 0xFF ∧
      w.content (select_target s.boot_img_info).2 = s.world.content Path.image_file ++
        List.replicate ((s.world.content (select_target s.boot_img_info).2).length -
          (s.world.content Path.image_file).length) 0xFF := by
  have htgt2 : (select_target s.boot_img_info).2 ≠ Path.mtd2 := by
    rcases select_target_path s.boot_img_info with e | e <;> rw [e] <;> decide
  have htgt3 : (select_target s.boot_img_info).2 ≠ Path.mtd3 := by
    rcases select_target_path s.boot_img_info with e | e <;> rw [e] <;> decide
  have hlen : ∀ (r : sys_boot_img_info) (n : Nat), 32 ≤ n →
      (r.toBytes ++ List.replicate (n - 32) 0xFF).length = n := by
    intro r n hn
    rw [List.length_append, toBytes_length, List.length_replicate]; omega
  unfold confirm_and_update
  -- the confirm writes
  obtain ⟨w1, w2, e1, e2, s2, r2, c22, c23, f2⟩ := persist_both_ok s h hsz2 hsz3
  rw [e1]
  simp only [XST_SUCCESS, lt_self_iff_false, if_false]
  rw [e2]
  simp only [XST_SUCCESS, lt_self_iff_false, if_false, Bool.true_eq_false]
  -- the image
  unfold update_run
  have ci : w2.content Path.image_file = s.world.content Path.image_file :=
    f2 _ (by decide) (by decide)
  obtain ⟨w3, e3, s3, r3, c3⟩ := read_image_file_ok
    { s with boot_img_info := stamped s.boot_img_info, world := w2 } Path.image_file s2
    (by rw [ci]; exact hid)
  rw [e3]
  simp only [XST_SUCCESS, ne_eq, not_true_eq_false, if_false, ci]
  simp only at r3 c3
  -- the target is marked non bootable
  have c3p : ∀ q, w3.content q = w2.content q := fun q => by rw [c3]
  obtain ⟨w4, w5, e4, e5, s5, r5, c52, c53, f5⟩ := persist_both_ok
    { boot_img_info := (select_target (stamped s.boot_img_info)).1,
      srcaddr := s.world.content Path.image_file,
      image_size := (s.world.content Path.image_file).length, world := w3 } s3
    (by simp only [c3p, c22]; rw [hlen _ _ hsz2]; exact hsz2)
    (by simp only [c3p, c23]; rw [hlen _ _ hsz3]; exact hsz3)
  simp only [c3p, c22, c23, hlen _ _ hsz2, hlen _ _ hsz3] at c52 c53 f5
  simp only [e4, e5, XST_SUCCESS, lt_self_iff_false, if_false]
  -- the image is written and verified
  obtain ⟨hp, hst⟩ := select_target_stamped s.boot_img_info
  rw [hp]
  simp only [hst] at c52 c53 ⊢
  have ct : w5.content (select_target s.boot_img_info).2 =
      s.world.content (select_target s.boot_img_info).2 := by
    rw [f5 _ htgt2 htgt3, f2 _ htgt2 htgt3]
  unfold write_and_commit
  obtain ⟨w6, e6, s6, r6, c6, f6⟩ := update_image_ok
    { boot_img_info := stamped (select_target s.boot_img_info).1,
      srcaddr := s.world.content Path.image_file,
      image_size := (s.world.content Path.image_file).length, world := w5 }
    (select_target s.boot_img_info).2 s5 rfl (by simp only [ct]; exact hfit)
  simp only [ct] at c6
  simp only [e6, XST_SUCCESS, ne_eq, not_true_eq_false, if_false]
  -- the commit writes
  obtain ⟨w7, w8, e7, e8, s8, r8, c82, c83, f8⟩ := persist_both_ok
    { boot_img_info := request_target (stamped (select_target s.boot_img_info).1),
      srcaddr := s.world.content Path.image_file,
      image_size := 0, world := w6 } s6
    (by simp only [f6 _ htgt2.symm, c52]; rw [hlen _ _ hsz2]; exact hsz2)
    (by simp only [f6 _ htgt3.symm, c53]; rw [hlen _ _ hsz3]; exact hsz3)
  simp only [f6 _ htgt2.symm, f6 _ htgt3.symm, c52, c53, hlen _ _ hsz2, hlen _ _ hsz3,
    request_target_stamped] at e7 e8 c82 c83 f8
  simp only [e7, e8, XST_SUCCESS, lt_self_iff_false, if_false]
  refine ⟨_, rfl, ?_, ?_, ?_⟩
  · simpa [World.emit] using c82
  · simpa [World.emit] using c83
  · show (w8.emit _).content _ = _
    rw [emit_content, f8 _ htgt2 htgt3, c6]

/-- The verify-and-update part of `main` on a faithful medium: it succeeds, both
state partitions end with the same record, built from the loaded record, and the
target partition ends with the image. -/
theorem verify_and_update_ok (s : State) (h : s.world.script = [])
    (hboard : validate_board_string s.world = XST_SUCCESS)
    (hsz2 : 32 ≤ (s.world.content Path.mtd2).length)
    (hsz3 : 32 ≤ (s.world.content Path.mtd3).length)
    (hvalid : valid_copy s.world Path.mtd2 ∨ valid_copy s.world Path.mtd3)
    (hid : passes_identification (s.world.content Path.image_file))
    (hfit : (s.world.content Path.image_file).length ≤
      (s.world.content (select_target (loaded_record s.world)).2).length) :
    ∃ w, verify_and_update s true =
        (XST_SUCCESS,
          { boot_img_info := stamped (request_target (select_target
              (mark_running_bootable (loaded_record s.world))).1),
            srcaddr := s.world.content Path.image_file, image_size := 0, world := w }) ∧
      w.content Path.mtd2 = (stamped (request_target (select_target
          (mark_running_bootable (loaded_record s.world))).1)).toBytes ++
        List.replicate ((s.world.content Path.mtd2).length - 32) 0xFF ∧
      w.content Path.mtd3 = (stamped (request_target (select_target
          (mark_running_bootable (loaded_record s.world))).1)).toBytes ++
        List.replicate ((s.world.content Path.mtd3).length - 32) 0xFF ∧
      w.content (select_target (loaded_record s.world)).2 = s.world.content Path.image_file ++
        List.replicate ((s.world.content (select_target (loaded_record s.world)).2).length -
          (s.world.content Path.image_file).length) 0xFF := by
  unfold verify_and_update
  rw [if_neg (by rw [hboard]; simp)]
  obtain ⟨w1, e1, s1, r1, c1⟩ := load_state_ok s h hvalid
  rw [e1]
  simp only [ne_eq, not_true_eq_false, if_false]
  have hsel := select_target_mark (loaded_record s.world)
  obtain ⟨w2, e2, c22, c23, ct⟩ := confirm_and_update_ok
    { s with boot_img_info := mark_running_bootable (loaded_record s.world), world := w1 } s1
    (by simp only [c1]; exact hsz2) (by simp only [c1]; exact hsz3)
    (by simp only [c1]; exact hid) (by simp only [c1, hsel]; exact hfit)
  simp only [c1, hsel] at e2 c22 c23 ct
  exact ⟨w2, e2, c22, c23, ct⟩

/-- On a faithful medium `print_persistent_state` succeeds exactly on a valid copy and
leaves the medium as it is. -/
theorem print_persistent_state_ok (s : State) (p : Path) (h : s.world.script = []) :
    ∃ ret r w, print_persistent_state s p = (ret, { s with boot_img_info := r, world := w }) ∧
      (ret = XST_SUCCESS ↔ valid_copy s.world p) ∧
      w.script = [] ∧ w.revision = s.world.revision ∧ w.content = s.world.content := by
  unfold print_persistent_state
  simp only [sys_open_ok _ _ h, sys_read_ok _ _ _ (show (s.world.emit _).script = [] from h),
    emit_content, List.drop_zero, sizeof_boot_img_info]
  by_cases hsz : 32 ≤ (s.world.content p).length
  · have hlen : ((s.world.content p).take 32).length = 32 := by
      rw [List.length_take]; omega
    have hload : load s.boot_img_info ((s.world.content p).take 32) = stored_record s.world p :=
      load_full _ _ hlen
    simp only [hlen, hload, Nat.cast_ofNat, ne_eq, not_true_eq_false, if_false]
    refine ⟨_, _, _, rfl, ?_, by simp [sys_close, h], by simp [sys_close], by simp [sys_close]⟩
    unfold valid_copy
    simp [sizeof_boot_img_info, hsz]
  · have hlen : (((s.world.content p).take 32).length : Int) ≠ ((32 : Nat) : Int) := by
      rw [List.length_take]; omega
    rw [if_pos hlen]
    refine ⟨_, _, _, rfl, ?_, by simp [sys_close, h], by simp [sys_close], by simp [sys_close]⟩
    unfold valid_copy
    simp [sizeof_boot_img_info, hsz, XST_SUCCESS, XST_FAILURE]

theorem print_image_rev_info_ok (s : State) (p : Path) (h : s.world.script = [])
    (hsz : 0x94 ≤ (s.world.content p).length) :
    ∃ w, print_image_rev_info s p = (XST_SUCCESS, { s with world := w }) ∧
      w.script = [] ∧ w.revision = s.world.revision ∧ w.content = s.world.content := by
  have hlen : (((s.world.content p).drop 0x70).take 0x24).length = 0x24 := by
    rw [List.length_take, List.length_drop]; omega
  unfold print_image_rev_info
  simp only [sys_open_ok _ _ h, sys_lseek_ok _ _ _ (show (s.world.emit _).script = [] from h),
    sys_read_ok _ _ _ (show ((s.world.emit _).emit _).script = [] from h),
    emit_content, XBIU_IMG_REVISON_OFFSET, XBIU_IMG_REVISON_SIZE, hlen, ne_eq, not_true_eq_false,
    if_false]
  exact ⟨_, rfl, by simp [sys_close, h], by simp [sys_close], by simp [sys_close]⟩

theorem print_qspi_mfg_info_ok (s : State) (h : s.world.script = [])
    (hsz14 : 0x100 ≤ (s.world.content Path.mtd14).length)
    (hsz5 : 0x94 ≤ (s.world.content Path.mtd5).length)
    (hsz7 : 0x94 ≤ (s.world.content Path.mtd7).length) :
    ∃ w, print_qspi_mfg_info s = (XST_SUCCESS, { s with world := w }) ∧
      w.script = [] ∧ w.revision = s.world.revision ∧ w.content = s.world.content := by
  have hlen : ((s.world.content Path.mtd14).take 0x100).length = 0x100 := by
    rw [List.length_take]; omega
  unfold print_qspi_mfg_info
  simp only [sys_open_ok _ _ h, sys_read_ok _ _ _ (show (s.world.emit _).script = [] from h),
    emit_content, List.drop_zero, XBIU_QSPI_MFG_INFO_SIZE, hlen, ne_eq, not_true_eq_false,
    if_false]
  obtain ⟨w1, e1, s1, r1, c1⟩ := print_image_rev_info_ok
    { s with world := ((s.world.emit (Event.open Path.mtd14 true)).emit
        (Event.read Path.mtd14 256 ((s.world.content Path.mtd14).take 256) ((256 : Nat) : Int))) }
    Path.mtd5 h hsz5
  simp only [emit_content, emit_revision] at e1 r1 c1
  simp only [e1, if_true]
  obtain ⟨w2, e2, s2, r2, c2⟩ := print_image_rev_info_ok { s with world := w1 } Path.mtd7 s1
    (by simp only [c1]; exact hsz7)
  simp only at r2 c2
  simp only [e2]
  exact ⟨_, rfl, by simp [sys_close, s2], by simp [sys_close, r2, r1],
    by simp [sys_close, c2, c1]⟩

/-- The reports of the option `-p` on a faithful medium with a valid copy: they
succeed and leave the medium as it is. -/
theorem print_reports_ok (s : State) (h : s.world.script = [])
    (hvalid : valid_copy s.world Path.mtd2 ∨ valid_copy s.world Path.mtd3)
    (hsz14 : 0x100 ≤ (s.world.content Path.mtd14).length)
    (hsz5 : 0x94 ≤ (s.world.content Path.mtd5).length)
    (hsz7 : 0x94 ≤ (s.world.content Path.mtd7).length) :
    ∃ r w, print_reports s = (XST_SUCCESS, { s with boot_img_info := r, world := w }) ∧
      w.script = [] ∧ w.revision = s.world.revision ∧ w.content = s.world.content := by
  unfold print_reports
  obtain ⟨ret1, r1, w1, e1, v1, s1, q1, c1⟩ := print_persistent_state_ok s Path.mtd2 h
  rw [e1]
  simp only
  by_cases hv2 : valid_copy s.world Path.mtd2
  · have hret : ret1 = XST_SUCCESS := v1.2 hv2
    subst hret
    simp only [ne_eq, not_true_eq_false, if_false, if_true]
    obtain ⟨w3, e3, s3, q3, c3⟩ := print_qspi_mfg_info_ok
      { s with boot_img_info := r1, world := w1 } s1
      (by simp only [c1]; exact hsz14) (by simp only [c1]; exact hsz5)
      (by simp only [c1]; exact hsz7)
    rw [e3]
    exact ⟨_, _, rfl, s3, by rw [q3, q1], by rw [c3, c1]⟩
  · have hret : ret1 ≠ XST_SUCCESS := fun e => hv2 (v1.1 e)
    simp only [hret, ne_eq, not_false_eq_true, if_true]
    obtain ⟨ret2, r2, w2, e2, v2, s2, q2, c2⟩ := print_persistent_state_ok
      { s with boot_img_info := r1, world := w1 } Path.mtd3 s1
    rw [e2]
    simp only at v2 q2 c2 ⊢
    have hret2 : ret2 = XST_SUCCESS :=
      v2.2 ((valid_copy_congr _ _ _ c1).2 (hvalid.resolve_left hv2))
    subst hret2
    simp only [if_true]
    obtain ⟨w3, e3, s3, q3, c3⟩ := print_qspi_mfg_info_ok
      { s with boot_img_info := r2, world := w2 } s2
      (by simp only [c2, c1]; exact hsz14) (by simp only [c2, c1]; exact hsz5)
      (by simp only [c2, c1]; exact hsz7)
    rw [e3]
    exact ⟨_, _, rfl, s3, by rw [q3, q2, q1], by rw [c3, c2, c1]⟩

theorem loaded_record_valid (w : World)
    (hvalid : valid_copy w Path.mtd2 ∨ valid_copy w Path.mtd3) :
    (validate_boot_img_info (loaded_record w)).1 = XST_SUCCESS ∧ (loaded_record w).WF := by
  unfold loaded_record
  by_cases hv2 : valid_copy w Path.mtd2
  · rw [if_pos hv2]
    exact ⟨hv2.2, ofBytes_WF _⟩
  · rw [if_neg hv2]
    exact ⟨(hvalid.resolve_left hv2).2, ofBytes_WF _⟩

/-- The fields of the record that a successful update run commits. -/
theorem committed_record_fields (L : sys_boot_img_info) :
    ((stamped (request_target (select_target (mark_running_bootable L)).1)).idstr0 = L.idstr0 ∧
     (stamped (request_target (select_target (mark_running_bootable L)).1)).idstr1 = L.idstr1 ∧
     (stamped (request_target (select_target (mark_running_bootable L)).1)).idstr2 = L.idstr2 ∧
     (stamped (request_target (select_target (mark_running_bootable L)).1)).idstr3 = L.idstr3) ∧
    (L.persistent_state.last_booted_img = SYS_BOOT_IMG_A_ID →
      (stamped (request_target (select_target
        (mark_running_bootable L)).1)).persistent_state =
        { last_booted_img := L.persistent_state.last_booted_img,
          requested_boot_img := SYS_BOOT_IMG_B_ID, img_b_bootable := 0,
          img_a_bootable := if L.persistent_state.img_a_bootable = 0 then 1
            else L.persistent_state.img_a_bootable }) ∧
    (¬ L.persistent_state.last_booted_img = SYS_BOOT_IMG_A_ID →
      (stamped (request_target (select_target
        (mark_running_bootable L)).1)).persistent_state =
        { last_booted_img := L.persistent_state.last_booted_img,
          requested_boot_img := SYS_BOOT_IMG_A_ID,
          img_b_bootable := if L.persistent_state.img_b_bootable = 0 then 1
            else L.persistent_state.img_b_bootable,
          img_a_bootable := 0 }) := by
  have hm := mark_last L
  by_cases hl : L.persistent_state.last_booted_img = SYS_BOOT_IMG_A_ID
  · have hl2 : (mark_running_bootable L).persistent_state.last_booted_img = SYS_BOOT_IMG_A_ID := by
      rw [hm]; exact hl
    by_cases ha : L.persistent_state.img_a_bootable = 0
    · simp [stamped, request_target, select_target, mark_running_bootable, hl, ha]
    · simp [stamped, request_target, select_target, mark_running_bootable, hl, ha]
  · by_cases hb : L.persistent_state.img_b_bootable = 0
    · simp [stamped, request_target, select_target, mark_running_bootable, hl, hb]
    · simp [stamped, request_target, select_target, mark_running_bootable, hl, hb]

theorem committed_record_WF (L : sys_boot_img_info) (h : L.WF) :
    (stamped (request_target (select_target (mark_running_bootable L)).1)).WF :=
  stamped_WF _ (request_target_WF _ (select_target_WF _ (mark_running_bootable_WF _ h)))

theorem stored_record_of_content (w : World) (p : Path) (r : sys_boot_img_info) (n : Nat)
    (hwf : r.WF) (hc : w.content p = r.toBytes ++ List.replicate n 0xFF) :
    (w.content p).take 32 = r.toBytes ∧ stored_record w p = r := by
  have hl := toBytes_length r
  have ht : (w.content p).take 32 = r.toBytes := by
    rw [hc, List.take_append_of_le_length (by omega), List.take_of_length_le (by omega)]
  refine ⟨ht, ?_⟩
  unfold stored_record sizeof_boot_img_info
  rw [ht, ofBytes_toBytes r hwf]

theorem stamped_idstr (r : sys_boot_img_info) :
    (stamped r).idstr0 = r.idstr0 ∧ (stamped r).idstr1 = r.idstr1 ∧
    (stamped r).idstr2 = r.idstr2 ∧ (stamped r).idstr3 = r.idstr3 := by
  unfold stamped
  exact ⟨rfl, rfl, rfl, rfl⟩

/-- The fuel of the read-back loop is adequate: with `image_size ≤ fuel`, more fuel
does not change the result, so the loop never stops for lack of fuel. -/
theorem read_back_fuel (fuel k : Nat) (w : World) (fd : Fd) (n crc : Nat) (ret : Int)
    (h : n ≤ fuel) :
    read_back (fuel + k) w fd n crc ret = read_back fuel w fd n crc ret := by
  induction fuel generalizing w fd n crc ret with
  | zero =>
    have hn : n = 0 := by omega
    subst hn
    cases k with
    | zero => rfl
    | succ j => simp [read_back]
  | succ f ih =>
    have e : f + 1 + k = (f + k) + 1 := by omega
    rw [e]
    unfold read_back
    by_cases hn : n > 0
    · simp only [hn, if_true]
      rcases sys_read w fd (if n > 1024 then 1024 else n) with ⟨r, buf, fd1, w1⟩
      simp only
      by_cases hc : r ≠ ((if n > 1024 then 1024 else n : Nat) : Int)
      · rw [if_pos hc, if_pos hc]
      · rw [if_neg hc, if_neg hc]
        exact ih _ _ _ _ _ (by split <;> omega)
    · rw [if_neg hn, if_neg hn]

theorem xor_xor_xor_comm (a b c d : Nat) : (a ^^^ b) ^^^ (c ^^^ d) = (a ^^^ c) ^^^ (b ^^^ d) := by
  rw [Nat.xor_assoc, Nat.xor_assoc, ← Nat.xor_assoc b c d, Nat.xor_comm b c, Nat.xor_assoc c b d]

/-- The bit step is linear over exclusive or. -/
theorem crc_bit_step_xor (a b : Nat) :
    crc_bit_step (a ^^^ b) = crc_bit_step a ^^^ crc_bit_step b := by
  unfold crc_bit_step
  simp only [Nat.shiftRight_eq_div_pow, pow_one]
  rw [Nat.xor_div_two, ← xor_xor_xor_comm]
  congr 1
  rcases Nat.mod_two_eq_zero_or_one a with ha | ha <;>
  rcases Nat.mod_two_eq_zero_or_one b with hb | hb <;>
  simp [Nat.xor_mod_two_eq, Nat.add_mod, ha, hb]

theorem crc_bit_step_iterate_xor (k a b : Nat) :
    crc_bit_step^[k] (a ^^^ b) = crc_bit_step^[k] a ^^^ crc_bit_step^[k] b := by
  induction k generalizing a b with
  | zero => rfl
  | succ k ih => simp only [Function.iterate_succ, Function.comp, crc_bit_step_xor, ih]

/-- On a value whose `k` low bits are zero, `k` bit steps are a shift. -/
theorem crc_bit_step_iterate_shift (k y : Nat) : crc_bit_step^[k] (y <<< k) = y := by
  induction k generalizing y with
  | zero => simp
  | succ k ih =>
    rw [Function.iterate_succ, Function.comp]
    have h : crc_bit_step (y <<< (k + 1)) = y <<< k := by
      unfold crc_bit_step
      simp only [Nat.shiftRight_eq_div_pow, Nat.shiftLeft_eq]
      have h1 : y * 2 ^ (k + 1) = y * 2 ^ k * 2 := by ring
      rw [h1, Nat.mul_mod_left, pow_one, Nat.mul_div_cancel _ (by norm_num)]
      simp
    rw [h, ih]

theorem xor_low_byte (x : Nat) : x ^^^ (x % 256) = (x >>> 8) <<< 8 := by
  apply Nat.eq_of_testBit_eq
  intro i
  have h : (256 : Nat) = 2 ^ 8 := by norm_num
  rw [h]
  simp only [Nat.testBit_xor, Nat.testBit_mod_two_pow, Nat.testBit_shiftLeft,
    Nat.testBit_shiftRight]
  by_cases hi : i < 8
  · simp [hi]
  · have : 8 + (i - 8) = i := by omega
    simp [hi, this]
    omega

/-- Eight bit steps split into a shift of the high part and the steps on the low byte. -/
theorem crc_bit_step_iterate_byte (x : Nat) :
    crc_bit_step^[8] x = (x >>> 8) ^^^ crc_bit_step^[8] (x % 256) := by
  conv_lhs => rw [← Nat.xor_cancel_right (x % 256) x]
  rw [crc_bit_step_iterate_xor, xor_low_byte, crc_bit_step_iterate_shift]

set_option maxRecDepth 1000000 in
theorem crc_table_eq : crc_table = (List.range 256).map (fun i => crc_bit_step^[8] i) := by
  decide

theorem crc_table_bitwise (i : Nat) (hi : i < 256) :
    crc_table.getD i 0 = crc_bit_step^[8] i := by
  rw [crc_table_eq]
  simp [List.getD_eq_getElem?_getD, List.getElem?_range hi]

theorem crc_step_bitwise (seed byte : Nat) (hb : byte < 256) :
    crc_step seed byte = crc_bitwise_byte seed byte := by
  unfold crc_step crc_bitwise_byte
  rw [crc_bit_step_iterate_byte (seed ^^^ byte),
    ← crc_table_bitwise _ (Nat.mod_lt _ (by norm_num))]
  have h1 : (seed ^^^ byte) >>> 8 = seed >>> 8 := by
    apply Nat.eq_of_testBit_eq
    intro i
    have hz : byte / 2 ^ 8 = 0 := Nat.div_eq_of_lt (by simpa using hb)
    rw [Nat.testBit_shiftRight, Nat.testBit_shiftRight, Nat.testBit_xor]
    have : byte.testBit (8 + i) = false := by
      rw [← Nat.testBit_shiftRight, Nat.shiftRight_eq_div_pow, hz]
      simp
    simp [this]
  have h2 : (seed ^^^ byte) &&& 0xFF = (seed ^^^ byte) % 256 :=
    Nat.and_pow_two_sub_one_eq_mod _ 8
  rw [h1, h2]

theorem calculate_image_checksum_bitwise (data : List Nat) (seed : Nat)
    (h : ∀ b ∈ data, b < 256) : calculate_image_checksum data seed = crc_bitwise data seed := by
  unfold calculate_image_checksum crc_bitwise
  induction data generalizing seed with
  | nil => rfl
  | cons b rest ih =>
    simp only [List.foldl_cons]
    rw [crc_step_bitwise seed b (h b (List.mem_cons_self _ _))]
    exact ih _ (fun c hc => h c (List.mem_cons_of_mem _ hc))

theorem Emits.nil (P : Event → Prop) (w : World) : Emits P w w :=
  ⟨[], by simp, by simp⟩

theorem Emits.append {P : Event → Prop} {w w1 w2 : World}
    (h1 : Emits P w w1) (h2 : Emits P w1 w2) : Emits P w w2 := by
  obtain ⟨e1, a1, b1⟩ := h1
  obtain ⟨e2, a2, b2⟩ := h2
  refine ⟨e1 ++ e2, by rw [a2, a1, List.append_assoc], fun e he => ?_⟩
  rcases List.mem_append.1 he with h | h
  · exact b1 e h
  · exact b2 e h

theorem Emits.mono {P Q : Event → Prop} {w w1 : World}
    (h : Emits P w w1) (hPQ : ∀ e, P e → Q e) : Emits Q w w1 := by
  obtain ⟨evs, a, b⟩ := h
  exact ⟨evs, a, fun e he => hPQ e (b e he)⟩

theorem Eff.emits {p : Path} {w w1 : World} {evs : List Event} (h : Eff p w w1 evs)
    (P : Event → Prop) (hP : ∀ e ∈ evs, P e) : Emits P w w1 :=
  ⟨evs, h.1, hP⟩

theorem call_on_none (p : Path) (data : Option (List Nat)) (e : Event)
    (h : call_on p none e) : call_on p data e := by
  cases e <;> simp_all [call_on]

theorem call_on_quiet (p : Path) (e : Event) (h : call_on p none e) :
    is_storage_call e = false := by
  cases e <;> simp_all [call_on, is_storage_call]

/-- Under any answers of the environment, `update_persistent_registers` calls only on
its partition, writes only the record with its checksum recomputed, and changes in
memory the checksum field at most. -/
theorem update_persistent_registers_trace (s : State) (p : Path) :
    Emits (call_on p (some (stamped s.boot_img_info).toBytes)) s.world
      (update_persistent_registers s p).2.world ∧
    (∃ c, (update_persistent_registers s p).2.boot_img_info =
      { s.boot_img_info with checksum := c }) ∧
    (update_persistent_registers s p).2.srcaddr = s.srcaddr ∧
    (update_persistent_registers s p).2.image_size = s.image_size := by
  unfold update_persistent_registers
  obtain ⟨e1, hfd⟩ := sys_open_eff s.world p
  rcases h1 : sys_open s.world p with ⟨_ | fd, w1⟩
  · rw [h1] at e1
    exact ⟨e1.emits _ (by simp [call_on]), ⟨s.boot_img_info.checksum, rfl⟩, rfl, rfl⟩
  · rw [h1] at e1 hfd
    have hp : fd.path = p := hfd fd rfl
    subst hp
    simp only at e1 ⊢
    have e2 := ioctl_MEMGETINFO_eff w1 fd
    rcases h2 : ioctl_MEMGETINFO w1 fd with ⟨r2, size, w2⟩
    rw [h2] at e2
    simp only at e2 ⊢
    by_cases c2 : r2 ≠ XST_SUCCESS
    · rw [if_pos c2]
      exact ⟨((e1.trans e2).trans (sys_close_eff w2 fd)).emits _ (by simp [call_on]),
        ⟨s.boot_img_info.checksum, rfl⟩, rfl, rfl⟩
    rw [if_neg c2]
    have e3 := ioctl_MEMERASE_eff w2 fd 0 size
    rcases h3 : ioctl_MEMERASE w2 fd 0 size with ⟨r3, w3⟩
    rw [h3] at e3
    simp only at e3 ⊢
    by_cases c4 : r3 < 0
    · rw [if_pos c4]
      exact ⟨(((e1.trans e2).trans e3).trans (sys_close_eff w3 fd)).emits _
        (by simp [call_on]), ⟨s.boot_img_info.checksum, rfl⟩, rfl, rfl⟩
    rw [if_neg c4]
    obtain ⟨e4, p4⟩ := sys_lseek_eff w3 fd 0
    rcases h4 : sys_lseek w3 fd 0 with ⟨r4, fd4, w4⟩
    rw [h4] at e4 p4
    simp only at e4 p4 ⊢
    by_cases c5 : r4 ≠ 0
    · rw [if_pos c5]
      have ec := sys_close_eff w4 fd4
      rw [p4] at ec
      exact ⟨((((e1.trans e2).trans e3).trans e4).trans ec).emits _ (by simp [call_on]),
        ⟨s.boot_img_info.checksum, rfl⟩, rfl, rfl⟩
    rw [if_neg c5]
    obtain ⟨e5, p5⟩ := sys_write_eff w4 fd4
      ({ s.boot_img_info with checksum := calculate_checksum s.boot_img_info }).toBytes
    rcases h5 : sys_write w4 fd4
      ({ s.boot_img_info with checksum := calculate_checksum s.boot_img_info }).toBytes with
      ⟨r5, fd5, w5⟩
    rw [h5] at e5 p5
    rw [p4] at e5 p5
    simp only at e5 p5 h5 ⊢
    rw [h5]
    simp only
    have ec := sys_close_eff w5 fd5
    rw [p5] at ec
    have eall := ((((e1.trans e2).trans e3).trans e4).trans e5).trans ec
    have hem := eall.emits (call_on fd.path (some (stamped s.boot_img_info).toBytes))
      (by simp [call_on, stamped])
    by_cases c6 : r5 ≠ (sizeof_boot_img_info : Int)
    · rw [if_pos c6]
      exact ⟨hem, ⟨_, rfl⟩, rfl, rfl⟩
    · rw [if_neg c6]
      exact ⟨hem, ⟨_, rfl⟩, rfl, rfl⟩

theorem sys_open_content (w : World) (p : Path) : (sys_open w p).2.content = w.content := by
  unfold sys_open
  rw [next_eq]
  cases w.script.headD Outcome.ok <;> simp

theorem ioctl_MEMGETINFO_size (w : World) (fd : Fd)
    (h : (ioctl_MEMGETINFO w fd).1 = XST_SUCCESS) :
    (ioctl_MEMGETINFO w fd).2.1 = (w.content fd.path).length := by
  unfold ioctl_MEMGETINFO at h ⊢
  rw [next_eq] at h ⊢
  cases hh : w.script.headD Outcome.ok <;> rw [hh] at h <;> simp_all [XST_SUCCESS]

/-- Under any answers of the environment the read-back loop only reads from the
file of its descriptor. -/
theorem read_back_trace (fuel : Nat) (w : World) (fd : Fd) (n crc : Nat) (ret : Int) :
    Emits (call_on fd.path none) w (read_back fuel w fd n crc ret).2.2.2.2.2 ∧
    (read_back fuel w fd n crc ret).2.2.2.2.1.path = fd.path := by
  induction fuel generalizing w fd n crc ret with
  | zero => exact ⟨Emits.nil _ _, rfl⟩
  | succ k ih =>
    unfold read_back
    by_cases hn : n > 0
    · simp only [hn, if_true]
      obtain ⟨hl, hp⟩ := sys_read_eff w fd (if n > 1024 then 1024 else n)
      rcases hr : sys_read w fd (if n > 1024 then 1024 else n) with ⟨r, buf, fd1, w1⟩
      rw [hr] at hl hp
      simp only at hl hp ⊢
      have h1 := hl.emits (call_on fd.path none) (by simp [call_on])
      by_cases hc : r ≠ ((if n > 1024 then 1024 else n : Nat) : Int)
      · rw [if_pos hc]
        exact ⟨h1, hp⟩
      · rw [if_neg hc]
        obtain ⟨h2, h3⟩ := ih w1 fd1 (n - if n > 1024 then 1024 else n)
          (calculate_image_checksum buf crc) r
        rw [hp] at h2 h3
        exact ⟨h1.append h2, h3⟩
    · rw [if_neg hn]
      exact ⟨Emits.nil _ _, rfl⟩

/-- Under any answers of the environment `verify_current_running_image` makes no
erase and no write; when it succeeds, the record in memory is a record that
validates, with the running bank marked bootable. -/
theorem verify_trace (s : State) (p : Path) :
    Emits (call_on p none) s.world (verify_current_running_image s p).2.world ∧
    (verify_current_running_image s p).2.srcaddr = s.srcaddr ∧
    (verify_current_running_image s p).2.image_size = s.image_size ∧
    ((verify_current_running_image s p).1 = XST_SUCCESS →
      ∃ L, L.WF ∧ (validate_boot_img_info L).1 = XST_SUCCESS ∧
        (verify_current_running_image s p).2.boot_img_info = mark_running_bootable L) := by
  unfold verify_current_running_image
  obtain ⟨e1, hfd⟩ := sys_open_eff s.world p
  rcases h1 : sys_open s.world p with ⟨_ | fd, w1⟩
  · rw [h1] at e1
    exact ⟨e1.emits _ (by simp [call_on]), rfl, rfl, by simp [XST_SUCCESS, XST_FAILURE]⟩
  · rw [h1] at e1 hfd
    have hp : fd.path = p := hfd fd rfl
    subst hp
    simp only at e1 ⊢
    obtain ⟨e2, p2⟩ := sys_read_eff w1 fd sizeof_boot_img_info
    have hlen : (sys_read w1 fd sizeof_boot_img_info).1 = sizeof_boot_img_info →
        (sys_read w1 fd sizeof_boot_img_info).2.1.length = 32 := by
      unfold sys_read
      rw [next_eq]
      cases w1.script.headD Outcome.ok <;> simp [sizeof_boot_img_info]
    rcases h2 : sys_read w1 fd sizeof_boot_img_info with ⟨r2, bytes, fd2, w2⟩
    rw [h2] at e2 p2 hlen
    simp only at e2 p2 hlen ⊢
    have ec := sys_close_eff w2 fd2
    rw [p2] at ec
    have hem := ((e1.trans e2).trans ec).emits (call_on fd.path none) (by simp [call_on])
    by_cases c2 : r2 ≠ (sizeof_boot_img_info : Int)
    · rw [if_pos c2]
      exact ⟨hem, rfl, rfl, by simp [XST_SUCCESS, XST_FAILURE]⟩
    rw [if_neg c2]
    rw [not_not] at c2
    have hload : load s.boot_img_info bytes = sys_boot_img_info.ofBytes bytes :=
      load_full _ _ (hlen c2)
    by_cases c3 : (validate_boot_img_info (load s.boot_img_info bytes)).1 ≠ XST_SUCCESS
    · rw [if_pos c3]
      exact ⟨hem, rfl, rfl, fun h => absurd h c3⟩
    rw [if_neg c3]
    rw [not_not] at c3
    refine ⟨hem, rfl, rfl, fun _ => ⟨load s.boot_img_info bytes, ?_, c3, ?_⟩⟩
    · rw [hload]
      exact ofBytes_WF _
    · simp only
      rw [validate_snd _ c3]

/-- Under any answers of the environment `read_image_file` makes no erase and no
write and leaves the record in memory as it is. -/
theorem read_image_file_trace (s : State) (p : Path) :
    Emits (call_on p none) s.world (read_image_file s p).2.world ∧
    (read_image_file s p).2.boot_img_info = s.boot_img_info := by
  unfold read_image_file
  obtain ⟨e1, hfd⟩ := sys_open_eff s.world p
  rcases h1 : sys_open s.world p with ⟨_ | fd, w1⟩
  · rw [h1] at e1
    exact ⟨e1.emits _ (by simp [call_on]), rfl⟩
  · rw [h1] at e1 hfd
    have hp : fd.path = p := hfd fd rfl
    subst hp
    simp only at e1 ⊢
    have e2 : Eff fd.path w1 (sys_fstat w1 fd).2.2 [Event.fstat fd.path (sys_fstat w1 fd).1] := by
      unfold sys_fstat
      rw [next_eq]
      cases w1.script.headD Outcome.ok <;> simp [Eff, World.emit]
    rcases h2 : sys_fstat w1 fd with ⟨r2, size, w2⟩
    rw [h2] at e2
    simp only at e2 ⊢
    by_cases c2 : r2 ≠ XST_SUCCESS
    · rw [if_pos c2]
      exact ⟨((e1.trans e2).trans (sys_close_eff w2 fd)).emits _ (by simp [call_on]), rfl⟩
    rw [if_neg c2]
    have e3 : Eff fd.path w2 (sys_calloc w2 size).2 [] := by
      unfold sys_calloc
      rw [next_eq]
      cases w2.script.headD Outcome.ok <;> simp [Eff]
    rcases h3 : sys_calloc w2 size with ⟨_ | buf, w3⟩
    · rw [h3] at e3
      exact ⟨(((e1.trans e2).trans e3).trans (sys_close_eff w3 fd)).emits _
        (by simp [call_on]), rfl⟩
    rw [h3] at e3
    simp only at e3 ⊢
    obtain ⟨e4, p4⟩ := sys_read_eff w3 fd size
    rcases h4 : sys_read w3 fd size with ⟨r4, bytes, fd4, w4⟩
    rw [h4] at e4 p4
    simp only at e4 p4 ⊢
    have ec := sys_close_eff w4 fd4
    rw [p4] at ec
    have hem := ((((e1.trans e2).trans e3).trans e4).trans ec).emits (call_on fd.path none)
      (by simp [call_on])
    by_cases c4 : r4 ≠ (size : Int)
    · rw [if_pos c4]
      exact ⟨hem, rfl⟩
    rw [if_neg c4]
    split
    · exact ⟨hem, rfl⟩
    · exact ⟨hem, rfl⟩

theorem print_persistent_state_trace (s : State) (p : Path) :
    Emits (call_on p none) s.world (print_persistent_state s p).2.world := by
  unfold print_persistent_state
  obtain ⟨e1, hfd⟩ := sys_open_eff s.world p
  rcases h1 : sys_open s.world p with ⟨_ | fd, w1⟩
  · rw [h1] at e1
    exact e1.emits _ (by simp [call_on])
  · rw [h1] at e1 hfd
    have hp : fd.path = p := hfd fd rfl
    subst hp
    simp only at e1 ⊢
    obtain ⟨e2, p2⟩ := sys_read_eff w1 fd sizeof_boot_img_info
    rcases h2 : sys_read w1 fd sizeof_boot_img_info with ⟨r2, bytes, fd2, w2⟩
    rw [h2] at e2 p2
    simp only at e2 p2 ⊢
    have ec := sys_close_eff w2 fd2
    rw [p2] at ec
    have hem := ((e1.trans e2).trans ec).emits (call_on fd.path none) (by simp [call_on])
    split
    · exact hem
    · exact hem

theorem print_image_rev_info_trace (s : State) (p : Path) :
    Emits (call_on p none) s.world (print_image_rev_info s p).2.world := by
  unfold print_image_rev_info
  obtain ⟨e1, hfd⟩ := sys_open_eff s.world p
  rcases h1 : sys_open s.world p with ⟨_ | fd, w1⟩
  · rw [h1] at e1
    exact e1.emits _ (by simp [call_on])
  · rw [h1] at e1 hfd
    have hp : fd.path = p := hfd fd rfl
    subst hp
    simp only at e1 ⊢
    obtain ⟨e2, p2⟩ := sys_lseek_eff w1 fd XBIU_IMG_REVISON_OFFSET
    rcases h2 : sys_lseek w1 fd XBIU_IMG_REVISON_OFFSET with ⟨r2, fd2, w2⟩
    rw [h2] at e2 p2
    simp only at e2 p2 ⊢
    by_cases c2 : r2 ≠ (XBIU_IMG_REVISON_OFFSET : Int)
    · rw [if_pos c2]
      have ec := sys_close_eff w2 fd2
      rw [p2] at ec
      exact ((e1.trans e2).trans ec).emits _ (by simp [call_on])
    rw [if_neg c2]
    obtain ⟨e3, p3⟩ := sys_read_eff w2 fd2 XBIU_IMG_REVISON_SIZE
    rcases h3 : sys_read w2 fd2 XBIU_IMG_REVISON_SIZE with ⟨r3, bytes, fd3, w3⟩
    rw [h3] at e3 p3
    rw [p2] at e3 p3
    simp only at e3 p3 ⊢
    have ec := sys_close_eff w3 fd3
    rw [p3] at ec
    have hem := (((e1.trans e2).trans e3).trans ec).emits (call_on fd.path none)
      (by simp [call_on])
    split
    · exact hem
    · exact hem

theorem print_qspi_mfg_info_trace (s : State) :
    Emits (fun e => is_storage_call e = false) s.world (print_qspi_mfg_info s).2.world := by
  unfold print_qspi_mfg_info
  obtain ⟨e1, hfd⟩ := sys_open_eff s.world Path.mtd14
  rcases h1 : sys_open s.world Path.mtd14 with ⟨_ | fd, w1⟩
  · rw [h1] at e1
    exact e1.emits _ (by simp [is_storage_call])
  · rw [h1] at e1 hfd
    simp only at e1 ⊢
    obtain ⟨e2, p2⟩ := sys_read_eff w1 fd XBIU_QSPI_MFG_INFO_SIZE
    rcases h2 : sys_read w1 fd XBIU_QSPI_MFG_INFO_SIZE with ⟨r2, bytes, fd2, w2⟩
    rw [h2] at e2 p2
    simp only at e2 p2 ⊢
    have em1 := e1.emits (fun e => is_storage_call e = false) (by simp [is_storage_call])
    have em2 := e2.emits (fun e => is_storage_call e = false) (by simp [is_storage_call])
    have hclose : ∀ w, Emits (fun e => is_storage_call e = false) w (sys_close w fd2) :=
      fun w => (sys_close_eff w fd2).emits _ (by simp [is_storage_call])
    by_cases c2 : r2 ≠ (XBIU_QSPI_MFG_INFO_SIZE : Int)
    · rw [if_pos c2]
      exact (em1.append em2).append (hclose _)
    rw [if_neg c2]
    have em3 := (print_image_rev_info_trace { s with world := w2 } Path.mtd5).mono
      (call_on_quiet _)
    rcases h3 : print_image_rev_info { s with world := w2 } Path.mtd5 with ⟨r3, s3⟩
    rw [h3] at em3
    simp only at em3 ⊢
    by_cases c3 : r3 = XST_SUCCESS
    · rw [if_pos c3]
      have em4 := (print_image_rev_info_trace s3 Path.mtd7).mono (call_on_quiet _)
      rcases h4 : print_image_rev_info s3 Path.mtd7 with ⟨r4, s4⟩
      rw [h4] at em4
      exact (((em1.append em2).append em3).append em4).append (hclose _)
    · rw [if_neg c3]
      exact ((em1.append em2).append em3).append (hclose _)

theorem print_reports_trace (s : State) :
    Emits (fun e => is_storage_call e = false) s.world (print_reports s).2.world := by
  unfold print_reports
  have em1 := (print_persistent_state_trace s Path.mtd2).mono (call_on_quiet _)
  rcases h1 : print_persistent_state s Path.mtd2 with ⟨r1, s1⟩
  rw [h1] at em1
  simp only at em1 ⊢
  have em2 : Emits (fun e => is_storage_call e = false) s1.world
      (if r1 ≠ XST_SUCCESS then print_persistent_state s1 Path.mtd3 else (r1, s1)).2.world := by
    split
    · exact (print_persistent_state_trace s1 Path.mtd3).mono (call_on_quiet _)
    · exact Emits.nil _ _
  rcases h2 : (if r1 ≠ XST_SUCCESS then print_persistent_state s1 Path.mtd3 else (r1, s1)) with
    ⟨r2, s2⟩
  rw [h2] at em2
  simp only at em2 ⊢
  split
  · exact (em1.append em2).append (print_qspi_mfg_info_trace s2)
  · exact em1.append em2

/-- Under any answers of the environment `update_image` calls only on its
partition and writes only the image; an image larger than the partition leads to
no erase and no write and to a failure; success comes with an erase. -/
theorem update_image_trace (s : State) (p : Path) :
    ∃ evs, (update_image s p).2.world.log = s.world.log ++ evs ∧
      (∀ e ∈ evs, call_on p (some (s.srcaddr.take s.image_size)) e) ∧
      (s.image_size > (s.world.content p).length →
        (∀ e ∈ evs, call_on p none e) ∧ (update_image s p).1 ≠ XST_SUCCESS) ∧
      ((update_image s p).1 = XST_SUCCESS → ∃ r, Event.erase p r ∈ evs) := by
  unfold update_image
  obtain ⟨e1, hfd⟩ := sys_open_eff s.world p
  have hc1 := sys_open_content s.world p
  rcases h1 : sys_open s.world p with ⟨_ | fd, w1⟩
  · rw [h1] at e1
    exact ⟨_, e1.1, by simp [call_on], fun _ => ⟨by simp [call_on], by simp [XST_SUCCESS, XST_FAILURE]⟩,
      fun h => by simp [XST_SUCCESS, XST_FAILURE] at h⟩
  · rw [h1] at e1 hfd hc1
    have hp : fd.path = p := hfd fd rfl
    subst hp
    simp only at e1 hc1 ⊢
    have e2 := ioctl_MEMGETINFO_eff w1 fd
    have hs2 := ioctl_MEMGETINFO_size w1 fd
    rcases h2 : ioctl_MEMGETINFO w1 fd with ⟨r2, size, w2⟩
    rw [h2] at e2 hs2
    simp only at e2 hs2 ⊢
    by_cases c2 : r2 ≠ XST_SUCCESS
    · rw [if_pos c2]
      exact ⟨_, ((e1.trans e2).trans (sys_close_eff w2 fd)).1, by simp [call_on],
        fun _ => ⟨by simp [call_on], c2⟩, fun h => absurd h c2⟩
    rw [if_neg c2]
    rw [not_not] at c2
    have hsize : size = (s.world.content fd.path).length := by rw [hs2 c2, hc1]
    by_cases c3 : s.image_size > size
    · rw [if_pos c3]
      exact ⟨_, ((e1.trans e2).trans (sys_close_eff w2 fd)).1, by simp [call_on],
        fun _ => ⟨by simp [call_on], by simp [XST_SUCCESS, XST_FAILURE]⟩,
        fun h => by simp [XST_SUCCESS, XST_FAILURE] at h⟩
    rw [if_neg c3]
    have hbig : ¬ s.image_size > (s.world.content fd.path).length := by omega
    have e3 := ioctl_MEMERASE_eff w2 fd 0 size
    rcases h3 : ioctl_MEMERASE w2 fd 0 size with ⟨r3, w3⟩
    rw [h3] at e3
    simp only at e3 ⊢
    by_cases c4 : r3 < 0
    · rw [if_pos c4]
      exact ⟨_, (((e1.trans e2).trans e3).trans (sys_close_eff w3 fd)).1, by simp [call_on],
        fun h => absurd h hbig, fun h => by simp only [XST_SUCCESS] at h; omega⟩
    rw [if_neg c4]
    obtain ⟨e4, p4⟩ := sys_lseek_eff w3 fd 0
    rcases h4 : sys_lseek w3 fd 0 with ⟨r4, fd4, w4⟩
    rw [h4] at e4 p4
    simp only at e4 p4 ⊢
    by_cases c5 : r4 ≠ 0
    · rw [if_pos c5]
      have ec := sys_close_eff w4 fd4
      rw [p4] at ec
      exact ⟨_, ((((e1.trans e2).trans e3).trans e4).trans ec).1, by simp [call_on],
        fun h => absurd h hbig, fun _ => ⟨r3, by simp⟩⟩
    rw [if_neg c5]
    obtain ⟨e5, p5⟩ := sys_write_eff w4 fd4 (s.srcaddr.take s.image_size)
    rcases h5 : sys_write w4 fd4 (s.srcaddr.take s.image_size) with ⟨r5, fd5, w5⟩
    rw [h5] at e5 p5
    rw [p4] at e5 p5
    simp only at e5 p5 ⊢
    by_cases c6 : r5 ≠ (s.image_size : Int)
    · rw [if_pos c6]
      have ec := sys_close_eff w5 fd5
      rw [p5] at ec
      exact ⟨_, (((((e1.trans e2).trans e3).trans e4).trans e5).trans ec).1,
        by simp [call_on], fun h => absurd h hbig, fun _ => ⟨r3, by simp⟩⟩
    rw [if_neg c6]
    obtain ⟨e6, p6⟩ := sys_lseek_eff w5 fd5 0
    rcases h6 : sys_lseek w5 fd5 0 with ⟨r6, fd6, w6⟩
    rw [h6] at e6 p6
    rw [p5] at e6 p6
    simp only at e6 p6 ⊢
    by_cases c7 : r6 ≠ 0
    · rw [if_pos c7]
      have ec := sys_close_eff w6 fd6
      rw [p6] at ec
      exact ⟨_, ((((((e1.trans e2).trans e3).trans e4).trans e5).trans e6).trans ec).1,
        by simp [call_on], fun h => absurd h hbig, fun _ => ⟨r3, by simp⟩⟩
    rw [if_neg c7]
    obtain ⟨⟨evs, e7, hevs⟩, p7⟩ :=
      read_back_trace s.image_size w6 fd6 s.image_size 0xFFFFFFFF r6
    rw [p6] at hevs p7
    have hpre := (((((e1.trans e2).trans e3).trans e4).trans e5).trans e6).1
    have hall : ∀ w7 fd7, w7.log = w6.log ++ evs → fd7.path = fd.path →
        ∃ evs1, (sys_close w7 fd7).log = s.world.log ++ evs1 ∧
          (∀ e ∈ evs1, call_on fd.path (some (s.srcaddr.take s.image_size)) e) ∧
          ∃ r, Event.erase fd.path r ∈ evs1 := by
      intro w7 fd7 h7 hp7
      refine ⟨_, by simp only [sys_close, World.emit, h7, hpre, hp7, List.append_assoc]; rfl, ?_,
        ⟨r3, by simp⟩⟩
      intro e he
      simp only [List.mem_append, List.mem_singleton, List.mem_cons, List.not_mem_nil,
        or_false] at he
      rcases he with he | he | he | he | he | he | he | he
      any_goals (subst he; simp [call_on])
      exact call_on_none _ _ _ (hevs e he)
    rcases h7 : read_back s.image_size w6 fd6 s.image_size 0xFFFFFFFF r6 with
      ⟨fin, r7, sz7, crc7, fd7, w7⟩
    rw [h7] at e7 p7
    simp only at e7 p7
    obtain ⟨evs1, ha, hb, hc⟩ := hall w7 fd7 e7 p7
    cases fin
    · exact ⟨evs1, ha, hb, fun h => absurd h hbig, fun _ => hc⟩
    · simp only
      split
      · exact ⟨evs1, ha, hb, fun h => absurd h hbig, fun _ => hc⟩
      · exact ⟨evs1, ha, hb, fun h => absurd h hbig, fun _ => hc⟩

theorem run_call_of_quiet (M : sys_boot_img_info) (update : Bool) (e : Event)
    (h : is_storage_call e = false) : run_call M update e := by
  cases e <;> simp_all [run_call, is_storage_call]

theorem run_call_of_state (M : sys_boot_img_info) (update : Bool) (p : Path) (buf : List Nat)
    (e : Event) (hp : p = Path.mtd2 ∨ p = Path.mtd3)
    (hbuf : buf = (stamped M).toBytes ∨
      (update = true ∧
        (buf = (stamped (select_target M).1).toBytes ∨
         buf = (stamped (request_target (select_target M).1)).toBytes)))
    (h : call_on p (some buf) e) : run_call M update e := by
  cases e <;> rcases hp with rfl | rfl <;> simp_all [run_call, call_on]

theorem run_call_of_target (M : sys_boot_img_info) (buf : List Nat) (e : Event)
    (h : call_on (select_target M).2 (some buf) e) : run_call M true e := by
  cases e <;> simp_all [run_call, call_on]

theorem select_target_last (r : sys_boot_img_info) :
    (select_target r).1.persistent_state.last_booted_img =
      r.persistent_state.last_booted_img := by
  unfold select_target
  split <;> rfl

theorem request_target_last (r : sys_boot_img_info) :
    (request_target r).persistent_state.last_booted_img =
      r.persistent_state.last_booted_img := by
  unfold request_target
  split <;> rfl

/-- Under any answers of the environment `load_state` makes no erase and no write;
when it succeeds, the record in memory is a record that validates, with the
running bank marked bootable. -/
theorem load_state_trace (s : State) :
    Emits (fun e => call_on Path.mtd2 none e ∨ call_on Path.mtd3 none e) s.world
      (load_state s).2.world ∧
    ((load_state s).1 = XST_SUCCESS →
      ∃ L, L.WF ∧ (validate_boot_img_info L).1 = XST_SUCCESS ∧
        (load_state s).2.boot_img_info = mark_running_bootable L) := by
  unfold load_state
  obtain ⟨a1, -, -, a4⟩ := verify_trace s Path.mtd2
  rcases h1 : verify_current_running_image s Path.mtd2 with ⟨r1, s1⟩
  rw [h1] at a1 a4
  simp only at a1 a4 ⊢
  have em1 := a1.mono (fun e h => Or.inl h :
    ∀ e, call_on Path.mtd2 none e → call_on Path.mtd2 none e ∨ call_on Path.mtd3 none e)
  by_cases c : r1 ≠ XST_SUCCESS
  · rw [if_pos c]
    obtain ⟨b1, -, -, b4⟩ := verify_trace s1 Path.mtd3
    exact ⟨em1.append (b1.mono (fun e h => Or.inr h)), b4⟩
  · rw [if_neg c]
    exact ⟨em1, a4⟩

/-- The confirm step alone, under any answers of the environment: calls on the two
state partitions only, and every write writes the record with its checksum recomputed. -/
theorem confirm_only_trace (s : State) :
    Emits (fun e => call_on Path.mtd2 (some (stamped s.boot_img_info).toBytes) e ∨
        call_on Path.mtd3 (some (stamped s.boot_img_info).toBytes) e) s.world
      (confirm_and_update s false).2.world ∧
    ∃ c, (confirm_and_update s false).2.boot_img_info = { s.boot_img_info with checksum := c } := by
  unfold confirm_and_update
  obtain ⟨a1, ⟨c1, a2⟩, -, -⟩ := update_persistent_registers_trace s Path.mtd2
  rcases h1 : update_persistent_registers s Path.mtd2 with ⟨r1, s1⟩
  rw [h1] at a1 a2
  simp only at a1 a2 ⊢
  have em1 := a1.mono (fun e h => Or.inl h :
    ∀ e, call_on Path.mtd2 (some (stamped s.boot_img_info).toBytes) e →
      call_on Path.mtd2 (some (stamped s.boot_img_info).toBytes) e ∨
      call_on Path.mtd3 (some (stamped s.boot_img_info).toBytes) e)
  by_cases c : r1 < 0
  · rw [if_pos c]
    exact ⟨em1, c1, a2⟩
  rw [if_neg c]
  obtain ⟨b1, ⟨c2, b2⟩, -, -⟩ := update_persistent_registers_trace s1 Path.mtd3
  rw [a2, stamped_with] at b1
  rcases h2 : update_persistent_registers s1 Path.mtd3 with ⟨r2, s2⟩
  rw [h2] at b1 b2
  simp only at b1 b2 ⊢
  have hrec : ∃ c, s2.boot_img_info = { s.boot_img_info with checksum := c } :=
    ⟨c2, by rw [b2, a2]⟩
  have em2 := em1.append (b1.mono (fun e h => Or.inr h))
  by_cases c' : r2 < 0
  · rw [if_pos c']
    exact ⟨em2, hrec⟩
  · rw [if_neg c']
    exact ⟨em2, hrec⟩

theorem emits_emit (P : Event → Prop) (w : World) (e : Event) (h : P e) :
    Emits P w (w.emit e) :=
  ⟨[e], rfl, by simpa using h⟩

/-- The image write and the commit, under any answers of the environment, in a
state that holds the target-marked record derived from `M`. -/
theorem write_and_commit_trace (s : State) (p : Path) (M : sys_boot_img_info)
    (hT : ∃ c, s.boot_img_info = { (select_target M).1 with checksum := c })
    (hp : p = (select_target M).2) :
    Emits (run_call M true) s.world (write_and_commit s p).2.world ∧
    (write_and_commit s p).2.boot_img_info.persistent_state.last_booted_img =
      M.persistent_state.last_booted_img := by
  obtain ⟨c0, hT⟩ := hT
  subst hp
  unfold write_and_commit
  obtain ⟨evs, hlog, hcall, -, -⟩ := update_image_trace s (select_target M).2
  obtain ⟨-, -, hrec, -, -⟩ := update_image_spec s (select_target M).2
  rcases h1 : update_image s (select_target M).2 with ⟨r1, s1⟩
  rw [h1] at hlog hrec
  simp only at hlog hrec ⊢
  have em1 : Emits (run_call M true) s.world s1.world :=
    ⟨evs, hlog, fun e he => run_call_of_target M _ e (hcall e he)⟩
  have hl1 : s1.boot_img_info.persistent_state.last_booted_img =
      M.persistent_state.last_booted_img := by
    rw [hrec, hT]
    exact select_target_last M
  by_cases c1 : r1 ≠ XST_SUCCESS
  · rw [if_pos c1]
    exact ⟨em1, hl1⟩
  rw [if_neg c1]
  have hst : stamped (request_target s1.boot_img_info) =
      stamped (request_target (select_target M).1) := by
    rw [hrec, hT, request_target_with, stamped_with]
  obtain ⟨a1, ⟨c2, a2⟩, -, -⟩ := update_persistent_registers_trace
    { s1 with boot_img_info := request_target s1.boot_img_info } Path.mtd2
  rcases h2 : update_persistent_registers
    { s1 with boot_img_info := request_target s1.boot_img_info } Path.mtd2 with ⟨r2, s2⟩
  rw [h2] at a1 a2
  simp only at a1 a2 ⊢
  rw [hst] at a1
  have em2 : Emits (run_call M true) s.world s2.world :=
    em1.append (a1.mono (fun e h => run_call_of_state M true Path.mtd2 _ e (Or.inl rfl)
      (Or.inr ⟨rfl, Or.inr rfl⟩) h))
  have hl2 : s2.boot_img_info.persistent_state.last_booted_img =
      M.persistent_state.last_booted_img := by
    rw [a2]
    simp only
    rw [request_target_last, hl1]
  by_cases c3 : r2 < 0
  · rw [if_pos c3]
    exact ⟨em2, hl2⟩
  rw [if_neg c3]
  obtain ⟨b1, ⟨c4, b2⟩, -, -⟩ := update_persistent_registers_trace s2 Path.mtd3
  rw [a2, stamped_with, hst] at b1
  rcases h3 : update_persistent_registers s2 Path.mtd3 with ⟨r3, s3⟩
  rw [h3] at b1 b2
  simp only at b1 b2 ⊢
  have em3 : Emits (run_call M true) s.world s3.world :=
    em2.append (b1.mono (fun e h => run_call_of_state M true Path.mtd3 _ e (Or.inr rfl)
      (Or.inr ⟨rfl, Or.inr rfl⟩) h))
  have hl3 : s3.boot_img_info.persistent_state.last_booted_img =
      M.persistent_state.last_booted_img := by
    rw [b2]
    exact hl2
  by_cases c5 : r3 < 0
  · rw [if_pos c5]
    exact ⟨em3, hl3⟩
  · rw [if_neg c5]
    exact ⟨em3.append (emits_emit _ _ _ (by simp [run_call])), hl3⟩

/-- The update proper, under any answers of the environment, in a state that
holds `M` up to the checksum field. -/
theorem update_run_trace (s : State) (M : sys_boot_img_info)
    (hM : ∃ c, s.boot_img_info = { M with checksum := c }) :
    Emits (run_call M true) s.world (update_run s).2.world ∧
    (update_run s).2.boot_img_info.persistent_state.last_booted_img =
      M.persistent_state.last_booted_img := by
  obtain ⟨c0, hM⟩ := hM
  unfold update_run
  obtain ⟨a1, a2⟩ := read_image_file_trace s Path.image_file
  rcases h1 : read_image_file s Path.image_file with ⟨r1, s1⟩
  rw [h1] at a1 a2
  simp only at a1 a2 ⊢
  have em1 : Emits (run_call M true) s.world s1.world :=
    a1.mono (fun e h => run_call_of_quiet M true e (call_on_quiet _ e h))
  by_cases c1 : r1 ≠ XST_SUCCESS
  · rw [if_pos c1]
    refine ⟨em1, ?_⟩
    rw [a2, hM]
  rw [if_neg c1]
  obtain ⟨T, hTdef⟩ : ∃ T : sys_boot_img_info,
      T = { (select_target M).1 with checksum := c0 } := ⟨_, rfl⟩
  have hsel : select_target s1.boot_img_info = (T, (select_target M).2) := by
    rw [a2, hM, select_target_with, hTdef]
  have hstT : stamped T = stamped (select_target M).1 := by rw [hTdef, stamped_with]
  have hlT : T.persistent_state.last_booted_img = M.persistent_state.last_booted_img := by
    rw [hTdef]
    exact select_target_last M
  rw [hsel]
  simp only
  obtain ⟨b1, ⟨c2, b2⟩, -, -⟩ := update_persistent_registers_trace
    { s1 with boot_img_info := T } Path.mtd2
  rcases h2 : update_persistent_registers { s1 with boot_img_info := T } Path.mtd2 with
    ⟨r2, s2⟩
  rw [h2] at b1 b2
  simp only at b1 b2 ⊢
  rw [hstT] at b1
  have em2 : Emits (run_call M true) s.world s2.world :=
    em1.append (b1.mono (fun e h => run_call_of_state M true Path.mtd2 _ e (Or.inl rfl)
      (Or.inr ⟨rfl, Or.inl rfl⟩) h))
  have hl2 : s2.boot_img_info.persistent_state.last_booted_img =
      M.persistent_state.last_booted_img := by
    rw [b2]
    exact hlT
  by_cases c3 : r2 < 0
  · rw [if_pos c3]
    exact ⟨em2, hl2⟩
  rw [if_neg c3]
  obtain ⟨d1, ⟨c4, d2⟩, -, -⟩ := update_persistent_registers_trace s2 Path.mtd3
  rw [b2, stamped_with, hstT] at d1
  rcases h3 : update_persistent_registers s2 Path.mtd3 with ⟨r3, s3⟩
  rw [h3] at d1 d2
  simp only at d1 d2 ⊢
  have em3 : Emits (run_call M true) s.world s3.world :=
    em2.append (d1.mono (fun e h => run_call_of_state M true Path.mtd3 _ e (Or.inr rfl)
      (Or.inr ⟨rfl, Or.inl rfl⟩) h))
  by_cases c5 : r3 < 0
  · rw [if_pos c5]
    refine ⟨em3, ?_⟩
    rw [d2]
    exact hl2
  rw [if_neg c5]
  obtain ⟨f1, f2⟩ := write_and_commit_trace s3 (select_target M).2 M
    ⟨c4, by rw [d2, b2, hTdef]⟩ rfl
  exact ⟨em3.append f1, f2⟩

/-- The confirm step and what follows it, under any answers of the environment. -/
theorem confirm_and_update_trace (s : State) (update_flag : Bool) :
    Emits (run_call s.boot_img_info update_flag) s.world
      (confirm_and_update s update_flag).2.world ∧
    (confirm_and_update s update_flag).2.boot_img_info.persistent_state.last_booted_img =
      s.boot_img_info.persistent_state.last_booted_img := by
  cases update_flag
  · obtain ⟨a1, c, a2⟩ := confirm_only_trace s
    refine ⟨a1.mono (fun e h => ?_), by rw [a2]⟩
    rcases h with h | h
    · exact run_call_of_state _ _ Path.mtd2 _ e (Or.inl rfl) (Or.inl rfl) h
    · exact run_call_of_state _ _ Path.mtd3 _ e (Or.inr rfl) (Or.inl rfl) h
  · unfold confirm_and_update
    obtain ⟨a1, ⟨c1, a2⟩, -, -⟩ := update_persistent_registers_trace s Path.mtd2
    rcases h1 : update_persistent_registers s Path.mtd2 with ⟨r1, s1⟩
    rw [h1] at a1 a2
    simp only at a1 a2 ⊢
    have em1 : Emits (run_call s.boot_img_info true) s.world s1.world :=
      a1.mono (fun e h => run_call_of_state _ _ Path.mtd2 _ e (Or.inl rfl) (Or.inl rfl) h)
    by_cases c : r1 < 0
    · rw [if_pos c]
      exact ⟨em1, by rw [a2]⟩
    rw [if_neg c]
    obtain ⟨b1, ⟨c2, b2⟩, -, -⟩ := update_persistent_registers_trace s1 Path.mtd3
    rw [a2, stamped_with] at b1
    rcases h2 : update_persistent_registers s1 Path.mtd3 with ⟨r2, s2⟩
    rw [h2] at b1 b2
    simp only at b1 b2 ⊢
    have em2 : Emits (run_call s.boot_img_info true) s.world s2.world :=
      em1.append (b1.mono
        (fun e h => run_call_of_state _ _ Path.mtd3 _ e (Or.inr rfl) (Or.inl rfl) h))
    by_cases c' : r2 < 0
    · rw [if_pos c']
      exact ⟨em2, by rw [b2, a2]⟩
    rw [if_neg c']
    simp only [Bool.true_eq_false, if_false]
    obtain ⟨f1, f2⟩ := update_run_trace s2 s.boot_img_info ⟨c2, by rw [b2, a2]⟩
    exact ⟨em2.append f1, f2⟩

/-- What `verify_and_update` does under any answers of the environment: either it
fails without an erase or a write, or it loaded a record `L` that validates and
every erase and write is one that `run_call` allows for `L` with the running bank
marked bootable. -/
theorem verify_and_update_trace (s : State) (update_flag : Bool) :
    ((verify_and_update s update_flag).1 = XST_FAILURE ∧
      Emits (fun e => call_on Path.mtd2 none e ∨ call_on Path.mtd3 none e) s.world
        (verify_and_update s update_flag).2.world) ∨
    ∃ L, L.WF ∧ (validate_boot_img_info L).1 = XST_SUCCESS ∧
      Emits (run_call (mark_running_bootable L) update_flag) s.world
        (verify_and_update s update_flag).2.world ∧
      (verify_and_update s update_flag).2.boot_img_info.persistent_state.last_booted_img =
        L.persistent_state.last_booted_img ∧
      (update_flag = false →
        (∃ c, (verify_and_update s update_flag).2.boot_img_info =
          { mark_running_bootable L with checksum := c }) ∧
        Emits (fun e =>
            call_on Path.mtd2 (some (stamped (mark_running_bootable L)).toBytes) e ∨
            call_on Path.mtd3 (some (stamped (mark_running_bootable L)).toBytes) e) s.world
          (verify_and_update s update_flag).2.world) := by
  unfold verify_and_update
  by_cases hb : validate_board_string s.world ≠ XST_SUCCESS
  · rw [if_pos hb]
    exact Or.inl ⟨rfl, Emits.nil _ _⟩
  rw [if_neg hb]
  obtain ⟨a1, a2⟩ := load_state_trace s
  rcases h1 : load_state s with ⟨r1, s1⟩
  rw [h1] at a1 a2
  simp only at a1 a2 ⊢
  by_cases c : r1 ≠ XST_SUCCESS
  · rw [if_pos c]
    exact Or.inl ⟨rfl, a1⟩
  rw [if_neg c]
  rw [not_not] at c
  obtain ⟨L, hwf, hval, hL⟩ := a2 c
  obtain ⟨b1, b2⟩ := confirm_and_update_trace s1 update_flag
  rw [hL] at b1 b2
  have hq : ∀ (X : Option (List Nat)) (e : Event),
      call_on Path.mtd2 none e ∨ call_on Path.mtd3 none e →
      call_on Path.mtd2 X e ∨ call_on Path.mtd3 X e := by
    intro X e h
    rcases h with h | h
    · exact Or.inl (call_on_none _ _ _ h)
    · exact Or.inr (call_on_none _ _ _ h)
  refine Or.inr ⟨L, hwf, hval, (a1.mono (fun e h => ?_)).append b1, ?_, fun hf => ?_⟩
  · rcases h with h | h
    · exact run_call_of_quiet _ _ e (call_on_quiet _ e h)
    · exact run_call_of_quiet _ _ e (call_on_quiet _ e h)
  · rw [b2, mark_last]
  · subst hf
    obtain ⟨d1, d2⟩ := confirm_only_trace s1
    rw [hL] at d1 d2
    exact ⟨d2, (a1.mono (hq _)).append d1⟩

theorem quiet_run_call (M : sys_boot_img_info) (update : Bool) :
    ∀ e, is_storage_call e = false → run_call M update e :=
  fun e h => run_call_of_quiet M update e h

/-- What `main` does under any answers of the environment. -/
theorem main_trace (w : World) (args : Args) :
    Emits (fun e => is_storage_call e = false) w (main w args).2.world ∨
    ∃ L, L.WF ∧ (validate_boot_img_info L).1 = XST_SUCCESS ∧
      Emits (run_call (mark_running_bootable L) args.update_flag) w (main w args).2.world ∧
      (main w args).2.boot_img_info.persistent_state.last_booted_img =
        L.persistent_state.last_booted_img ∧
      (args.update_flag = false →
        ∃ c, (main w args).2.boot_img_info = { mark_running_bootable L with checksum := c }) := by
  unfold main
  simp only
  split
  · exact Or.inl (Emits.nil _ _)
  split
  · exact Or.inl (Emits.nil _ _)
  split
  · exact Or.inl (Emits.nil _ _)
  have em0 : Emits (fun e => is_storage_call e = false) (initial_state w).world
      (if args.print_flag = true then print_reports (initial_state w)
        else (XST_FAILURE, initial_state w)).2.world := by
    split
    · exact print_reports_trace _
    · exact Emits.nil _ _
  rcases h1 : (if args.print_flag = true then print_reports (initial_state w)
        else (XST_FAILURE, initial_state w)) with ⟨r1, s1⟩
  rw [h1] at em0
  simp only at em0 ⊢
  have em0 : Emits (fun e => is_storage_call e = false) w s1.world := em0
  split
  · exact Or.inl em0
  split
  · exact Or.inl em0
  rcases verify_and_update_trace s1 args.update_flag with ⟨-, h⟩ | ⟨L, hwf, hval, h1, h2, h3⟩
  · refine Or.inl (em0.append (h.mono (fun e he => ?_)))
    rcases he with he | he
    · exact call_on_quiet _ e he
    · exact call_on_quiet _ e he
  · exact Or.inr ⟨L, hwf, hval, (em0.mono (quiet_run_call _ _)).append h1, h2,
      fun hf => (h3 hf).1⟩

/-- On a faithful medium `update_persistent_registers` returns `XST_SUCCESS` or
`XST_FAILURE`, changes in memory the checksum field at most, and leaves every
other file as it was. -/
theorem update_persistent_registers_faithful (s : State) (p : Path)
    (h : s.world.script = []) :
    ∃ ret w, update_persistent_registers s p =
        (ret, { s with boot_img_info := stamped s.boot_img_info, world := w }) ∧
      (ret = XST_SUCCESS ∨ ret = XST_FAILURE) ∧
      w.script = [] ∧ w.revision = s.world.revision ∧
      ∀ q, q ≠ p → w.content q = s.world.content q := by
  by_cases hsz : 32 ≤ (s.world.content p).length
  · obtain ⟨w, e, a, b, -, d⟩ := update_persistent_registers_ok s p h hsz
    exact ⟨_, w, e, Or.inl rfl, a, b, d⟩
  · have hl := toBytes_length (stamped s.boot_img_info)
    unfold stamped at *
    simp only [update_persistent_registers, sys_open_ok _ _ h, ioctl_MEMGETINFO_ok, h,
      emit_script, store_script, ioctl_MEMERASE_ok, sys_lseek_ok, sys_write_ok, put, sys_close,
      XST_SUCCESS, XST_FAILURE, sizeof_boot_img_info]
    simp [overlay, hl, hsz, store_content_other]
    refine ⟨1, _, ⟨rfl, rfl⟩, Or.inr rfl, by simp [h], by simp, fun q hq => ?_⟩
    simp [World.store, World.emit, hq]

/-- On a faithful medium `read_image_file` rejects an image that does not pass the
identification check, and leaves the medium as it is. -/
theorem read_image_file_fail (s : State) (p : Path) (h : s.world.script = [])
    (hid : ¬ passes_identification (s.world.content p)) :
    (read_image_file s p).1 = XST_FAILURE := by
  unfold passes_identification at hid
  unfold read_image_file
  simp only [sys_open_ok _ _ h, sys_fstat_ok _ _ (show (s.world.emit _).script = [] from h),
    sys_calloc_ok _ _ (show ((s.world.emit _).emit _).script = [] from h),
    sys_read_ok _ _ _ (show ((s.world.emit _).emit _).script = [] from h),
    emit_content, List.drop_zero, List.take_length, XST_SUCCESS, ne_eq, not_true_eq_false,
    if_false, List.length_replicate, List.drop_length, List.drop_of_length_le, List.append_nil]
  simp [hid]

theorem load_state_fail (s : State) (h : s.world.script = [])
    (h2 : ¬ valid_copy s.world Path.mtd2) (h3 : ¬ valid_copy s.world Path.mtd3) :
    (load_state s).1 ≠ XST_SUCCESS := by
  unfold load_state
  obtain ⟨ret, r, w0, e0, hne, s0, r0, c0⟩ := verify_fail s Path.mtd2 h h2
  rw [e0]
  simp only [hne, ne_eq, not_false_eq_true, if_true]
  obtain ⟨ret1, r1, w1, e1, hne1, -⟩ := verify_fail { s with boot_img_info := r, world := w0 }
    Path.mtd3 s0 (fun hv => h3 ((valid_copy_congr _ _ _ c0).1 hv))
  rw [e1]
  exact hne1

theorem print_persistent_state_ret (s : State) (p : Path) :
    (print_persistent_state s p).1 = XST_SUCCESS ∨
      (print_persistent_state s p).1 = XST_FAILURE := by
  unfold print_persistent_state
  rcases sys_open s.world p with ⟨_ | fd, w1⟩
  · exact Or.inr rfl
  · simp only
    rcases sys_read w1 fd sizeof_boot_img_info with ⟨r2, bytes, fd2, w2⟩
    simp only
    split
    · exact Or.inr rfl
    · exact validate_ret _

theorem print_image_rev_info_faithful (s : State) (p : Path) (h : s.world.script = []) :
    ∃ ret w, print_image_rev_info s p = (ret, { s with world := w }) ∧
      (ret = XST_SUCCESS ∨ ret = XST_FAILURE) ∧
      w.script = [] ∧ w.revision = s.world.revision ∧ w.content = s.world.content := by
  unfold print_image_rev_info
  simp only [sys_open_ok _ _ h, sys_lseek_ok _ _ _ (show (s.world.emit _).script = [] from h),
    sys_read_ok _ _ _ (show ((s.world.emit _).emit _).script = [] from h),
    emit_content, ne_eq, not_true_eq_false, if_false]
  split
  · exact ⟨_, _, rfl, Or.inr rfl, by simp [sys_close, h], by simp [sys_close],
      by simp [sys_close]⟩
  · exact ⟨_, _, rfl, Or.inl rfl, by simp [sys_close, h], by simp [sys_close],
      by simp [sys_close]⟩

theorem print_qspi_mfg_info_faithful (s : State) (h : s.world.script = []) :
    ∃ ret w, print_qspi_mfg_info s = (ret, { s with world := w }) ∧
      (ret = XST_SUCCESS ∨ ret = XST_FAILURE) ∧
      w.script = [] ∧ w.revision = s.world.revision ∧ w.content = s.world.content := by
  unfold print_qspi_mfg_info
  simp only [sys_open_ok _ _ h, sys_read_ok _ _ _ (show (s.world.emit _).script = [] from h),
    emit_content, List.drop_zero]
  split
  · exact ⟨_, _, rfl, Or.inr rfl, by simp [sys_close, h], by simp [sys_close],
      by simp [sys_close]⟩
  · obtain ⟨ret1, w1, e1, v1, s1, r1, c1⟩ := print_image_rev_info_faithful
      { s with world := ((s.world.emit (Event.open Path.mtd14 true)).emit
          (Event.read Path.mtd14 XBIU_QSPI_MFG_INFO_SIZE
            ((s.world.content Path.mtd14).take XBIU_QSPI_MFG_INFO_SIZE)
            (((s.world.content Path.mtd14).take XBIU_QSPI_MFG_INFO_SIZE).length : Int))) }
      Path.mtd5 h
    simp only [emit_content, emit_revision] at e1 r1 c1
    simp only [e1]
    split
    · obtain ⟨ret2, w2, e2, v2, s2, r2, c2⟩ :=
        print_image_rev_info_faithful { s with world := w1 } Path.mtd7 s1
      simp only at r2 c2
      simp only [e2]
      exact ⟨_, _, rfl, v2, by simp [sys_close, s2], by simp [sys_close, r2, r1],
        by simp [sys_close, c2, c1]⟩
    · exact ⟨_, _, rfl, v1, by simp [sys_close, s1], by simp [sys_close, r1],
        by simp [sys_close, c1]⟩

/-- On a faithful medium the reports of the option `-p` leave the medium as it is,
return `XST_SUCCESS` or `XST_FAILURE`, and fail when neither copy is valid. -/
theorem print_reports_faithful (s : State) (h : s.world.script = []) :
    ∃ ret r w, print_reports s = (ret, { s with boot_img_info := r, world := w }) ∧
      (ret = XST_SUCCESS ∨ ret = XST_FAILURE) ∧
      w.script = [] ∧ w.revision = s.world.revision ∧ w.content = s.world.content ∧
      (¬ valid_copy s.world Path.mtd2 → ¬ valid_copy s.world Path.mtd3 → ret ≠ XST_SUCCESS) := by
  unfold print_reports
  have hr1 := print_persistent_state_ret s Path.mtd2
  obtain ⟨ret1, r1, w1, e1, v1, s1, q1, c1⟩ := print_persistent_state_ok s Path.mtd2 h
  rw [e1] at hr1
  rw [e1]
  simp only at hr1 ⊢
  by_cases hret : ret1 = XST_SUCCESS
  · subst hret
    simp only [ne_eq, not_true_eq_false, if_false, if_true]
    obtain ⟨ret3, w3, e3, v3, s3, q3, c3⟩ := print_qspi_mfg_info_faithful
      { s with boot_img_info := r1, world := w1 } s1
    rw [e3]
    exact ⟨_, _, _, rfl, v3, s3, by rw [q3, q1], by rw [c3, c1],
      fun h2 _ => absurd (v1.1 rfl) h2⟩
  · simp only [hret, ne_eq, not_false_eq_true, if_true]
    have hr2 := print_persistent_state_ret { s with boot_img_info := r1, world := w1 } Path.mtd3
    obtain ⟨ret2, r2, w2, e2, v2, s2, q2, c2⟩ := print_persistent_state_ok
      { s with boot_img_info := r1, world := w1 } Path.mtd3 s1
    rw [e2] at hr2
    rw [e2]
    simp only at v2 q2 c2 hr2 ⊢
    by_cases hret2 : ret2 = XST_SUCCESS
    · subst hret2
      simp only [if_true]
      obtain ⟨ret3, w3, e3, v3, s3, q3, c3⟩ := print_qspi_mfg_info_faithful
        { s with boot_img_info := r2, world := w2 } s2
      rw [e3]
      exact ⟨_, _, _, rfl, v3, s3, by rw [q3, q2, q1], by rw [c3, c2, c1],
        fun _ h3 => absurd ((valid_copy_congr _ _ _ c1).1 (v2.1 rfl)) h3⟩
    · simp only [hret2, if_false]
      exact ⟨_, _, _, rfl, hr2, s2, by rw [q2, q1], by rw [c2, c1], fun _ _ => hret2⟩

/-- A faithful run of `main` that is asked to verify or to update: either the
reports of `-p` fail and the run ends there, or it reaches the board check with
the medium as it was. -/
theorem main_faithful (w : World) (args : Args) (h : w.script = [])
    (hopt : args.invalid_option = false) (hhelp : args.help_flag = false)
    (hrun : args.verify_flag = true ∨ args.update_flag = true) :
    ((main w args).1 = XST_FAILURE ∧ args.print_flag = true ∧
      Emits (fun e => is_storage_call e = false) w (main w args).2.world) ∨
    ∃ r w1, main w args =
        verify_and_update { initial_state w with boot_img_info := r, world := w1 }
          args.update_flag ∧
      w1.script = [] ∧ w1.revision = w.revision ∧ w1.content = w.content ∧
      Emits (fun e => is_storage_call e = false) w w1 := by
  have hflags : (args.print_flag || args.verify_flag || args.update_flag) = true := by
    rcases hrun with hv | hu
    · simp [hv]
    · simp [hu]
  have hnot : ¬ (args.verify_flag = false ∧ args.update_flag = false) := by
    rcases hrun with hv | hu
    · simp [hv]
    · simp [hu]
  unfold main
  simp only [hopt, hhelp, hflags, Bool.false_eq_true, if_false, Bool.true_eq_false]
  by_cases hp : args.print_flag = true
  · have em := print_reports_trace (initial_state w)
    obtain ⟨ret, r, w1, e, hret, hs, hr, hc, -⟩ := print_reports_faithful (initial_state w) h
    rw [e] at em
    simp only [hp, if_true, e, true_and]
    by_cases hx : ret ≠ XST_SUCCESS
    · rw [if_pos hx]
      exact Or.inl ⟨hret.resolve_left hx, em⟩
    · rw [if_neg hx, if_neg hnot]
      exact Or.inr ⟨r, w1, rfl, hs, hr, hc, em⟩
  · simp only [hp, Bool.false_eq_true, if_false, false_and]
    rw [if_neg hnot]
    exact Or.inr ⟨_, w, rfl, h, rfl, rfl, Emits.nil _ _⟩

/-- When no record is loaded, `verify_and_update` fails without an erase or a
write, whatever the environment answers. -/
theorem verify_and_update_load_fail (s : State) (update_flag : Bool)
    (h : (load_state s).1 ≠ XST_SUCCESS) :
    (verify_and_update s update_flag).1 = XST_FAILURE ∧
    Emits (fun e => is_storage_call e = false) s.world
      (verify_and_update s update_flag).2.world := by
  unfold verify_and_update
  split
  · exact ⟨rfl, Emits.nil _ _⟩
  · obtain ⟨a1, -⟩ := load_state_trace s
    rcases h1 : load_state s with ⟨r1, s1⟩
    rw [h1] at a1 h
    simp only at a1 h ⊢
    rw [if_pos h]
    refine ⟨rfl, a1.mono (fun e he => ?_)⟩
    rcases he with he | he
    · exact call_on_quiet _ e he
    · exact call_on_quiet _ e he

/-- On a faithful medium an update with an image that does not pass the
identification check ends after the confirm step: it fails, and its erases and
writes are those of the confirm step. -/
theorem confirm_and_update_invalid_image (s : State) (h : s.world.script = [])
    (hid : ¬ passes_identification (s.world.content Path.image_file)) :
    (confirm_and_update s true).1 = XST_FAILURE ∧
    Emits (run_call s.boot_img_info false) s.world (confirm_and_update s true).2.world := by
  unfold confirm_and_update
  obtain ⟨a1, -, -, -⟩ := update_persistent_registers_trace s Path.mtd2
  obtain ⟨ret1, w1, e1, v1, s1, r1, c1⟩ := update_persistent_registers_faithful s Path.mtd2 h
  rw [e1] at a1
  rw [e1]
  simp only at a1 ⊢
  have n1 : ¬ ret1 < 0 := by
    rcases v1 with v | v <;> rw [v] <;> decide
  rw [if_neg n1]
  obtain ⟨a2, -, -, -⟩ := update_persistent_registers_trace
    { s with boot_img_info := stamped s.boot_img_info, world := w1 } Path.mtd3
  obtain ⟨ret2, w2, e2, v2, s2, r2, c2⟩ := update_persistent_registers_faithful
    { s with boot_img_info := stamped s.boot_img_info, world := w1 } Path.mtd3 s1
  rw [e2] at a2
  rw [e2]
  simp only [stamped_stamped] at a2 c2 ⊢
  have n2 : ¬ ret2 < 0 := by
    rcases v2 with v | v <;> rw [v] <;> decide
  rw [if_neg n2]
  simp only [Bool.true_eq_false, if_false]
  have hc : w2.content Path.image_file = s.world.content Path.image_file := by
    rw [c2 _ (by decide), c1 _ (by decide)]
  have hfail := read_image_file_fail
    { s with boot_img_info := stamped s.boot_img_info, world := w2 } Path.image_file s2
    (by simp only [hc]; exact hid)
  obtain ⟨a3, -⟩ := read_image_file_trace
    { s with boot_img_info := stamped s.boot_img_info, world := w2 } Path.image_file
  unfold update_run
  rcases h3 : read_image_file
    { s with boot_img_info := stamped s.boot_img_info, world := w2 } Path.image_file with
    ⟨r3, s3⟩
  rw [h3] at hfail a3
  simp only at hfail a3 ⊢
  subst hfail
  simp only [XST_FAILURE, XST_SUCCESS, ne_eq, one_ne_zero, not_false_eq_true, if_true]
  have em1 := a1.mono (fun e he =>
    run_call_of_state s.boot_img_info false Path.mtd2 _ e (Or.inl rfl) (Or.inl rfl) he)
  have em2 := a2.mono (fun e he =>
    run_call_of_state s.boot_img_info false Path.mtd3 _ e (Or.inr rfl) (Or.inl rfl) he)
  have em3 := a3.mono (fun e he =>
    run_call_of_quiet s.boot_img_info false e (call_on_quiet _ e he))
  exact ⟨trivial, (em1.append em2).append em3⟩

theorem read_sizes_append (a b : List Event) (p : Path) :
    read_sizes (a ++ b) p = read_sizes a p ++ read_sizes b p := by
  induction a with
  | nil => simp [read_sizes]
  | cons e es ih =>
    cases e <;> simp [read_sizes, ih]
    split <;> simp

theorem chunk_sizes_zero : chunk_sizes 0 = [] := by
  simp [chunk_sizes]

set_option maxRecDepth 100000 in
theorem chunk_sizes_step (n : Nat) (h : 0 < n) :
    chunk_sizes n = (if n > 1024 then 1024 else n) ::
      chunk_sizes (n - if n > 1024 then 1024 else n) := by
  unfold chunk_sizes
  by_cases hn : n > 1024
  · have hk : (n + 1023) / 1024 = (n - 1024 + 1023) / 1024 + 1 := by omega
    rw [if_pos hn, hk]
    generalize (n - 1024 + 1023) / 1024 = k
    rw [List.range_succ_eq_map k]
    rw [List.map_cons]
    congr 1
    · omega
    · simp only [List.map_map]
      apply List.map_congr_left
      intro i _
      show min 1024 (n - 1024 * (i + 1)) = min 1024 (n - 1024 - 1024 * i)
      omega
  · have hk : (n + 1023) / 1024 = 1 := by omega
    have hk0 : (n - n + 1023) / 1024 = 0 := by omega
    rw [if_neg hn, hk, hk0]
    show [min 1024 (n - 1024 * 0)] = [n]
    congr 1
    omega

theorem chunk_sizes_sum (n : Nat) : (chunk_sizes n).sum = n := by
  induction n using Nat.strong_induction_on with
  | _ n ih =>
    by_cases h : 0 < n
    · rw [chunk_sizes_step n h, List.sum_cons, ih _ (by split <;> omega)]
      split <;> omega
    · have : n = 0 := by omega
      subst this
      simp [chunk_sizes_zero]

theorem chunk_sizes_length (n : Nat) : (chunk_sizes n).length = (n + 1023) / 1024 := by
  simp [chunk_sizes]

/-- On a faithful medium the read-back loop makes the reads of `chunk_sizes` and
nothing else, and reads the bytes that the file holds. -/
theorem read_back_reads (fuel : Nat) (w : World) (fd : Fd) (n crc : Nat) (ret : Int)
    (h : w.script = []) (hfuel : n ≤ fuel) (hroom : fd.pos + n ≤ (w.content fd.path).length) :
    ∃ evs, (read_back fuel w fd n crc ret).2.2.2.2.2.log = w.log ++ evs ∧
      evs.length = (chunk_sizes n).length ∧
      read_sizes evs fd.path = chunk_sizes n ∧
      bytes_read evs fd.path = ((w.content fd.path).drop fd.pos).take n := by
  induction fuel generalizing w fd n crc ret with
  | zero =>
    have hn : n = 0 := by omega
    subst hn
    exact ⟨[], by simp [read_back], by simp [chunk_sizes_zero],
      by simp [read_sizes, chunk_sizes_zero], by simp [bytes_read]⟩
  | succ k ih =>
    unfold read_back
    by_cases hn : n > 0
    · simp only [hn, if_true]
      rw [sys_read_ok _ _ _ h]
      have hlen : (((w.content fd.path).drop fd.pos).take (if n > 1024 then 1024 else n)).length
          = if n > 1024 then 1024 else n := by
        rw [List.length_take, List.length_drop]
        split <;> omega
      simp only [hlen, ne_eq, not_true_eq_false, if_false]
      obtain ⟨evs, e, hl, hs, hb⟩ := ih
        (w.emit (Event.read fd.path (if n > 1024 then 1024 else n)
          (((w.content fd.path).drop fd.pos).take (if n > 1024 then 1024 else n))
          ((if n > 1024 then 1024 else n : Nat) : Int)))
        { fd with pos := fd.pos + if n > 1024 then 1024 else n }
        (n - if n > 1024 then 1024 else n)
        (calculate_image_checksum
          (((w.content fd.path).drop fd.pos).take (if n > 1024 then 1024 else n)) crc)
        ((if n > 1024 then 1024 else n : Nat) : Int) (by simpa using h)
        (by split <;> omega) (by simp only [emit_content]; split <;> omega)
      refine ⟨Event.read fd.path (if n > 1024 then 1024 else n)
          (((w.content fd.path).drop fd.pos).take (if n > 1024 then 1024 else n))
          ((if n > 1024 then 1024 else n : Nat) : Int) :: evs, ?_, ?_, ?_, ?_⟩
      · rw [e]
        simp [World.emit]
      · rw [chunk_sizes_step n hn, List.length_cons, List.length_cons, hl]
      · rw [chunk_sizes_step n hn]
        simp only [read_sizes, if_true, hlen, hs]
      · simp only [bytes_read, if_true, hb, emit_content]
        have hsplit : n = (if n > 1024 then 1024 else n) +
            (n - if n > 1024 then 1024 else n) := by
          split <;> omega
        conv_rhs => rw [hsplit, List.take_add, List.drop_drop]
    · have hn0 : n = 0 := by omega
      subst hn0
      simp only [lt_self_iff_false, if_false]
      exact ⟨[], by simp, by simp [chunk_sizes_zero], by simp [read_sizes, chunk_sizes_zero],
        by simp [bytes_read]⟩

/-- On a faithful medium the reads of `update_image` are those of `chunk_sizes`,
and they deliver the image. -/
theorem update_image_reads (s : State) (p : Path) (h : s.world.script = [])
    (hsrc : s.image_size = s.srcaddr.length)
    (hfit : s.image_size ≤ (s.world.content p).length) :
    ∃ evs, (update_image s p).2.world.log = s.world.log ++ evs ∧
      read_sizes evs p = chunk_sizes s.image_size ∧
      bytes_read evs p = s.srcaddr := by
  have htake : s.srcaddr.take s.image_size = s.srcaddr := by
    rw [hsrc]; exact List.take_length _
  have hnot : ¬ s.image_size > (s.world.content p).length := by omega
  unfold update_image
  simp only [sys_open_ok _ _ h, ioctl_MEMGETINFO_ok, ioctl_MEMERASE_ok, sys_lseek_ok, h,
    emit_script, store_script, XST_SUCCESS, XST_FAILURE, emit_content, hnot, if_false,
    ne_eq, not_true_eq_false, lt_self_iff_false, overlay_erase_all, Nat.cast_zero, htake,
    sys_write_ok, put, store_content_same, List.length_replicate,
    overlay_write_erased _ _ (hsrc ▸ hfit)]
  have hlen : ((s.srcaddr.take ((s.world.content p).length - 0)).length : Int) = s.image_size := by
    rw [List.take_of_length_le (by omega), hsrc]
  simp only [hlen, not_true_eq_false, if_false, List.take_of_length_le (show s.srcaddr.length ≤
    (s.world.content p).length - 0 by omega)]
  rw [if_neg (by simp [hsrc])]
  have key : ∀ (fin : Bool) (ret1 : Int) (sz crc1 : Nat) (fd1 : Fd) (w1 : World) w6 fd6 r6,
      w6.script = [] → fd6.path = p → fd6.pos = 0 →
      w6.content p = s.srcaddr ++
        List.replicate ((s.world.content p).length - s.srcaddr.length) 0xFF →
      (∃ pre, w6.log = s.world.log ++ pre ∧ read_sizes pre p = [] ∧ bytes_read pre p = []) →
      read_back s.image_size w6 fd6 s.image_size 4294967295 r6 =
        (fin, ret1, sz, crc1, fd1, w1) →
      ∃ evs, (sys_close w1 fd1).log = s.world.log ++ evs ∧
        read_sizes evs p = chunk_sizes s.image_size ∧ bytes_read evs p = s.srcaddr := by
    intro fin ret1 sz crc1 fd1 w1 w6 fd6 r6 hs6 hp6 hpos6 hc6 ⟨pre, hpre, hpre1, hpre2⟩ heq
    obtain ⟨evs, e, -, hs, hb⟩ := read_back_reads s.image_size w6 fd6 s.image_size 4294967295
      r6 hs6 le_rfl (by rw [hp6, hpos6, hc6]; simp; omega)
    rw [heq] at e
    simp only at e
    rw [hp6] at hs hb
    refine ⟨pre ++ evs ++ [Event.close fd1.path], ?_, ?_, ?_⟩
    · simp [sys_close, World.emit, e, hpre]
    · simp [read_sizes_append, hpre1, hs, read_sizes]
    · simp only [bytes_read_append, hpre2, hb, bytes_read, hpos6, hc6, List.drop_zero,
        List.nil_append, List.append_nil]
      rw [hsrc, List.take_left]
  split
  · rename_i ret1 sz crc1 fd1 w1 heq
    exact key _ _ _ _ _ _ _ _ _ (by simp [h]) rfl rfl (by simp [World.store, World.emit, hsrc])
      ⟨[Event.open p true, Event.getinfo p 0, Event.erase p 0, Event.lseek p 0 0,
          Event.write p s.srcaddr s.srcaddr.length, Event.lseek p 0 0],
        by simp [World.store, World.emit], by simp [read_sizes], by simp [bytes_read]⟩ heq
  · rename_i ret1 sz crc1 fd1 w1 heq
    have hk := key _ _ _ _ _ _ _ _ _ (by simp [h]) rfl rfl
      (by simp [World.store, World.emit, hsrc])
      ⟨[Event.open p true, Event.getinfo p 0, Event.erase p 0, Event.lseek p 0 0,
          Event.write p s.srcaddr s.srcaddr.length, Event.lseek p 0 0],
        by simp [World.store, World.emit], by simp [read_sizes], by simp [bytes_read]⟩ heq
    split
    · exact hk
    · exact hk

/-- The record that the confirm step writes is the loaded record with the running
bank marked bootable and the checksum recomputed. -/
theorem confirmed_record_fields (L : sys_boot_img_info) :
    (L.persistent_state.last_booted_img = SYS_BOOT_IMG_A_ID →
      stamped (mark_running_bootable L) =
        { L with
          checksum := calculate_checksum (mark_running_bootable L),
          persistent_state := { L.persistent_state with
            img_a_bootable := if L.persistent_state.img_a_bootable = 0 then 1
              else L.persistent_state.img_a_bootable } }) ∧
    (L.persistent_state.last_booted_img ≠ SYS_BOOT_IMG_A_ID →
      stamped (mark_running_bootable L) =
        { L with
          checksum := calculate_checksum (mark_running_bootable L),
          persistent_state := { L.persistent_state with
            img_b_bootable := if L.persistent_state.img_b_bootable = 0 then 1
              else L.persistent_state.img_b_bootable } }) := by
  constructor
  · intro h
    have hm : mark_running_bootable L = { L with persistent_state := { L.persistent_state with
        img_a_bootable := if L.persistent_state.img_a_bootable = 0 then 1
          else L.persistent_state.img_a_bootable } } := by
      unfold mark_running_bootable
      rw [if_pos h]
      split <;> rfl
    generalize hc : calculate_checksum (mark_running_bootable L) = c
    unfold stamped
    rw [hc, hm]
  · intro h
    have hm : mark_running_bootable L = { L with persistent_state := { L.persistent_state with
        img_b_bootable := if L.persistent_state.img_b_bootable = 0 then 1
          else L.persistent_state.img_b_bootable } } := by
      unfold mark_running_bootable
      rw [if_neg h]
      split <;> rfl
    generalize hc : calculate_checksum (mark_running_bootable L) = c
    unfold stamped
    rw [hc, hm]

/-- A faithful run of `main` with a valid copy, and with partitions large enough
for the reports when `-p` is given, reaches the board check with the medium as it was. -/
theorem main_reaches_board_check (w : World) (args : Args) (h : w.script = [])
    (hopt : args.invalid_option = false) (hhelp : args.help_flag = false)
    (hrun : args.verify_flag = true ∨ args.update_flag = true)
    (hprint : args.print_flag = true →
      0x100 ≤ (w.content Path.mtd14).length ∧ 0x94 ≤ (w.content Path.mtd5).length ∧
        0x94 ≤ (w.content Path.mtd7).length)
    (hvalid : valid_copy w Path.mtd2 ∨ valid_copy w Path.mtd3) :
    ∃ r w1, main w args =
        verify_and_update { initial_state w with boot_img_info := r, world := w1 }
          args.update_flag ∧
      w1.script = [] ∧ w1.revision = w.revision ∧ w1.content = w.content := by
  have hflags : (args.print_flag || args.verify_flag || args.update_flag) = true := by
    rcases hrun with hv | hu
    · simp [hv]
    · simp [hu]
  have hnot : ¬ (args.verify_flag = false ∧ args.update_flag = false) := by
    rcases hrun with hv | hu
    · simp [hv]
    · simp [hu]
  unfold main
  simp only [hopt, hhelp, hflags, Bool.false_eq_true, if_false, Bool.true_eq_false]
  by_cases hp : args.print_flag = true
  · obtain ⟨h14, h5, h7⟩ := hprint hp
    obtain ⟨r, w1, e, s1, r1, c1⟩ := print_reports_ok (initial_state w) h hvalid h14 h5 h7
    simp only [hp, if_true, e, true_and, ne_eq, not_true_eq_false, if_false]
    rw [if_neg hnot]
    exact ⟨r, w1, rfl, s1, r1, c1⟩
  · simp only [hp, Bool.false_eq_true, if_false, false_and]
    rw [if_neg hnot]
    exact ⟨_, w, rfl, h, rfl, rfl⟩

/-- A verify run on a faithful medium: the loaded record, with the running bank
marked bootable, reaches both state partitions, and no other file changes. -/
theorem verify_only_ok (s : State) (h : s.world.script = [])
    (hboard : validate_board_string s.world = XST_SUCCESS)
    (hsz2 : 32 ≤ (s.world.content Path.mtd2).length)
    (hsz3 : 32 ≤ (s.world.content Path.mtd3).length)
    (hvalid : valid_copy s.world Path.mtd2 ∨ valid_copy s.world Path.mtd3) :
    ∃ w, verify_and_update s false =
        (XST_SUCCESS,
          { s with boot_img_info := stamped (mark_running_bootable (loaded_record s.world)),
                   world := w }) ∧
      w.content Path.mtd2 = (stamped (mark_running_bootable (loaded_record s.world))).toBytes ++
        List.replicate ((s.world.content Path.mtd2).length - 32) 0xFF ∧
      w.content Path.mtd3 = (stamped (mark_running_bootable (loaded_record s.world))).toBytes ++
        List.replicate ((s.world.content Path.mtd3).length - 32) 0xFF ∧
      (∀ q, q ≠ Path.mtd2 → q ≠ Path.mtd3 → w.content q = s.world.content q) := by
  unfold verify_and_update
  rw [if_neg (by rw [hboard]; simp)]
  obtain ⟨w1, e1, s1, r1, c1⟩ := load_state_ok s h hvalid
  rw [e1]
  simp only [ne_eq, not_true_eq_false, if_false]
  obtain ⟨w2, w3, e2, e3, s3, r3, c32, c33, cq⟩ := persist_both_ok
    { s with boot_img_info := mark_running_bootable (loaded_record s.world), world := w1 } s1
    (by simp only [c1]; exact hsz2) (by simp only [c1]; exact hsz3)
  simp only [c1] at c32 c33 cq
  unfold confirm_and_update
  rw [e2]
  simp only
  rw [if_neg (by decide)]
  simp only at e3
  rw [e3]
  simp only
  rw [if_neg (by decide)]
  simp only [if_true]
  exact ⟨w3, rfl, c32, c33, cq⟩

/-- What a verify run may do to the flash leaves the image partitions alone. -/
theorem run_call_false_spares (M : sys_boot_img_info) (e : Event)
    (h : run_call M false e) :
    is_image_write Path.mtd5 e = false ∧ is_image_write Path.mtd7 e = false := by
  cases e with
  | erase q r =>
    simp only [run_call, Bool.false_eq_true, false_and, or_false] at h
    rcases h with rfl | rfl <;> exact ⟨rfl, rfl⟩
  | write q buf r =>
    simp only [run_call, Bool.false_eq_true, false_and, or_false] at h
    rcases h.1 with rfl | rfl <;> exact ⟨rfl, rfl⟩
  | _ => exact ⟨rfl, rfl⟩

theorem quiet_spares (e : Event) (h : is_storage_call e = false) :
    is_image_write Path.mtd5 e = false ∧ is_image_write Path.mtd7 e = false := by
  cases e <;> simp_all [is_storage_call, is_image_write]

set_option maxRecDepth 1000000 in
/-- The top bytes of the 256 entries of `crc_table` are pairwise distinct. -/
theorem crc_table_top_bytes_nodup : (crc_table.map (fun x => x >>> 24)).Nodup := by
  decide

set_option maxRecDepth 1000000 in
theorem crc_table_bounded : ∀ x ∈ crc_table, x < 2 ^ 32 := by
  decide

set_option maxRecDepth 1000000 in
theorem crc_table_length : crc_table.length = 256 := by
  decide

theorem crc_table_top_inj (i j : Nat) (hi : i < 256) (hj : j < 256)
    (h : crc_table.getD i 0 >>> 24 = crc_table.getD j 0 >>> 24) : i = j := by
  have hl : (crc_table.map (fun x => x >>> 24)).length = 256 := by
    rw [List.length_map, crc_table_length]
  have hi' : i < crc_table.length := by rw [crc_table_length]; exact hi
  have hj' : j < crc_table.length := by rw [crc_table_length]; exact hj
  rw [List.getD_eq_getElem _ _ hi', List.getD_eq_getElem _ _ hj'] at h
  have hi2 : i < (crc_table.map (fun x => x >>> 24)).length := by rw [hl]; exact hi
  have hj2 : j < (crc_table.map (fun x => x >>> 24)).length := by rw [hl]; exact hj
  refine (@List.Nodup.getElem_inj_iff _ _ crc_table_top_bytes_nodup i hi2 j hj2).1 ?_
  rw [List.getElem_map, List.getElem_map]
  exact h

theorem crc_table_getD_lt (i : Nat) : crc_table.getD i 0 < 2 ^ 32 := by
  by_cases hi : i < crc_table.length
  · rw [List.getD_eq_getElem _ _ hi]
    exact crc_table_bounded _ (List.getElem_mem _)
  · rw [List.getD_eq_default _ _ (by omega)]
    norm_num

theorem shiftRight_xor (a b k : Nat) : (a ^^^ b) >>> k = (a >>> k) ^^^ (b >>> k) := by
  apply Nat.eq_of_testBit_eq
  intro i
  simp only [Nat.testBit_shiftRight, Nat.testBit_xor]

theorem xor_mod_pow (a b k : Nat) : (a ^^^ b) % 2 ^ k = (a % 2 ^ k) ^^^ (b % 2 ^ k) := by
  apply Nat.eq_of_testBit_eq
  intro i
  simp only [Nat.testBit_mod_two_pow, Nat.testBit_xor]
  by_cases h : i < k <;> simp [h]

theorem crc_step_lt (s b : Nat) (hs : s < 2 ^ 32) : crc_step s b < 2 ^ 32 := by
  unfold crc_step
  refine Nat.xor_lt_two_pow ?_ (crc_table_getD_lt _)
  rw [Nat.shiftRight_eq_div_pow]
  exact lt_of_le_of_lt (Nat.div_le_self _ _) hs

theorem crc_index_lt (s b : Nat) : (s ^^^ b) &&& 0xFF < 256 := by
  have h : (s ^^^ b) &&& 0xFF = (s ^^^ b) % 2 ^ 8 := Nat.and_pow_two_sub_one_eq_mod _ 8
  rw [h]
  exact Nat.mod_lt _ (by norm_num)

/-- The byte step is injective in the running value, for running values of 32 bits. -/
theorem crc_step_injective_seed (b s1 s2 : Nat) (h1 : s1 < 2 ^ 32) (h2 : s2 < 2 ^ 32)
    (h : crc_step s1 b = crc_step s2 b) : s1 = s2 := by
  unfold crc_step at h
  have htop := congrArg (fun x => x >>> 24) h
  simp only [shiftRight_xor] at htop
  have z1 : s1 >>> 8 >>> 24 = 0 := by
    rw [← Nat.shiftRight_add, Nat.shiftRight_eq_div_pow]
    exact Nat.div_eq_of_lt h1
  have z2 : s2 >>> 8 >>> 24 = 0 := by
    rw [← Nat.shiftRight_add, Nat.shiftRight_eq_div_pow]
    exact Nat.div_eq_of_lt h2
  rw [z1, z2, Nat.zero_xor, Nat.zero_xor] at htop
  have hidx := crc_table_top_inj _ _ (crc_index_lt s1 b) (crc_index_lt s2 b) htop
  rw [hidx] at h
  have hhigh : s1 >>> 8 = s2 >>> 8 := Nat.xor_left_injective h
  have e1 : (s1 ^^^ b) &&& 0xFF = (s1 ^^^ b) % 2 ^ 8 := Nat.and_pow_two_sub_one_eq_mod _ 8
  have e2 : (s2 ^^^ b) &&& 0xFF = (s2 ^^^ b) % 2 ^ 8 := Nat.and_pow_two_sub_one_eq_mod _ 8
  rw [e1, e2, xor_mod_pow, xor_mod_pow] at hidx
  have hlow : s1 % 2 ^ 8 = s2 % 2 ^ 8 := Nat.xor_left_injective hidx
  rw [Nat.shiftRight_eq_div_pow, Nat.shiftRight_eq_div_pow] at hhigh
  have d1 := Nat.div_add_mod s1 (2 ^ 8)
  have d2 := Nat.div_add_mod s2 (2 ^ 8)
  rw [hhigh, hlow] at d1
  omega

/-- The byte step is injective in the byte, for bytes below 256. -/
theorem crc_step_injective_byte (s x y : Nat) (hx : x < 256) (hy : y < 256)
    (h : crc_step s x = crc_step s y) : x = y := by
  unfold crc_step at h
  have ht : crc_table.getD ((s ^^^ x) &&& 0xFF) 0 = crc_table.getD ((s ^^^ y) &&& 0xFF) 0 :=
    Nat.xor_right_injective h
  have hidx := crc_table_top_inj _ _ (crc_index_lt s x) (crc_index_lt s y)
    (congrArg (fun v => v >>> 24) ht)
  have e1 : (s ^^^ x) &&& 0xFF = (s ^^^ x) % 2 ^ 8 := Nat.and_pow_two_sub_one_eq_mod _ 8
  have e2 : (s ^^^ y) &&& 0xFF = (s ^^^ y) % 2 ^ 8 := Nat.and_pow_two_sub_one_eq_mod _ 8
  rw [e1, e2, xor_mod_pow, xor_mod_pow] at hidx
  have hlow : x % 2 ^ 8 = y % 2 ^ 8 := Nat.xor_right_injective hidx
  rw [Nat.mod_eq_of_lt (by simpa using hx), Nat.mod_eq_of_lt (by simpa using hy)] at hlow
  exact hlow

theorem calculate_image_checksum_lt (data : List Nat) (s : Nat) (hs : s < 2 ^ 32) :
    calculate_image_checksum data s < 2 ^ 32 := by
  unfold calculate_image_checksum
  induction data generalizing s with
  | nil => exact hs
  | cons b rest ih => exact ih _ (crc_step_lt s b hs)

/-- The CRC of a byte sequence is injective in the seed, for seeds of 32 bits. -/
theorem calculate_image_checksum_injective (data : List Nat) (s1 s2 : Nat)
    (h1 : s1 < 2 ^ 32) (h2 : s2 < 2 ^ 32)
    (h : calculate_image_checksum data s1 = calculate_image_checksum data s2) : s1 = s2 := by
  unfold calculate_image_checksum at h
  induction data generalizing s1 s2 with
  | nil => exact h
  | cons b rest ih =>
    exact crc_step_injective_seed b s1 s2 h1 h2
      (ih _ _ (crc_step_lt s1 b h1) (crc_step_lt s2 b h2) h)

/-- Two byte sequences that differ in one position have different CRC values. -/
theorem calculate_image_checksum_one_byte (pre suf : List Nat) (x y seed : Nat)
    (hs : seed < 2 ^ 32) (hx : x < 256) (hy : y < 256) (hxy : x ≠ y) :
    calculate_image_checksum (pre ++ x :: suf) seed ≠
      calculate_image_checksum (pre ++ y :: suf) seed := by
  intro h
  rw [calculate_image_checksum_append, calculate_image_checksum_append] at h
  have hp := calculate_image_checksum_lt pre seed hs
  have e : ∀ v, calculate_image_checksum (v :: suf) (calculate_image_checksum pre seed) =
      calculate_image_checksum suf (crc_step (calculate_image_checksum pre seed) v) := by
    intro v
    simp [calculate_image_checksum]
  rw [e x, e y] at h
  exact hxy (crc_step_injective_byte _ x y hx hy
    (calculate_image_checksum_injective suf _ _ (crc_step_lt _ x hp) (crc_step_lt _ y hp) h))

theorem carried_checksum (r : sys_boot_img_info) (c : Nat) :
    carried { r with checksum := c } = carried r := rfl

theorem carried_stamped (r : sys_boot_img_info) : carried (stamped r) = carried r := rfl

theorem carried_mark (r : sys_boot_img_info) : carried (mark_running_bootable r) = carried r := by
  unfold mark_running_bootable
  split <;> split <;> rfl

theorem carried_select (r : sys_boot_img_info) : carried (select_target r).1 = carried r := by
  unfold select_target
  split <;> rfl

theorem carried_request (r : sys_boot_img_info) : carried (request_target r) = carried r := by
  unfold request_target
  split <;> rfl

theorem carried_validate (r : sys_boot_img_info) :
    carried (validate_boot_img_info r).2 = carried r := by
  unfold validate_boot_img_info
  simp only
  split
  · split <;> rfl
  · rfl

theorem running_flag_checksum (r : sys_boot_img_info) (c : Nat) :
    running_flag { r with checksum := c } = running_flag r := rfl

theorem running_flag_stamped (r : sys_boot_img_info) :
    running_flag (stamped r) = running_flag r := rfl

theorem running_flag_mark (r : sys_boot_img_info) :
    running_flag (mark_running_bootable r) ≠ 0 := by
  unfold mark_running_bootable running_flag
  by_cases hl : r.persistent_state.last_booted_img = SYS_BOOT_IMG_A_ID
  · by_cases ha : r.persistent_state.img_a_bootable = 0
    · simp [hl, ha]
    · simp [hl, ha]
  · by_cases hb : r.persistent_state.img_b_bootable = 0
    · simp [hl, hb]
    · simp [hl, hb]

theorem running_flag_select (r : sys_boot_img_info) :
    running_flag (select_target r).1 = running_flag r ∧ other_flag (select_target r).1 = 0 := by
  unfold select_target running_flag other_flag
  by_cases hl : r.persistent_state.last_booted_img = SYS_BOOT_IMG_A_ID
  · simp [hl]
  · simp [hl]

theorem running_flag_request (r : sys_boot_img_info) :
    running_flag (request_target r) = running_flag r ∧
      other_flag (request_target r) = other_flag r := by
  unfold request_target running_flag other_flag
  by_cases hl : r.persistent_state.last_booted_img = SYS_BOOT_IMG_A_ID
  · simp [hl]
  · simp [hl]

/-- A write to a state partition that `run_call` allows writes a well-formed
record that has the carried fields of the loaded record and a nonzero bootable
flag for the bank that booted last. -/
theorem run_call_state_write (L : sys_boot_img_info) (hwf : L.WF) (update : Bool)
    (p : Path) (buf : List Nat) (ret : Int)
    (h : run_call (mark_running_bootable L) update (Event.write p buf ret))
    (hp : p = Path.mtd2 ∨ p = Path.mtd3) :
    ∃ r, r.WF ∧ buf = r.toBytes ∧ sys_boot_img_info.ofBytes buf = r ∧
      carried r = carried L ∧ running_flag r ≠ 0 := by
  have hM := mark_running_bootable_WF L hwf
  have hS := select_target_WF _ hM
  have hR := request_target_WF _ hS
  have key : ∀ r : sys_boot_img_info, r.WF → carried r = carried L → running_flag r ≠ 0 →
      buf = (stamped r).toBytes →
      ∃ r, r.WF ∧ buf = r.toBytes ∧ sys_boot_img_info.ofBytes buf = r ∧
        carried r = carried L ∧ running_flag r ≠ 0 := by
    intro r hr hc hf hb
    refine ⟨stamped r, stamped_WF r hr, hb, ?_, ?_, ?_⟩
    · rw [hb]
      exact ofBytes_toBytes _ (stamped_WF r hr)
    · rw [carried_stamped, hc]
    · rw [running_flag_stamped]
      exact hf
  simp only [run_call] at h
  rcases h with ⟨-, hb | ⟨-, hb | hb⟩⟩ | ⟨-, ht⟩
  · exact key _ hM (carried_mark L) (running_flag_mark L) hb
  · exact key _ hS (by rw [carried_select, carried_mark])
      (by rw [(running_flag_select _).1]; exact running_flag_mark L) hb
  · exact key _ hR (by rw [carried_request, carried_select, carried_mark])
      (by rw [(running_flag_request _).1, (running_flag_select _).1]; exact running_flag_mark L)
      hb
  · exfalso
    rcases select_target_path (mark_running_bootable L) with h7 | h5
    · rw [h7] at ht
      rcases hp with hp | hp <;> rw [hp] at ht <;> exact absurd ht (by decide)
    · rw [h5] at ht
      rcases hp with hp | hp <;> rw [hp] at ht <;> exact absurd ht (by decide)

theorem update_persistent_registers_carried (s : State) (p : Path) :
    carried (update_persistent_registers s p).2.boot_img_info = carried s.boot_img_info := by
  obtain ⟨-, ⟨c, h⟩, -, -⟩ := update_persistent_registers_trace s p
  rw [h]
  rfl

theorem write_and_commit_carried (s : State) (p : Path) :
    carried (write_and_commit s p).2.boot_img_info = carried s.boot_img_info := by
  unfold write_and_commit
  obtain ⟨-, -, hrec, -, -⟩ := update_image_spec s p
  rcases h1 : update_image s p with ⟨r1, s1⟩
  rw [h1] at hrec
  simp only at hrec ⊢
  split
  · rw [hrec]
  · have a := update_persistent_registers_carried
      { s1 with boot_img_info := request_target s1.boot_img_info } Path.mtd2
    rcases h2 : update_persistent_registers
      { s1 with boot_img_info := request_target s1.boot_img_info } Path.mtd2 with ⟨r2, s2⟩
    rw [h2] at a
    simp only at a ⊢
    rw [carried_request, hrec] at a
    split
    · exact a
    · have b := update_persistent_registers_carried s2 Path.mtd3
      rcases h3 : update_persistent_registers s2 Path.mtd3 with ⟨r3, s3⟩
      rw [h3] at b
      simp only at b ⊢
      rw [a] at b
      split
      · exact b
      · exact b

theorem update_run_carried (s : State) :
    carried (update_run s).2.boot_img_info = carried s.boot_img_info := by
  unfold update_run
  obtain ⟨-, hrec⟩ := read_image_file_trace s Path.image_file
  rcases h1 : read_image_file s Path.image_file with ⟨r1, s1⟩
  rw [h1] at hrec
  simp only at hrec ⊢
  split
  · rw [hrec]
  · have hsel := carried_select s1.boot_img_info
    rcases h0 : select_target s1.boot_img_info with ⟨T, q⟩
    rw [h0] at hsel
    simp only at hsel ⊢
    have a := update_persistent_registers_carried { s1 with boot_img_info := T } Path.mtd2
    rcases h2 : update_persistent_registers { s1 with boot_img_info := T } Path.mtd2 with
      ⟨r2, s2⟩
    rw [h2] at a
    simp only at a ⊢
    rw [hsel, hrec] at a
    split
    · exact a
    · have b := update_persistent_registers_carried s2 Path.mtd3
      rcases h3 : update_persistent_registers s2 Path.mtd3 with ⟨r3, s3⟩
      rw [h3] at b
      simp only at b ⊢
      rw [a] at b
      split
      · exact b
      · rw [write_and_commit_carried, b]

theorem confirm_and_update_carried (s : State) (update_flag : Bool) :
    carried (confirm_and_update s update_flag).2.boot_img_info = carried s.boot_img_info := by
  unfold confirm_and_update
  have a := update_persistent_registers_carried s Path.mtd2
  rcases h1 : update_persistent_registers s Path.mtd2 with ⟨r1, s1⟩
  rw [h1] at a
  simp only at a ⊢
  split
  · exact a
  · have b := update_persistent_registers_carried s1 Path.mtd3
    rcases h2 : update_persistent_registers s1 Path.mtd3 with ⟨r2, s2⟩
    rw [h2] at b
    simp only at b ⊢
    rw [a] at b
    split
    · exact b
    · split
      · exact b
      · rw [update_run_carried, b]

/-- What `verify_and_update` writes under any answers of the environment, with the
carried fields of the record in memory at its end. -/
theorem verify_and_update_carried (s : State) (update_flag : Bool) :
    Emits (fun e => is_storage_call e = false) s.world
      (verify_and_update s update_flag).2.world ∨
    ∃ L, L.WF ∧ (validate_boot_img_info L).1 = XST_SUCCESS ∧
      Emits (run_call (mark_running_bootable L) update_flag) s.world
        (verify_and_update s update_flag).2.world ∧
      carried (verify_and_update s update_flag).2.boot_img_info = carried L := by
  unfold verify_and_update
  by_cases hb : validate_board_string s.world ≠ XST_SUCCESS
  · rw [if_pos hb]
    exact Or.inl (Emits.nil _ _)
  rw [if_neg hb]
  obtain ⟨a1, a2⟩ := load_state_trace s
  rcases h1 : load_state s with ⟨r1, s1⟩
  rw [h1] at a1 a2
  simp only at a1 a2 ⊢
  have hq : ∀ e, call_on Path.mtd2 none e ∨ call_on Path.mtd3 none e →
      is_storage_call e = false := by
    intro e h
    rcases h with h | h
    · exact call_on_quiet _ e h
    · exact call_on_quiet _ e h
  by_cases c : r1 ≠ XST_SUCCESS
  · rw [if_pos c]
    exact Or.inl (a1.mono hq)
  rw [if_neg c]
  rw [not_not] at c
  obtain ⟨L, hwf, hval, hL⟩ := a2 c
  obtain ⟨b1, -⟩ := confirm_and_update_trace s1 update_flag
  have b2 := confirm_and_update_carried s1 update_flag
  rw [hL] at b1 b2
  refine Or.inr ⟨L, hwf, hval,
    (a1.mono (fun e h => run_call_of_quiet _ _ e (hq e h))).append b1, ?_⟩
  rw [b2, carried_mark]

/-- What `main` writes under any answers of the environment, with the carried
fields of the record in memory at its end. -/
theorem main_carried (w : World) (args : Args) :
    Emits (fun e => is_storage_call e = false) w (main w args).2.world ∨
    ∃ L, L.WF ∧ (validate_boot_img_info L).1 = XST_SUCCESS ∧
      Emits (run_call (mark_running_bootable L) args.update_flag) w (main w args).2.world ∧
      carried (main w args).2.boot_img_info = carried L := by
  unfold main
  simp only
  split
  · exact Or.inl (Emits.nil _ _)
  split
  · exact Or.inl (Emits.nil _ _)
  split
  · exact Or.inl (Emits.nil _ _)
  have em0 : Emits (fun e => is_storage_call e = false) (initial_state w).world
      (if args.print_flag = true then print_reports (initial_state w)
        else (XST_FAILURE, initial_state w)).2.world := by
    split
    · exact print_reports_trace _
    · exact Emits.nil _ _
  rcases h1 : (if args.print_flag = true then print_reports (initial_state w)
        else (XST_FAILURE, initial_state w)) with ⟨r1, s1⟩
  rw [h1] at em0
  simp only at em0 ⊢
  have em0 : Emits (fun e => is_storage_call e = false) w s1.world := em0
  split
  · exact Or.inl em0
  split
  · exact Or.inl em0
  rcases verify_and_update_carried s1 args.update_flag with h | ⟨L, hwf, hval, h1, h2⟩
  · exact Or.inl (em0.append h)
  · exact Or.inr ⟨L, hwf, hval, (em0.mono (quiet_run_call _ _)).append h1, h2⟩

theorem carried_last (r L : sys_boot_img_info) (h : carried r = carried L) :
    r.persistent_state.last_booted_img = L.persistent_state.last_booted_img := by
  simp only [carried, List.cons.injEq] at h
  exact h.2.2.2.2.2.2.1

theorem other_flag_mark (r : sys_boot_img_info) :
    other_flag (mark_running_bootable r) = other_flag r := by
  unfold mark_running_bootable other_flag
  by_cases hl : r.persistent_state.last_booted_img = SYS_BOOT_IMG_A_ID
  · by_cases ha : r.persistent_state.img_a_bootable = 0
    · simp [hl, ha]
    · simp [hl, ha]
  · by_cases hb : r.persistent_state.img_b_bootable = 0
    · simp [hl, hb]
    · simp [hl, hb]

/-- Two records have the same carried fields exactly when they differ in
`checksum`, `requested_boot_img` and the two bootable flags at most. -/
theorem carried_eq_iff (r L : sys_boot_img_info) :
    carried r = carried L ↔
      r = { L with
        checksum := r.checksum,
        persistent_state := { L.persistent_state with
          requested_boot_img := r.persistent_state.requested_boot_img,
          img_b_bootable := r.persistent_state.img_b_bootable,
          img_a_bootable := r.persistent_state.img_a_bootable } } := by
  constructor
  · intro h
    simp only [carried, List.cons.injEq, and_true] at h
    obtain ⟨h0, h1, h2, h3, h4, h5, h6, h7, h8, h9⟩ := h
    rcases r with ⟨a0, a1, a2, a3, a4, a5, a6, ⟨p0, p1, p2, p3⟩, a8, a9, a10⟩
    simp only at h0 h1 h2 h3 h4 h5 h6 h7 h8 h9
    subst h0 h1 h2 h3 h4 h5 h6 h7 h8 h9
    rfl
  · intro h
    rw [h]
    rfl

/-- A `read` that returns the requested length delivers that many bytes. -/
theorem sys_read_full (w : World) (fd : Fd) (len : Nat)
    (h : (sys_read w fd len).1 = len) : (sys_read w fd len).2.1.length = len := by
  unfold sys_read at h ⊢
  rw [next_eq] at h ⊢
  cases hh : w.script.headD Outcome.ok <;> rw [hh] at h <;> simp_all

/-- Under any answers of the environment `verify_current_running_image` succeeds
exactly when the attempt delivers a copy that validates, and then the record in
memory is that copy with the running bank marked bootable, whatever it held before. -/
theorem verify_accepted (s : State) (p : Path) :
    (verify_current_running_image s p).2.world = (read_copy s.world p).2 ∧
    (verify_current_running_image s p).2.srcaddr = s.srcaddr ∧
    (verify_current_running_image s p).2.image_size = s.image_size ∧
    (∀ L, accepted_copy s.world p = some L →
      (verify_current_running_image s p).1 = XST_SUCCESS ∧
      (verify_current_running_image s p).2.boot_img_info = mark_running_bootable L) ∧
    (accepted_copy s.world p = none →
      (verify_current_running_image s p).1 ≠ XST_SUCCESS) := by
  unfold verify_current_running_image accepted_copy read_copy
  rcases h1 : sys_open s.world p with ⟨_ | fd, w1⟩
  · simp [XST_SUCCESS, XST_FAILURE]
  · simp only
    have hlen := sys_read_full w1 fd sizeof_boot_img_info
    rcases h2 : sys_read w1 fd sizeof_boot_img_info with ⟨r2, bytes, fd2, w2⟩
    rw [h2] at hlen
    simp only at hlen ⊢
    by_cases c2 : r2 = (sizeof_boot_img_info : Int)
    · have hload : load s.boot_img_info bytes = sys_boot_img_info.ofBytes bytes :=
        load_full _ _ (hlen c2)
      simp only [c2, ne_eq, not_true_eq_false, if_false, if_true, hload]
      by_cases c3 : (validate_boot_img_info (sys_boot_img_info.ofBytes bytes)).1 = XST_SUCCESS
      · simp only [c3, not_true_eq_false, if_false, if_true, validate_snd _ c3]
        refine ⟨trivial, trivial, trivial, fun L hL => ?_, fun h => ?_⟩
        · simp only [Option.some.injEq] at hL
          rw [← hL]
          simp
        · simp at h
      · simp only [c3, not_false_eq_true, if_true, if_false]
        exact ⟨trivial, trivial, trivial, fun L hL => by simp at hL, fun _ => by trivial⟩
    · simp only [c2, ne_eq, not_false_eq_true, if_true, if_false]
      exact ⟨trivial, trivial, trivial, fun L hL => by simp at hL,
        fun _ => by simp [XST_SUCCESS, XST_FAILURE]⟩

/-- Under any answers of the environment `load_state` takes the primary copy when the
attempt on it delivers a copy that validates, and else the backup copy. -/
theorem load_state_accepted (s : State) :
    ((load_state s).1 = XST_SUCCESS ↔
      (accepted_copy s.world Path.mtd2).isSome = true ∨
        (accepted_copy s.world Path.mtd2 = none ∧
          (accepted_copy (read_copy s.world Path.mtd2).2 Path.mtd3).isSome = true)) ∧
    (∀ L, accepted_copy s.world Path.mtd2 = some L →
      (load_state s).2.boot_img_info = mark_running_bootable L) ∧
    (accepted_copy s.world Path.mtd2 = none →
      ∀ L, accepted_copy (read_copy s.world Path.mtd2).2 Path.mtd3 = some L →
        (load_state s).2.boot_img_info = mark_running_bootable L) := by
  unfold load_state
  obtain ⟨a1, -, -, a4, a5⟩ := verify_accepted s Path.mtd2
  rcases h1 : verify_current_running_image s Path.mtd2 with ⟨r1, s1⟩
  rw [h1] at a1 a4 a5
  simp only at a1 a4 a5 ⊢
  cases hA : accepted_copy s.world Path.mtd2 with
  | some L =>
    obtain ⟨b1, b2⟩ := a4 L hA
    rw [if_neg (by rw [b1]; simp)]
    exact ⟨by simp [b1], fun L' hL' => by
      simp only [Option.some.injEq] at hL'
      rw [← hL', b2], fun h => by simp at h⟩
  | none =>
    have c1 := a5 hA
    rw [if_pos c1]
    obtain ⟨d1, -, -, d4, d5⟩ := verify_accepted s1 Path.mtd3
    rw [a1] at d4 d5
    refine ⟨?_, fun L hL => by simp at hL, fun _ L hL => (d4 L hL).2⟩
    cases hB : accepted_copy (read_copy s.world Path.mtd2).2 Path.mtd3 with
    | some L => simp [(d4 L hB).1]
    | none => simp [d5 hB]

/-- On a medium without faults an attempt delivers the stored record when the copy
is valid, and nothing otherwise. -/
theorem accepted_copy_faithful (w : World) (p : Path) (h : w.script = []) :
    accepted_copy w p = if valid_copy w p then some (stored_record w p) else none := by
  unfold accepted_copy read_copy valid_copy stored_record
  simp only [sys_open_ok _ _ h, sys_read_ok _ _ _ (show (w.emit _).script = [] from h),
    emit_content, List.drop_zero, sizeof_boot_img_info]
  by_cases hsz : 32 ≤ (w.content p).length
  · have hlen : ((w.content p).take 32).length = 32 := by
      rw [List.length_take]; omega
    simp [hlen, hsz]
  · have hlen : ¬ (((w.content p).take 32).length : Int) = ((32 : Nat) : Int) := by
      rw [List.length_take]; omega
    simp only [Nat.cast_ofNat] at hlen
    simp [hlen, hsz]

/-! ## The claims -/

/-- C1. CRC chunk invariance: feeding the chunks of a byte sequence to
`calculate_image_checksum` in order, with the running value carried from call to
call, gives the value of one call over the whole sequence, for every seed and
every split (empty chunks included).  In particular the value that the read-back
loop of `update_image` reaches when it runs to its end is the one-pass value over
the bytes its `read` calls delivered, hence over the source when those bytes
equal the source. -/
theorem crc_chunk_invariance :
    (∀ (seed : Nat) (chunks : List (List Nat)),
      chunks.foldl (fun calc_crc chunk => calculate_image_checksum chunk calc_crc) seed =
        calculate_image_checksum chunks.flatten seed) ∧
    (∀ (fuel : Nat) (w : World) (fd : Fd) (image_size seed : Nat) (ret : Int) (src : List Nat),
      (read_back fuel w fd image_size seed ret).1 = true →
      bytes_read ((read_back fuel w fd image_size seed ret).2.2.2.2.2.log.drop w.log.length)
        fd.path = src →
      (read_back fuel w fd image_size seed ret).2.2.2.1 = calculate_image_checksum src seed) := by
  constructor
  · intro seed chunks
    induction chunks generalizing seed with
    | nil => rfl
    | cons c cs ih => simp [calculate_image_checksum_append, ih]
  · intro fuel w fd n seed ret src hfin hsrc
    obtain ⟨evs, ⟨h1, -, -⟩, -, h2, -⟩ := read_back_eff fuel w fd n seed ret
    rw [h1] at hsrc
    simp at hsrc
    rw [h2 hfin, hsrc]

/-- Witness of C1: three chunks, one of them empty, and the loop reading the 43
bytes of the sample image file. -/
theorem crc_chunk_invariance_witness :
    [[0x31, 0x32], [], [0x33]].foldl
        (fun calc_crc chunk => calculate_image_checksum chunk calc_crc) 0xFFFFFFFF =
      calculate_image_checksum [0x31, 0x32, 0x33] 0xFFFFFFFF ∧
    (read_back 43 sample_world { path := Path.image_file, pos := 0 } 43 0xFFFFFFFF 0).2.2.2.1 =
      calculate_image_checksum sample_image 0xFFFFFFFF :=
  ⟨crc_chunk_invariance.1 0xFFFFFFFF [[0x31, 0x32], [], [0x33]],
   crc_chunk_invariance.2 43 sample_world { path := Path.image_file, pos := 0 } 43 0xFFFFFFFF 0
     sample_image (by decide) (by decide)⟩

/-- C2. Record validity: `validate_boot_img_info` returns `XST_SUCCESS` exactly when
`idstr` is `'A','B','U','M'` and the stored `checksum` equals `calculate_checksum` of
the record; a record with another `idstr` is rejected whatever its `checksum` holds. -/
theorem record_validity (r : sys_boot_img_info) :
    ((validate_boot_img_info r).1 = XST_SUCCESS ↔
      (r.idstr0 = 0x41 ∧ r.idstr1 = 0x42 ∧ r.idstr2 = 0x55 ∧ r.idstr3 = 0x4D) ∧
        r.checksum = calculate_checksum r) ∧
    (¬ (r.idstr0 = 0x41 ∧ r.idstr1 = 0x42 ∧ r.idstr2 = 0x55 ∧ r.idstr3 = 0x4D) →
      ∀ X, (validate_boot_img_info { r with checksum := X }).1 = XST_FAILURE) := by
  refine ⟨validate_iff r, ?_⟩
  intro hid X
  rcases validate_ret { r with checksum := X } with h | h
  · exact absurd ((validate_iff _).1 h).1 hid
  · exact h

/-- Witness of C2: the sample record with `idstr[0]` replaced by `'X'` is rejected
with the checksum value 7. -/
theorem record_validity_witness :
    (validate_boot_img_info
      { ({ sample_record with idstr0 := 0x58 } : sys_boot_img_info) with checksum := 7 }).1 =
      XST_FAILURE :=
  (record_validity { sample_record with idstr0 := 0x58 }).2 (by decide) 7

/-- C4. Complement sum: with `w0 .. w7` the eight words of the record image,
`calculate_checksum` is `0xFFFFFFFF - (w0+w1+w2+w4+w5+w6+w7)` modulo `2 ^ 32`; it does
not depend on the value stored in the `checksum` field; and when the field holds
that result, `w3` is the field and the eight words sum to `0xFFFFFFFF` modulo `2 ^ 32`. -/
theorem complement_sum (r : sys_boot_img_info) :
    ((calculate_checksum r : Int) =
      (0xFFFFFFFF - ((word_at r.toBytes 0 + word_at r.toBytes 1 + word_at r.toBytes 2 +
        word_at r.toBytes 4 + word_at r.toBytes 5 + word_at r.toBytes 6 +
        word_at r.toBytes 7 : Nat) : Int)) % 2 ^ 32) ∧
    (∀ X, calculate_checksum { r with checksum := X } = calculate_checksum r) ∧
    (r.checksum = calculate_checksum r →
      word_at r.toBytes 3 = r.checksum ∧
      (word_at r.toBytes 0 + word_at r.toBytes 1 + word_at r.toBytes 2 +
        word_at r.toBytes 4 + word_at r.toBytes 5 + word_at r.toBytes 6 +
        word_at r.toBytes 7 + word_at r.toBytes 3) % 2 ^ 32 = 0xFFFFFFFF) := by
  refine ⟨?_, calculate_checksum_stale r, ?_⟩
  · rw [calculate_checksum_eq]
    omega
  · intro h
    have h3 := (word_at_toBytes r).2.2.2.1
    rw [calculate_checksum_eq] at h
    omega

/-- Witness of C4: the eight words of the sample record sum to `0xFFFFFFFF`. -/
theorem complement_sum_witness :
    word_at sample_record.toBytes 3 = sample_record.checksum ∧
    (word_at sample_record.toBytes 0 + word_at sample_record.toBytes 1 +
      word_at sample_record.toBytes 2 + word_at sample_record.toBytes 4 +
      word_at sample_record.toBytes 5 + word_at sample_record.toBytes 6 +
      word_at sample_record.toBytes 7 + word_at sample_record.toBytes 3) % 2 ^ 32 = 0xFFFFFFFF :=
  (complement_sum sample_record).2.2 (by decide)

/-- C5. Single-bit corruption detection: flipping any one of the 224 bits of a
valid record that lie outside the `checksum` field (bits 96 to 127) makes
`validate_boot_img_info` fail: a flip inside `idstr` breaks the tag, a flip
elsewhere makes `calculate_checksum` differ from the stored checksum. -/
theorem single_bit_corruption_detected (r : sys_boot_img_info)
    (hv : (validate_boot_img_info r).1 = XST_SUCCESS) (pos : Nat) (hpos : pos < 256)
    (hout : ¬ (96 ≤ pos ∧ pos < 128)) :
    (validate_boot_img_info (sys_boot_img_info.ofBytes (flip_bit r.toBytes pos))).1 = XST_FAILURE ∧
    (pos < 32 →
      ¬ ((sys_boot_img_info.ofBytes (flip_bit r.toBytes pos)).idstr0 = 0x41 ∧
         (sys_boot_img_info.ofBytes (flip_bit r.toBytes pos)).idstr1 = 0x42 ∧
         (sys_boot_img_info.ofBytes (flip_bit r.toBytes pos)).idstr2 = 0x55 ∧
         (sys_boot_img_info.ofBytes (flip_bit r.toBytes pos)).idstr3 = 0x4D)) ∧
    (32 ≤ pos →
      calculate_checksum (sys_boot_img_info.ofBytes (flip_bit r.toBytes pos)) ≠
        (sys_boot_img_info.ofBytes (flip_bit r.toBytes pos)).checksum) := by
  obtain ⟨hid, hc⟩ := (validate_iff r).1 hv
  have hb := xor_bit_lt (byte_at r.toBytes (pos / 8)) (pos % 8) (byte_at_lt _ _)
    (Nat.mod_lt _ (by norm_num))
  have hne := xor_bit_ne (byte_at r.toBytes (pos / 8)) (pos % 8)
  have hidx : pos < 32 → ¬ _ := fun h =>
    corrupt_idstr_detected r hid (pos / 8) _ (by omega) hb hne
  have hck : 32 ≤ pos → _ := fun h =>
    corrupt_word_detected r hc (pos / 8) _ (by omega) (by omega) (by omega) hb hne
  refine ⟨?_, hidx, fun h e => hck h e.symm⟩
  rcases validate_ret (sys_boot_img_info.ofBytes (flip_bit r.toBytes pos)) with h | h
  · exfalso
    obtain ⟨gid, gc⟩ := (validate_iff _).1 h
    by_cases h32 : pos < 32
    · exact hidx h32 gid
    · exact hck (by omega) gc
  · exact h

/-- Witness of C5: bit 2 of `last_booted_img` of the sample record. -/
theorem single_bit_corruption_detected_witness :
    (validate_boot_img_info sample_record).1 = XST_SUCCESS ∧
    (validate_boot_img_info
      (sys_boot_img_info.ofBytes (flip_bit sample_record.toBytes 130))).1 = XST_FAILURE :=
  ⟨by decide,
   (single_bit_corruption_detected sample_record (by decide) 130 (by decide) (by decide)).1⟩

/-- C3. Write, read, validate round trip: for every in-memory record with `idstr`
`"ABUM"` (any other fields, any stale checksum), when `update_persistent_registers`
succeeds on a partition of a medium that stores what is written, reading
`sizeof(boot_img_info)` bytes from offset 0 of that partition yields the bytes of
the in-memory record, which load as that record, and the record validates. -/
theorem write_read_validate (s : State) (p : Path) (hwf : s.boot_img_info.WF)
    (hid : s.boot_img_info.idstr0 = 0x41 ∧ s.boot_img_info.idstr1 = 0x42 ∧
      s.boot_img_info.idstr2 = 0x55 ∧ s.boot_img_info.idstr3 = 0x4D)
    (hs : s.world.script = [])
    (hret : (update_persistent_registers s p).1 = XST_SUCCESS) :
    (sys_open (update_persistent_registers s p).2.world p).1 = some { path := p, pos := 0 } ∧
    (sys_read (sys_open (update_persistent_registers s p).2.world p).2
        { path := p, pos := 0 } sizeof_boot_img_info).1 = sizeof_boot_img_info ∧
    (sys_read (sys_open (update_persistent_registers s p).2.world p).2
        { path := p, pos := 0 } sizeof_boot_img_info).2.1 =
      (update_persistent_registers s p).2.boot_img_info.toBytes ∧
    (∀ old, load old (update_persistent_registers s p).2.boot_img_info.toBytes =
      (update_persistent_registers s p).2.boot_img_info) ∧
    (validate_boot_img_info (update_persistent_registers s p).2.boot_img_info).1 =
      XST_SUCCESS := by
  by_cases hsz : 32 ≤ (s.world.content p).length
  · obtain ⟨w, hw, hscr, -, hc, -⟩ := update_persistent_registers_ok s p hs hsz
    rw [hw]
    have hl := toBytes_length (stamped s.boot_img_info)
    simp only [sys_open_ok w p hscr]
    rw [sys_read_ok _ _ _ (by simp [hscr])]
    refine ⟨trivial, ?_, ?_, ?_, stamped_valid _ hid⟩
    · simp [hc, sizeof_boot_img_info, hl]
    · simp [hc, sizeof_boot_img_info, hl]
    · intro old
      rw [load_full _ _ hl, ofBytes_toBytes _ (stamped_WF _ hwf)]
  · have := update_persistent_registers_small s p hs (by omega)
    rw [this] at hret
    exact absurd hret (by decide)

/-- Witness of C3: the sample record written to "/dev/mtd2" of the sample world. -/
theorem write_read_validate_witness :
    (update_persistent_registers sample_state Path.mtd2).1 = XST_SUCCESS ∧
    (validate_boot_img_info
      (update_persistent_registers sample_state Path.mtd2).2.boot_img_info).1 = XST_SUCCESS :=
  ⟨by decide,
   (write_read_validate sample_state Path.mtd2 (by decide) (by decide) rfl (by decide)).2.2.2.2⟩

/-- After a checksum mismatch nothing more is written: whenever the CRC over the
bytes that `update_image` read back from the target partition differs from the CRC
over the source bytes, `update_image` returns a value other than `XST_SUCCESS`; the
rest of `main` (`write_and_commit`, source lines 298 to 327) then returns that
value with no further call, so every file other than the target partition, the two
state partitions among them, holds what it held before `update_image`, and the
record in memory is unchanged.  The target is "/dev/mtd7" or "/dev/mtd5".  What
the state partitions hold before `update_image` is another matter, see
`crc_abort_leaves_target_bootable_on_primary`. -/
theorem checksum_mismatch_aborts (s : State) (qspi_mtd_file : Path)
    (hmis : calculate_image_checksum
        (bytes_read ((update_image s qspi_mtd_file).2.world.log.drop s.world.log.length)
          qspi_mtd_file) 0xFFFFFFFF ≠
      calculate_image_checksum (s.srcaddr.take s.image_size) 0xFFFFFFFF) :
    (update_image s qspi_mtd_file).1 ≠ XST_SUCCESS ∧
    write_and_commit s qspi_mtd_file = update_image s qspi_mtd_file ∧
    (∀ q, q ≠ qspi_mtd_file →
      (write_and_commit s qspi_mtd_file).2.world.content q = s.world.content q) ∧
    (write_and_commit s qspi_mtd_file).2.boot_img_info = s.boot_img_info ∧
    (∀ r, (select_target r).2 = Path.mtd7 ∨ (select_target r).2 = Path.mtd5) := by
  obtain ⟨evs, ⟨hlog, hframe, -⟩, hrec, -, hcrc⟩ := update_image_spec s qspi_mtd_file
  have hne : (update_image s qspi_mtd_file).1 ≠ XST_SUCCESS := by
    intro h
    apply hmis
    rw [hlog]
    simpa using hcrc h
  have hwc : write_and_commit s qspi_mtd_file = update_image s qspi_mtd_file := by
    unfold write_and_commit
    rcases hu : update_image s qspi_mtd_file with ⟨ret, s1⟩
    rw [hu] at hne
    simp only at hne ⊢
    rw [if_pos hne]
  refine ⟨hne, hwc, ?_, ?_, ?_⟩
  · rw [hwc]; exact hframe
  · rw [hwc]; exact hrec
  · intro r
    unfold select_target
    split
    · exact Or.inl rfl
    · exact Or.inr rfl

set_option maxRecDepth 100000 in
/-- An instance of `checksum_mismatch_aborts`: the medium stores a corrupted last
byte; `update_image` returns the length 43 of the chunk it read last, and `main`
stops there. -/
theorem checksum_mismatch_aborts_witness :
    (update_image corrupt_write_state Path.mtd7).1 = 43 ∧
    (update_image corrupt_write_state Path.mtd7).1 ≠ XST_SUCCESS ∧
    write_and_commit corrupt_write_state Path.mtd7 =
      update_image corrupt_write_state Path.mtd7 :=
  ⟨by decide,
   (checksum_mismatch_aborts corrupt_write_state Path.mtd7 (by decide)).1,
   (checksum_mismatch_aborts corrupt_write_state Path.mtd7 (by decide)).2.1⟩

set_option maxRecDepth 1000000 in
/-- C9 (the code breaks it). Evaluation of an update run of the sample world in which
"/dev/mtd2" cannot be opened for writing and the medium stores a corrupted last
byte of the image.  The target is bank B on "/dev/mtd7"; the bytes read back are
the corrupted image, whose CRC differs from that of the source; `main` returns
43, not `XST_SUCCESS`, and "/dev/mtd2" holds what it held before the run.  But
the target bank is still marked bootable in the record on "/dev/mtd2": the
write of the mark failed with the result 1, which `main` tests with `ret < 0`
(source lines 291 and 295) and so goes on to write the image.  On "/dev/mtd3"
and in memory the target is marked non bootable; `requested_boot_img` is
unchanged on both state partitions.  In the same run with a writable
"/dev/mtd2" the target is marked non bootable there. -/
theorem crc_abort_leaves_target_bootable_on_primary :
    (select_target (loaded_record readonly_primary_corrupt_write_world)).2 = Path.mtd7 ∧
    bytes_read (main readonly_primary_corrupt_write_world update_args).2.world.log Path.mtd7 =
      corrupted_image ∧
    calculate_image_checksum corrupted_image 0xFFFFFFFF ≠
      calculate_image_checksum sample_image 0xFFFFFFFF ∧
    (main readonly_primary_corrupt_write_world update_args).1 = 43 ∧
    (main readonly_primary_corrupt_write_world update_args).1 ≠ XST_SUCCESS ∧
    (main readonly_primary_corrupt_write_world update_args).2.world.content Path.mtd2 =
      readonly_primary_corrupt_write_world.content Path.mtd2 ∧
    target_flag (stored_record (main readonly_primary_corrupt_write_world update_args).2.world
      Path.mtd2) Path.mtd7 = 1 ∧
    target_flag (stored_record (main readonly_primary_corrupt_write_world update_args).2.world
      Path.mtd3) Path.mtd7 = 0 ∧
    target_flag (main readonly_primary_corrupt_write_world update_args).2.boot_img_info
      Path.mtd7 = 0 ∧
    (stored_record (main readonly_primary_corrupt_write_world update_args).2.world
      Path.mtd2).persistent_state.requested_boot_img =
      (stored_record readonly_primary_corrupt_write_world
        Path.mtd2).persistent_state.requested_boot_img ∧
    (stored_record (main readonly_primary_corrupt_write_world update_args).2.world
      Path.mtd3).persistent_state.requested_boot_img =
      (stored_record readonly_primary_corrupt_write_world
        Path.mtd3).persistent_state.requested_boot_img ∧
    target_flag (stored_record (main { sample_world with
      script := List.replicate 30 Outcome.ok ++ [Outcome.xfer corrupted_image] }
      update_args).2.world Path.mtd2) Path.mtd7 = 0 := by
  decide

set_option maxRecDepth 1000000 in
/-- C6 (the code breaks it). Evaluation of an update run in which "/dev/mtd2" cannot be
opened for writing: the ordering "target marked non bootable on both state
partitions before the image partition is erased or written" fails, the image
partition "/dev/mtd7" is erased although no record was ever written to "/dev/mtd2";
on the sample world without failures the ordering holds. -/
theorem image_written_before_nonbootable_persisted :
    nonbootable_before_image_write (main readonly_primary_world update_args).2.world.log
      Path.mtd7 = false ∧
    Event.erase Path.mtd7 0 ∈ (main readonly_primary_world update_args).2.world.log ∧
    persisted_nonbootable (main readonly_primary_world update_args).2.world.log
      Path.mtd2 Path.mtd7 = false ∧
    nonbootable_before_image_write (main sample_world update_args).2.world.log
      Path.mtd7 = true := by
  decide

set_option maxRecDepth 1000000 in
/-- C7 (the code breaks it). Evaluation of an update run in which "/dev/mtd2" cannot be
opened for writing: `main` returns `XST_SUCCESS` and prints the success message
although the commit write to the primary failed; the primary still holds the
record it held at the start, with `requested_boot_img` A, while the record in
memory requests B. -/
theorem success_reported_without_primary_commit :
    (main readonly_primary_world update_args).1 = XST_SUCCESS ∧
    Event.updated_successfully ∈ (main readonly_primary_world update_args).2.world.log ∧
    (main readonly_primary_world update_args).2.boot_img_info.persistent_state.requested_boot_img
      = SYS_BOOT_IMG_B_ID ∧
    (stored_record (main readonly_primary_world update_args).2.world
      Path.mtd2).persistent_state.requested_boot_img = SYS_BOOT_IMG_A_ID ∧
    stored_record (main readonly_primary_world update_args).2.world Path.mtd2 =
      sample_record := by
  decide

set_option maxRecDepth 1000000 in
/-- C8 (the code breaks it). Evaluation of an update run in which "/dev/mtd2" cannot be
opened for writing: the fourth call is the failed open of the primary in the
confirm step, yet `main` goes on with 33 more events, the erase of the image
partition among them, and returns `XST_SUCCESS`. -/
theorem run_continues_after_failed_primary_write :
    (main readonly_primary_world update_args).2.world.log.take 4 =
      [Event.open Path.mtd2 true, Event.read Path.mtd2 32 sample_record.toBytes 32,
        Event.close Path.mtd2, Event.open Path.mtd2 false] ∧
    ((main readonly_primary_world update_args).2.world.log.drop 4).length = 33 ∧
    Event.erase Path.mtd7 0 ∈ (main readonly_primary_world update_args).2.world.log.drop 4 ∧
    (main readonly_primary_world update_args).1 = XST_SUCCESS := by
  decide

/-- C10 (amended). End-to-end final state: on an update run on a supported board,
on a medium without faults whose state partitions have at least 32 bytes (and
whose report partitions are large enough when `-p` is given), with a valid record
loaded whose bootable flags are 0 or 1, an image that passes the identification
check of `read_image_file` and is no longer than the target partition, `main`
returns `XST_SUCCESS`; afterwards both state partitions hold the same 32 bytes, a
record that validates, with `requested_boot_img` B, `img_b_bootable` 0 and
`img_a_bootable` 1 when bank A booted last (target "/dev/mtd7"), and with A and B
exchanged when bank B booted last (target "/dev/mtd5"); the target partition
begins with the image bytes. -/
theorem end_to_end_update (w : World) (args : Args)
    (hopt : args.invalid_option = false) (hhelp : args.help_flag = false)
    (hupd : args.update_flag = true)
    (hprint : args.print_flag = true →
      0x100 ≤ (w.content Path.mtd14).length ∧ 0x94 ≤ (w.content Path.mtd5).length ∧
        0x94 ≤ (w.content Path.mtd7).length)
    (hboard : validate_board_string w = XST_SUCCESS)
    (hfaithful : w.script = [])
    (hsz2 : sizeof_boot_img_info ≤ (w.content Path.mtd2).length)
    (hsz3 : sizeof_boot_img_info ≤ (w.content Path.mtd3).length)
    (hvalid : valid_copy w Path.mtd2 ∨ valid_copy w Path.mtd3)
    (hflags : (loaded_record w).persistent_state.img_a_bootable ≤ 1 ∧
      (loaded_record w).persistent_state.img_b_bootable ≤ 1)
    (hid : passes_identification (w.content Path.image_file))
    (hfit : (w.content Path.image_file).length ≤
      (w.content (select_target (loaded_record w)).2).length) :
    (main w args).1 = XST_SUCCESS ∧
    ((main w args).2.world.content Path.mtd2).take sizeof_boot_img_info =
      ((main w args).2.world.content Path.mtd3).take sizeof_boot_img_info ∧
    (validate_boot_img_info (stored_record (main w args).2.world Path.mtd2)).1 = XST_SUCCESS ∧
    (validate_boot_img_info (stored_record (main w args).2.world Path.mtd3)).1 = XST_SUCCESS ∧
    ((loaded_record w).persistent_state.last_booted_img = SYS_BOOT_IMG_A_ID →
      (select_target (loaded_record w)).2 = Path.mtd7 ∧
      (stored_record (main w args).2.world Path.mtd2).persistent_state.requested_boot_img =
        SYS_BOOT_IMG_B_ID ∧
      (stored_record (main w args).2.world Path.mtd2).persistent_state.img_b_bootable = 0 ∧
      (stored_record (main w args).2.world Path.mtd2).persistent_state.img_a_bootable = 1) ∧
    ((loaded_record w).persistent_state.last_booted_img = SYS_BOOT_IMG_B_ID →
      (select_target (loaded_record w)).2 = Path.mtd5 ∧
      (stored_record (main w args).2.world Path.mtd2).persistent_state.requested_boot_img =
        SYS_BOOT_IMG_A_ID ∧
      (stored_record (main w args).2.world Path.mtd2).persistent_state.img_a_bootable = 0 ∧
      (stored_record (main w args).2.world Path.mtd2).persistent_state.img_b_bootable = 1) ∧
    ((main w args).2.world.content (select_target (loaded_record w)).2).take
      (w.content Path.image_file).length = w.content Path.image_file := by
  simp only [sizeof_boot_img_info] at hsz2 hsz3
  -- the run is the verify-and-update part, after the reports when `-p` is given
  have hrun : ∃ s : State, s.world.script = [] ∧ s.world.revision = w.revision ∧
      s.world.content = w.content ∧ main w args = verify_and_update s true := by
    unfold main
    simp only [hopt, hhelp, hupd, Bool.false_eq_true, if_false, Bool.or_true,
      Bool.true_eq_false, and_false]
    by_cases hp : args.print_flag = true
    · obtain ⟨h14, h5, h7⟩ := hprint hp
      obtain ⟨r, w1, e, s1, r1, c1⟩ := print_reports_ok (initial_state w) hfaithful hvalid h14 h5 h7
      simp only [hp, if_true, e, true_and, ne_eq, not_true_eq_false, if_false]
      exact ⟨_, s1, r1, c1, rfl⟩
    · simp only [hp, if_false, false_and]
      exact ⟨_, hfaithful, rfl, rfl, rfl⟩
  obtain ⟨s, hs, hr, hc, hmain⟩ := hrun
  have hL : loaded_record s.world = loaded_record w := by
    unfold loaded_record
    simp only [valid_copy_congr w s.world _ hc, stored_record_congr w s.world _ hc]
  have hvalid_s : valid_copy s.world Path.mtd2 ∨ valid_copy s.world Path.mtd3 :=
    hvalid.imp (valid_copy_congr w s.world _ hc).2 (valid_copy_congr w s.world _ hc).2
  obtain ⟨fw, e, c2, c3, ct⟩ := verify_and_update_ok s hs
    (by unfold validate_board_string at hboard ⊢; rw [hr]; exact hboard)
    (by rw [hc]; exact hsz2) (by rw [hc]; exact hsz3) hvalid_s
    (by rw [hc]; exact hid) (by rw [hL, hc]; exact hfit)
  rw [hL, hc] at e c2 c3 ct
  rw [hmain, e]
  simp only
  obtain ⟨hLv, hLwf⟩ := loaded_record_valid w hvalid
  obtain ⟨hLid, hLc⟩ := (validate_iff _).1 hLv
  obtain ⟨hFid, hFa, hFb⟩ := committed_record_fields (loaded_record w)
  have hFwf := committed_record_WF _ hLwf
  obtain ⟨t2, r2⟩ := stored_record_of_content fw Path.mtd2 _ _ hFwf c2
  obtain ⟨t3, r3⟩ := stored_record_of_content fw Path.mtd3 _ _ hFwf c3
  have hFvalid : (validate_boot_img_info (stamped (request_target (select_target
      (mark_running_bootable (loaded_record w))).1))).1 = XST_SUCCESS := by
    obtain ⟨i0, i1, i2, i3⟩ := stamped_idstr (request_target (select_target
      (mark_running_bootable (loaded_record w))).1)
    rw [i0, i1, i2, i3] at hFid
    exact stamped_valid _ ⟨hFid.1.trans hLid.1, hFid.2.1.trans hLid.2.1,
      hFid.2.2.1.trans hLid.2.2.1, hFid.2.2.2.trans hLid.2.2.2⟩
  refine ⟨trivial, ?_, ?_, ?_, ?_, ?_, ?_⟩
  · simp only [sizeof_boot_img_info]; rw [t2, t3]
  · rw [r2]; exact hFvalid
  · rw [r3]; exact hFvalid
  · intro hl
    rw [r2, hFa hl]
    refine ⟨by unfold select_target; rw [if_pos hl], rfl, rfl, ?_⟩
    simp only
    split <;> omega
  · intro hl
    have hl2 : ¬ (loaded_record w).persistent_state.last_booted_img = SYS_BOOT_IMG_A_ID := by
      rw [hl]; decide
    rw [r2, hFb hl2]
    refine ⟨by unfold select_target; rw [if_neg hl2], rfl, rfl, ?_⟩
    simp only
    split <;> omega
  · rw [ct, List.take_append_of_le_length (le_refl _), List.take_length]

set_option maxRecDepth 1000000 in
/-- Witness of C10: the update run of the sample world. -/
theorem end_to_end_update_witness :
    (main sample_world update_args).1 = XST_SUCCESS ∧
    (stored_record (main sample_world update_args).2.world
      Path.mtd2).persistent_state.requested_boot_img = SYS_BOOT_IMG_B_ID ∧
    ((main sample_world update_args).2.world.content Path.mtd7).take 43 = sample_image :=
  have h := end_to_end_update sample_world update_args rfl rfl rfl (by decide) (by decide) rfl
    (by decide) (by decide) (by decide) (by decide) (by decide) (by decide)
  ⟨h.1, (h.2.2.2.2.1 (by decide)).2.1, h.2.2.2.2.2.2⟩

set_option maxRecDepth 1000000 in
/-- C10 as stated fails: with every call succeeding, a valid record with bank A booted
last and both flags 1, and an image that passes the identification check, the
run fails when the image (43 bytes) is larger than the target partition (40 bytes),
before any erase of the target; and it fails on a board of revision "C". -/
theorem update_fails_when_image_too_large_or_board_unsupported :
    (oversize_image_world.script = [] ∧ valid_copy oversize_image_world Path.mtd2 ∧
      valid_copy oversize_image_world Path.mtd3 ∧
      (loaded_record oversize_image_world).persistent_state.last_booted_img = SYS_BOOT_IMG_A_ID ∧
      (loaded_record oversize_image_world).persistent_state.img_a_bootable = 1 ∧
      (loaded_record oversize_image_world).persistent_state.img_b_bootable = 1 ∧
      passes_identification (oversize_image_world.content Path.image_file) ∧
      validate_board_string oversize_image_world = XST_SUCCESS ∧
      (main oversize_image_world update_args).1 = XST_FAILURE ∧
      Event.erase Path.mtd7 0 ∉ (main oversize_image_world update_args).2.world.log) ∧
    (unsupported_board_world.script = [] ∧ valid_copy unsupported_board_world Path.mtd2 ∧
      valid_copy unsupported_board_world Path.mtd3 ∧
      (loaded_record unsupported_board_world).persistent_state.last_booted_img =
        SYS_BOOT_IMG_A_ID ∧
      passes_identification (unsupported_board_world.content Path.image_file) ∧
      (unsupported_board_world.content Path.image_file).length ≤
        (unsupported_board_world.content Path.mtd7).length ∧
      (main unsupported_board_world update_args).1 = XST_FAILURE) := by
  decide

/-- C15. `calculate_image_checksum` is the bit-by-bit reflected CRC with polynomial
`0xEDB88320` applied to the seed, with no final complement: on a sequence of bytes
it equals `crc_bitwise`; one byte step is
`(seed >> 8) ^ crc_table[(seed ^ byte) & 0xFF]`; for every `i` in `0..255` the entry
`crc_table[i]` is eight bit steps applied to `i`; and from the seed `0xFFFFFFFF`
the string "123456789" gives `0x340BC6D9`. -/
theorem crc_reference_equality :
    (∀ (data : List Nat) (seed : Nat), (∀ b ∈ data, b < 256) →
      calculate_image_checksum data seed = crc_bitwise data seed) ∧
    (∀ seed byte : Nat,
      calculate_image_checksum [byte] seed =
        (seed >>> 8) ^^^ crc_table.getD ((seed ^^^ byte) &&& 0xFF) 0) ∧
    (∀ i : Nat, i < 256 → crc_table.getD i 0 = crc_bit_step^[8] i) ∧
    calculate_image_checksum check_string 0xFFFFFFFF = 0x340BC6D9 := by
  refine ⟨calculate_image_checksum_bitwise, fun seed byte => rfl, crc_table_bitwise, ?_⟩
  decide

/-- C15 at the string "123456789" and at the table entry 1. -/
theorem crc_reference_equality_witness :
    calculate_image_checksum check_string 0xFFFFFFFF = crc_bitwise check_string 0xFFFFFFFF ∧
    crc_table.getD 1 0 = crc_bit_step^[8] 1 :=
  ⟨crc_reference_equality.1 check_string 0xFFFFFFFF (by decide),
    crc_reference_equality.2.2.1 1 (by decide)⟩

/-- C12. Loading the state falls back on the backup.  On a medium without faults,
for every content of the two state partitions: `load_state` succeeds exactly when
the primary holds a valid copy, or else the backup does; when the primary is not
valid and the backup is, the record in memory is the backup's record with the
running bank marked bootable, the same as results from a primary that holds the
backup's bytes; when neither is valid, a run asked to verify or to update returns
`XST_FAILURE` and makes no erase and no write.  Whatever the environment
answers, when `load_state` fails `verify_and_update` returns `XST_FAILURE` and
makes no erase and no write.  Whatever the environment answers, failed and
short reads among the answers (`accepted_copy` is the copy that an attempt
`open`, `read` of 32 bytes, `close` delivers in full and that validates):
`load_state` succeeds exactly when the attempt on the primary delivers such a
copy, or else the attempt on the backup, made in the environment that the first
attempt leaves, does; a copy accepted from the primary is the record in memory,
with the running bank marked bootable; when the primary is not accepted and the
backup is, the record in memory is the backup's copy with the running bank
marked bootable, whatever the record in memory and the primary held, and it is
the record that any run loads which accepts the same copy from its primary.  On
a medium without faults the accepted copy is the stored record when that is
valid, and none otherwise. -/
theorem load_state_falls_back (s : State) :
    (s.world.script = [] →
      ((load_state s).1 = XST_SUCCESS ↔
        valid_copy s.world Path.mtd2 ∨
          (¬ valid_copy s.world Path.mtd2 ∧ valid_copy s.world Path.mtd3)) ∧
      (¬ valid_copy s.world Path.mtd2 → valid_copy s.world Path.mtd3 →
        (load_state s).2.boot_img_info =
          mark_running_bootable (stored_record s.world Path.mtd3) ∧
        (load_state s).2.boot_img_info =
          (load_state { s with
            world := (s.world.store Path.mtd2 (s.world.content Path.mtd3)) }).2.boot_img_info) ∧
      (¬ valid_copy s.world Path.mtd2 → ¬ valid_copy s.world Path.mtd3 →
        ∀ args : Args, args.invalid_option = false → args.help_flag = false →
          (args.verify_flag = true ∨ args.update_flag = true) →
          (main s.world args).1 = XST_FAILURE ∧
          Emits (fun e => is_storage_call e = false) s.world (main s.world args).2.world)) ∧
    ((load_state s).1 ≠ XST_SUCCESS → ∀ update_flag,
      (verify_and_update s update_flag).1 = XST_FAILURE ∧
      Emits (fun e => is_storage_call e = false) s.world
        (verify_and_update s update_flag).2.world) ∧
    ((load_state s).1 = XST_SUCCESS ↔
      (accepted_copy s.world Path.mtd2).isSome = true ∨
        (accepted_copy s.world Path.mtd2 = none ∧
          (accepted_copy (read_copy s.world Path.mtd2).2 Path.mtd3).isSome = true)) ∧
    (∀ L, accepted_copy s.world Path.mtd2 = some L →
      (load_state s).2.boot_img_info = mark_running_bootable L) ∧
    (accepted_copy s.world Path.mtd2 = none →
      ∀ L, accepted_copy (read_copy s.world Path.mtd2).2 Path.mtd3 = some L →
        (load_state s).2.boot_img_info = mark_running_bootable L ∧
        ∀ t : State, accepted_copy t.world Path.mtd2 = some L →
          (load_state t).2.boot_img_info = (load_state s).2.boot_img_info) ∧
    (∀ p, s.world.script = [] →
      accepted_copy s.world p =
        if valid_copy s.world p then some (stored_record s.world p) else none) := by
  refine ⟨fun h => ⟨?_, ?_, ?_⟩, fun h flag => verify_and_update_load_fail s flag h,
    (load_state_accepted s).1, (load_state_accepted s).2.1,
    fun h L hL => ⟨(load_state_accepted s).2.2 h L hL, fun t ht => ?_⟩,
    fun p h => accepted_copy_faithful s.world p h⟩
  rotate_right
  · rw [(load_state_accepted t).2.1 L ht, (load_state_accepted s).2.2 h L hL]
  · constructor
    · intro hok
      by_cases h2 : valid_copy s.world Path.mtd2
      · exact Or.inl h2
      · by_cases h3 : valid_copy s.world Path.mtd3
        · exact Or.inr ⟨h2, h3⟩
        · exact absurd hok (load_state_fail s h h2 h3)
    · intro hv
      have hv' : valid_copy s.world Path.mtd2 ∨ valid_copy s.world Path.mtd3 := by
        rcases hv with hv | hv
        · exact Or.inl hv
        · exact Or.inr hv.2
      obtain ⟨w, e, -⟩ := load_state_ok s h hv'
      rw [e]
  · intro h2 h3
    obtain ⟨w, e, -⟩ := load_state_ok s h (Or.inr h3)
    have hc : (s.world.store Path.mtd2 (s.world.content Path.mtd3)).content Path.mtd2 =
        s.world.content Path.mtd3 := by simp [World.store]
    have hv : valid_copy (s.world.store Path.mtd2 (s.world.content Path.mtd3)) Path.mtd2 := by
      unfold valid_copy stored_record at h3 ⊢
      rw [hc]
      exact h3
    obtain ⟨w', e', -⟩ := load_state_ok
      { s with world := s.world.store Path.mtd2 (s.world.content Path.mtd3) } h (Or.inl hv)
    rw [e, e']
    simp only
    have hl : loaded_record s.world = stored_record s.world Path.mtd3 := by
      unfold loaded_record
      rw [if_neg h2]
    have hl' : loaded_record (s.world.store Path.mtd2 (s.world.content Path.mtd3)) =
        stored_record s.world Path.mtd3 := by
      unfold loaded_record
      rw [if_pos hv]
      unfold stored_record
      rw [hc]
    rw [hl, hl']
    exact ⟨rfl, rfl⟩
  · intro h2 h3 args hopt hhelp hrun
    rcases main_faithful s.world args h hopt hhelp hrun with ⟨a, -, b⟩ | ⟨r, w1, e, hs, hr, hc, em⟩
    · exact ⟨a, b⟩
    · rw [e]
      have hfail := load_state_fail
        { initial_state s.world with boot_img_info := r, world := w1 } hs
        (fun hv => h2 ((valid_copy_congr _ _ _ hc).1 hv))
        (fun hv => h3 ((valid_copy_congr _ _ _ hc).1 hv))
      obtain ⟨a, b⟩ := verify_and_update_load_fail _ args.update_flag hfail
      exact ⟨a, em.append b⟩

set_option maxRecDepth 1000000 in
/-- Witness of C12: in the world `backup_only_world` the primary copy is not valid,
`load_state` succeeds and loads the record of the backup.  In the world
`primary_open_fails_world` the `open` of the primary fails, in the world
`primary_short_read_world` its `read` delivers 10 bytes: `load_state` succeeds
and loads the record of the backup, which differs from the valid record that the
primary holds. -/
theorem load_state_falls_back_witness :
    (load_state (initial_state backup_only_world)).1 = XST_SUCCESS ∧
    (load_state (initial_state backup_only_world)).2.boot_img_info = sample_record ∧
    (load_state (initial_state primary_open_fails_world)).1 = XST_SUCCESS ∧
    (load_state (initial_state primary_open_fails_world)).2.boot_img_info =
      other_request_record ∧
    (load_state (initial_state primary_short_read_world)).1 = XST_SUCCESS ∧
    (load_state (initial_state primary_short_read_world)).2.boot_img_info =
      other_request_record ∧
    stored_record primary_open_fails_world Path.mtd2 = sample_record ∧
    other_request_record ≠ sample_record :=
  ⟨(((load_state_falls_back (initial_state backup_only_world)).1 rfl).1).2
      (Or.inr (by decide)),
    ((((load_state_falls_back (initial_state backup_only_world)).1 rfl).2.1
      (by decide) (by decide)).1).trans (by decide),
    (load_state_falls_back (initial_state primary_open_fails_world)).2.2.1.2
      (Or.inr (by decide)),
    ((load_state_falls_back (initial_state primary_open_fails_world)).2.2.2.2.1
      (by decide) other_request_record (by decide)).1.trans (by decide),
    (load_state_falls_back (initial_state primary_short_read_world)).2.2.1.2
      (Or.inr (by decide)),
    ((load_state_falls_back (initial_state primary_short_read_world)).2.2.2.2.1
      (by decide) other_request_record (by decide)).1.trans (by decide),
    by decide, by decide⟩

set_option maxRecDepth 1000000 in
/-- C13 as stated fails: on an update run of the sample world with an image that
lacks the tag, `main` returns `XST_FAILURE`, but by then the confirm step has
erased and written both state partitions, since `read_image_file` is called
after it. -/
theorem invalid_image_after_state_writes :
    ¬ passes_identification (untagged_image_world.content Path.image_file) ∧
    (main untagged_image_world update_args).1 = XST_FAILURE ∧
    Event.erase Path.mtd2 0 ∈ (main untagged_image_world update_args).2.world.log ∧
    Event.write Path.mtd2 (stamped sample_record).toBytes 32 ∈
      (main untagged_image_world update_args).2.world.log ∧
    Event.erase Path.mtd3 0 ∈ (main untagged_image_world update_args).2.world.log ∧
    Event.write Path.mtd3 (stamped sample_record).toBytes 32 ∈
      (main untagged_image_world update_args).2.world.log := by
  decide

/-- C13 (amended). An invalid image leads to no erase and no write of an image
partition.  On an update run on a medium without faults whose image does not
pass the identification check of `read_image_file`, `main` returns `XST_FAILURE`,
and either it made no erase and no write at all, or it loaded a record `L` that
validates and its erases and writes are those of the confirm step: they are on
the two state partitions and every write writes `L` with the running bank marked
bootable and the checksum recomputed.  Whatever the environment answers, when
`read_image_file` fails the update proper ends with it, without an erase or a write. -/
theorem invalid_image_spares_image_partitions (w : World) (args : Args)
    (hopt : args.invalid_option = false) (hhelp : args.help_flag = false)
    (hupd : args.update_flag = true) :
    (w.script = [] → ¬ passes_identification (w.content Path.image_file) →
      (main w args).1 = XST_FAILURE ∧
      (Emits (fun e => is_storage_call e = false) w (main w args).2.world ∨
        ∃ L, (validate_boot_img_info L).1 = XST_SUCCESS ∧
          Emits (run_call (mark_running_bootable L) false) w (main w args).2.world)) ∧
    (∀ s : State, (read_image_file s Path.image_file).1 ≠ XST_SUCCESS →
      update_run s = read_image_file s Path.image_file ∧
      Emits (fun e => is_storage_call e = false) s.world (update_run s).2.world) := by
  constructor
  · intro h hid
    rcases main_faithful w args h hopt hhelp (Or.inr hupd) with
      ⟨a, -, b⟩ | ⟨r, w1, e, hs, hr, hc, em⟩
    · exact ⟨a, Or.inl b⟩
    · rw [e, hupd]
      by_cases hv : valid_copy w1 Path.mtd2 ∨ valid_copy w1 Path.mtd3
      · unfold verify_and_update
        split
        · exact ⟨rfl, Or.inl em⟩
        · obtain ⟨a1, -⟩ := load_state_trace
            { initial_state w with boot_img_info := r, world := w1 }
          obtain ⟨w2, e2, s2, r2, c2⟩ := load_state_ok
            { initial_state w with boot_img_info := r, world := w1 } hs hv
          rw [e2] at a1
          rw [e2]
          simp only [ne_eq, not_true_eq_false, if_false] at a1 ⊢
          obtain ⟨b1, b2⟩ := confirm_and_update_invalid_image
            { initial_state w with
              boot_img_info := mark_running_bootable (loaded_record w1), world := w2 } s2
            (by simp only [c2, hc]; exact hid)
          refine ⟨b1, Or.inr ⟨loaded_record w1, (loaded_record_valid w1 hv).1, ?_⟩⟩
          refine ((em.mono (quiet_run_call _ _)).append (a1.mono (fun e he => ?_))).append b2
          rcases he with he | he
          · exact run_call_of_quiet _ _ e (call_on_quiet _ e he)
          · exact run_call_of_quiet _ _ e (call_on_quiet _ e he)
      · have hfail := load_state_fail
          { initial_state w with boot_img_info := r, world := w1 } hs
          (fun h2 => hv (Or.inl h2)) (fun h3 => hv (Or.inr h3))
        obtain ⟨a, b⟩ := verify_and_update_load_fail _ true hfail
        exact ⟨a, Or.inl (em.append b)⟩
  · intro s hfail
    obtain ⟨a1, -⟩ := read_image_file_trace s Path.image_file
    have e : update_run s = read_image_file s Path.image_file := by
      unfold update_run
      rcases h1 : read_image_file s Path.image_file with ⟨r1, s1⟩
      rw [h1] at hfail
      simp only at hfail ⊢
      rw [if_pos hfail]
    rw [e]
    exact ⟨rfl, a1.mono (call_on_quiet _)⟩

set_option maxRecDepth 1000000 in
/-- Witness of C13 (amended): the update run of the sample world with an image
that lacks the tag. -/
theorem invalid_image_spares_image_partitions_witness :
    (main untagged_image_world update_args).1 = XST_FAILURE :=
  ((invalid_image_spares_image_partitions untagged_image_world update_args rfl rfl rfl).1
    rfl (by decide)).1

/-- C14. The image-too-large gate.  Whatever the environment answers, when the
image is longer than the target partition `update_image` fails and makes no
erase and no write.  On a medium without faults `update_image` succeeds exactly
when the image length is at most the partition size (an image of exactly the
partition size is accepted), and exactly then it issues the erase. -/
theorem image_size_gate (s : State) (p : Path) :
    (s.image_size > (s.world.content p).length →
      (update_image s p).1 ≠ XST_SUCCESS ∧
      Emits (fun e => is_storage_call e = false) s.world (update_image s p).2.world) ∧
    (s.world.script = [] → s.image_size = s.srcaddr.length →
      ((update_image s p).1 = XST_SUCCESS ↔ s.image_size ≤ (s.world.content p).length) ∧
      ∃ evs, (update_image s p).2.world.log = s.world.log ++ evs ∧
        ((∃ r, Event.erase p r ∈ evs) ↔ s.image_size ≤ (s.world.content p).length)) := by
  obtain ⟨evs, hlog, -, hbig, herase⟩ := update_image_trace s p
  refine ⟨fun h => ⟨(hbig h).2, evs, hlog, fun e he => call_on_quiet p e ((hbig h).1 e he)⟩,
    fun hs hsrc => ?_⟩
  have hiff : (update_image s p).1 = XST_SUCCESS ↔ s.image_size ≤ (s.world.content p).length := by
    constructor
    · intro h
      by_contra hlt
      exact (hbig (by omega)).2 h
    · intro h
      obtain ⟨w, e, -⟩ := update_image_ok s p hs hsrc h
      rw [e]
  refine ⟨hiff, evs, hlog, ?_⟩
  constructor
  · rintro ⟨r, hr⟩
    by_contra hlt
    have := call_on_quiet p _ ((hbig (by omega)).1 _ hr)
    simp [is_storage_call] at this
  · intro h
    exact herase (hiff.2 h)

set_option maxRecDepth 1000000 in
/-- Witness of C14: an image of 43 bytes is refused for a partition of 40 bytes and
accepted for a partition of 43 bytes. -/
theorem image_size_gate_witness :
    (update_image oversize_image_state Path.mtd7).1 ≠ XST_SUCCESS ∧
    (update_image exact_fit_state Path.mtd7).1 = XST_SUCCESS :=
  ⟨((image_size_gate oversize_image_state Path.mtd7).1 (by decide)).1,
    (((image_size_gate exact_fit_state Path.mtd7).2 rfl rfl).1).2 (by decide)⟩

set_option maxRecDepth 1000000 in
/-- C16 (the code breaks it). Evaluation of two failed update runs whose exit status
is 0.  In the first the medium stores other bytes than the 256 bytes of the image:
`update_image` finds the CRC mismatch and leaves with `ret` still holding the 256
of its last `read`, `main` returns 256, and the exit status is 0; the target
partition holds the corrupted bytes and no success is printed.  In the second
"/dev/mtd2" cannot be opened for writing: the state writes to it fail, `main`
returns 0, and "/dev/mtd2" holds what it held before. -/
theorem crc_mismatch_exit_status_zero :
    (main corrupt_write_world_256 update_args).1 = 256 ∧
    exit_status (main corrupt_write_world_256 update_args).1 = 0 ∧
    (main corrupt_write_world_256 update_args).2.world.content Path.mtd7 =
      corrupted_image_256 ∧
    corrupted_image_256 ≠ image_256 ∧
    Event.updated_successfully ∉ (main corrupt_write_world_256 update_args).2.world.log ∧
    (stored_record (main corrupt_write_world_256 update_args).2.world
      Path.mtd2).persistent_state.requested_boot_img = SYS_BOOT_IMG_A_ID ∧
    exit_status (main readonly_primary_world update_args).1 = 0 ∧
    (main readonly_primary_world update_args).2.world.content Path.mtd2 =
      readonly_primary_world.content Path.mtd2 := by
  decide

set_option maxRecDepth 1000000 in
/-- C17 (the code breaks it). `read_image_file` compares the bytes at offset `0x24`
with `"XNLX"`: it rejects an image of 43 bytes, read completely, that carries the
documented tag `"XLNX"` there, and it accepts the same image with `"XNLX"` in
that place. -/
theorem documented_tag_rejected :
    (xlnx_image.drop XBIU_IDEN_STR_OFFSET).take XBIU_IDEN_STR_LEN = [0x58, 0x4C, 0x4E, 0x58] ∧
    (read_image_file xlnx_image_state Path.image_file).1 = XST_FAILURE ∧
    (read_image_file xlnx_image_state Path.image_file).2.srcaddr = xlnx_image ∧
    (sample_image.drop XBIU_IDEN_STR_OFFSET).take XBIU_IDEN_STR_LEN = [0x58, 0x4E, 0x4C, 0x58] ∧
    (read_image_file sample_state Path.image_file).1 = XST_SUCCESS := by
  decide

/-- C18. Marking the running bank is idempotent and framed: the marking step of
`verify_current_running_image`, applied to any record, sets the bootable flag of
the bank named by `last_booted_img` (`img_a_bootable` when it is 0,
`img_b_bootable` otherwise) to 1 when it was 0, leaves it as it is when it was
nonzero, changes no other field, and applying it twice gives the same record as
applying it once. -/
theorem marking_idempotent_and_framed (r : sys_boot_img_info) :
    (r.persistent_state.last_booted_img = SYS_BOOT_IMG_A_ID →
      mark_running_bootable r =
        { r with persistent_state := { r.persistent_state with
            img_a_bootable := if r.persistent_state.img_a_bootable = 0 then 1
              else r.persistent_state.img_a_bootable } }) ∧
    (r.persistent_state.last_booted_img ≠ SYS_BOOT_IMG_A_ID →
      mark_running_bootable r =
        { r with persistent_state := { r.persistent_state with
            img_b_bootable := if r.persistent_state.img_b_bootable = 0 then 1
              else r.persistent_state.img_b_bootable } }) ∧
    mark_running_bootable (mark_running_bootable r) = mark_running_bootable r := by
  refine ⟨fun h => ?_, fun h => ?_, ?_⟩
  · unfold mark_running_bootable
    rw [if_pos h]
    split
    · rfl
    · rfl
  · unfold mark_running_bootable
    rw [if_neg h]
    split
    · rfl
    · rfl
  · unfold mark_running_bootable
    by_cases hl : r.persistent_state.last_booted_img = SYS_BOOT_IMG_A_ID
    · by_cases ha : r.persistent_state.img_a_bootable = 0
      · simp [hl, ha]
      · simp [hl, ha]
    · by_cases hb : r.persistent_state.img_b_bootable = 0
      · simp [hl, hb]
      · simp [hl, hb]

/-- Witness of C18: a record whose running bank A is not yet marked bootable. -/
theorem marking_idempotent_and_framed_witness :
    unconfirmed_record.persistent_state.last_booted_img = SYS_BOOT_IMG_A_ID ∧
    mark_running_bootable unconfirmed_record = sample_record :=
  ⟨rfl, ((marking_idempotent_and_framed unconfirmed_record).1 rfl).trans (by decide)⟩

/-- C19. Verification accepts a faithful write: for an image of `n` bytes that is no
longer than the partition, on a medium without faults (erase, seek and write
succeed and the partition reads back the bytes written), `update_image` returns
`XST_SUCCESS`; its read-back makes `ceil(n / 1024)` reads, the read number `i` of
`min(1024, n - 1024 * i)` bytes, `n` bytes in all, they deliver the image, and
the CRC of the bytes read equals the CRC of the image. -/
theorem faithful_write_accepted (s : State) (p : Path) (h : s.world.script = [])
    (hsrc : s.image_size = s.srcaddr.length)
    (hfit : s.image_size ≤ (s.world.content p).length) :
    (update_image s p).1 = XST_SUCCESS ∧
    ∃ evs, (update_image s p).2.world.log = s.world.log ++ evs ∧
      read_sizes evs p = chunk_sizes s.image_size ∧
      (read_sizes evs p).length = (s.image_size + 1023) / 1024 ∧
      (read_sizes evs p).sum = s.image_size ∧
      bytes_read evs p = s.srcaddr.take s.image_size ∧
      calculate_image_checksum (bytes_read evs p) 0xFFFFFFFF =
        calculate_image_checksum (s.srcaddr.take s.image_size) 0xFFFFFFFF := by
  have htake : s.srcaddr.take s.image_size = s.srcaddr := by
    rw [hsrc]; exact List.take_length _
  obtain ⟨w, e, -⟩ := update_image_ok s p h hsrc hfit
  obtain ⟨evs, hlog, hsizes, hbytes⟩ := update_image_reads s p h hsrc hfit
  refine ⟨by rw [e], evs, hlog, hsizes, ?_, ?_, ?_, ?_⟩
  · rw [hsizes, chunk_sizes_length]
  · rw [hsizes, chunk_sizes_sum]
  · rw [hbytes, htake]
  · rw [hbytes, htake]

set_option maxRecDepth 1000000 in
/-- Witness of C19: an image of 2100 bytes is read back in three reads, of 1024,
1024 and 52 bytes. -/
theorem faithful_write_accepted_witness :
    (update_image three_chunk_state Path.mtd7).1 = XST_SUCCESS ∧
    chunk_sizes three_chunk_state.image_size = [1024, 1024, 52] :=
  ⟨(faithful_write_accepted three_chunk_state Path.mtd7 rfl
      (by simp only [three_chunk_state, List.length_replicate])
      (by simp only [three_chunk_state, if_true, List.length_replicate, le_refl])).1,
    by decide⟩

set_option maxRecDepth 1000000 in
/-- C20 as stated fails: both state partitions hold a valid copy, the primary
requests bank A and the backup bank B; a verify run succeeds, and afterwards the
backup requests bank A: `requested_boot_img` on the medium has changed. -/
theorem verify_run_overwrites_other_copy :
    valid_copy split_copies_world Path.mtd2 ∧ valid_copy split_copies_world Path.mtd3 ∧
    (stored_record split_copies_world Path.mtd3).persistent_state.requested_boot_img = 1 ∧
    (main split_copies_world verify_args).1 = XST_SUCCESS ∧
    (stored_record (main split_copies_world verify_args).2.world
      Path.mtd3).persistent_state.requested_boot_img = 0 := by
  decide

/-- C20 (amended). A verify run leaves the image banks alone and writes the loaded
record.  For every run of `main` with the verify flag set and the update flag
clear, whatever the environment answers: either the run makes no erase and no
write at all, or it loaded a record `L` that validates, every erase and write is
on a state partition, every write writes `L` with the running bank marked
bootable and the checksum recomputed, and the record in memory is that record up
to the checksum; no erase and no write is on "/dev/mtd5" or "/dev/mtd7"; without
`-p` every call is on "/dev/mtd2" or "/dev/mtd3".  The record written differs
from `L` in the bootable flag of the bank that booted last and in the checksum
at most.  On a medium without faults, with a supported board, state partitions
of at least 32 bytes and a valid copy, the run succeeds, both state partitions
then hold that record, and the image partitions hold what they held. -/
theorem verify_run_writes_loaded_record (w : World) (args : Args)
    (hopt : args.invalid_option = false) (hhelp : args.help_flag = false)
    (hver : args.verify_flag = true) (hupd : args.update_flag = false) :
    (Emits (fun e => is_storage_call e = false) w (main w args).2.world ∨
      ∃ L, (validate_boot_img_info L).1 = XST_SUCCESS ∧
        Emits (run_call (mark_running_bootable L) false) w (main w args).2.world ∧
        ∃ c, (main w args).2.boot_img_info = { mark_running_bootable L with checksum := c }) ∧
    Emits (fun e => is_image_write Path.mtd5 e = false ∧ is_image_write Path.mtd7 e = false)
      w (main w args).2.world ∧
    (args.print_flag = false →
      ∃ X, Emits (fun e => call_on Path.mtd2 (some X) e ∨ call_on Path.mtd3 (some X) e)
        w (main w args).2.world) ∧
    (∀ L : sys_boot_img_info,
      (L.persistent_state.last_booted_img = SYS_BOOT_IMG_A_ID →
        stamped (mark_running_bootable L) =
          { L with
            checksum := calculate_checksum (mark_running_bootable L),
            persistent_state := { L.persistent_state with
              img_a_bootable := if L.persistent_state.img_a_bootable = 0 then 1
                else L.persistent_state.img_a_bootable } }) ∧
      (L.persistent_state.last_booted_img ≠ SYS_BOOT_IMG_A_ID →
        stamped (mark_running_bootable L) =
          { L with
            checksum := calculate_checksum (mark_running_bootable L),
            persistent_state := { L.persistent_state with
              img_b_bootable := if L.persistent_state.img_b_bootable = 0 then 1
                else L.persistent_state.img_b_bootable } })) ∧
    (w.script = [] → validate_board_string w = XST_SUCCESS →
      sizeof_boot_img_info ≤ (w.content Path.mtd2).length →
      sizeof_boot_img_info ≤ (w.content Path.mtd3).length →
      (valid_copy w Path.mtd2 ∨ valid_copy w Path.mtd3) →
      (args.print_flag = true →
        0x100 ≤ (w.content Path.mtd14).length ∧ 0x94 ≤ (w.content Path.mtd5).length ∧
          0x94 ≤ (w.content Path.mtd7).length) →
      (main w args).1 = XST_SUCCESS ∧
      stored_record (main w args).2.world Path.mtd2 =
        stamped (mark_running_bootable (loaded_record w)) ∧
      stored_record (main w args).2.world Path.mtd3 =
        stamped (mark_running_bootable (loaded_record w)) ∧
      (main w args).2.world.content Path.mtd5 = w.content Path.mtd5 ∧
      (main w args).2.world.content Path.mtd7 = w.content Path.mtd7) := by
  have hmain : Emits (fun e => is_storage_call e = false) w (main w args).2.world ∨
      ∃ L, (validate_boot_img_info L).1 = XST_SUCCESS ∧
        Emits (run_call (mark_running_bootable L) false) w (main w args).2.world ∧
        ∃ c, (main w args).2.boot_img_info =
          { mark_running_bootable L with checksum := c } := by
    rcases main_trace w args with h | ⟨L, -, hval, hem, -, hc⟩
    · exact Or.inl h
    · rw [hupd] at hem
      exact Or.inr ⟨L, hval, hem, hc hupd⟩
  refine ⟨hmain, ?_, fun hp => ?_, confirmed_record_fields, ?_⟩
  · rcases hmain with h | ⟨L, -, hem, -⟩
    · exact h.mono quiet_spares
    · exact hem.mono (run_call_false_spares _)
  · have e : main w args = verify_and_update (initial_state w) false := by
      unfold main
      simp [hopt, hhelp, hver, hupd, hp]
    rw [e]
    rcases verify_and_update_trace (initial_state w) false with ⟨-, h⟩ | ⟨L, -, -, -, -, h⟩
    · refine ⟨[], h.mono (fun e he => ?_)⟩
      rcases he with he | he
      · exact Or.inl (call_on_none _ _ _ he)
      · exact Or.inr (call_on_none _ _ _ he)
    · exact ⟨_, (h rfl).2⟩
  · intro hs hboard hsz2 hsz3 hvalid hprint
    obtain ⟨r, w1, e, hs1, hr1, hc1⟩ := main_reaches_board_check w args hs hopt hhelp
      (Or.inl hver) hprint hvalid
    have hL : loaded_record w1 = loaded_record w := by
      unfold loaded_record
      simp only [valid_copy_congr w w1 _ hc1, stored_record_congr w w1 _ hc1]
    obtain ⟨fw, e2, c2, c3, cq⟩ := verify_only_ok
      { initial_state w with boot_img_info := r, world := w1 } hs1
      (by unfold validate_board_string at hboard ⊢; simp only [hr1]; exact hboard)
      (by simp only [hc1]; exact hsz2) (by simp only [hc1]; exact hsz3)
      (hvalid.imp (valid_copy_congr w w1 _ hc1).2 (valid_copy_congr w w1 _ hc1).2)
    simp only [hL, hc1] at e2 c2 c3 cq
    rw [e, hupd, e2]
    simp only
    have hwf := stamped_WF _ (mark_running_bootable_WF _ (loaded_record_valid w hvalid).2)
    exact ⟨trivial, (stored_record_of_content fw Path.mtd2 _ _ hwf c2).2,
      (stored_record_of_content fw Path.mtd3 _ _ hwf c3).2,
      cq _ (by decide) (by decide), cq _ (by decide) (by decide)⟩

set_option maxRecDepth 1000000 in
/-- Witness of C20 (amended): the verify run of the sample world. -/
theorem verify_run_writes_loaded_record_witness :
    (main sample_world verify_args).1 = XST_SUCCESS ∧
    stored_record (main sample_world verify_args).2.world Path.mtd2 =
      stamped (mark_running_bootable (loaded_record sample_world)) :=
  ⟨((verify_run_writes_loaded_record sample_world verify_args rfl rfl rfl rfl).2.2.2.2
      rfl (by decide) (by decide) (by decide) (by decide) (by decide)).1,
    ((verify_run_writes_loaded_record sample_world verify_args rfl rfl rfl rfl).2.2.2.2
      rfl (by decide) (by decide) (by decide) (by decide) (by decide)).2.1⟩

/-- C21. The running bank is never marked non bootable.  With `running_flag` the
bootable flag that the code takes for the bank named by `last_booted_img` (bank A
for 0, bank B for every other value) and `other_flag` the other one: the marking
step of `verify_current_running_image` leaves `running_flag` nonzero and
`other_flag` as it was; target selection in `main` sets `other_flag` to 0 and
leaves `running_flag` as it was, for every value of `last_booted_img`; the
commit step changes neither.  Whatever the environment answers, a run of `main`
either makes no erase and no write, or it loaded a record `L` that validates and
every write to "/dev/mtd2" or "/dev/mtd3" writes the bytes of a well-formed
record with the `last_booted_img` of `L` and a nonzero `running_flag`. -/
theorem running_bank_stays_bootable (w : World) (args : Args) :
    (∀ r : sys_boot_img_info,
      running_flag (mark_running_bootable r) ≠ 0 ∧
      other_flag (mark_running_bootable r) = other_flag r) ∧
    (∀ r : sys_boot_img_info,
      running_flag (select_target r).1 = running_flag r ∧
      other_flag (select_target r).1 = 0) ∧
    (∀ r : sys_boot_img_info,
      running_flag (request_target r) = running_flag r ∧
      other_flag (request_target r) = other_flag r) ∧
    (∀ r : sys_boot_img_info, r.persistent_state.last_booted_img ≠ SYS_BOOT_IMG_A_ID →
      running_flag r = r.persistent_state.img_b_bootable ∧
      select_target r =
        ({ r with persistent_state := { r.persistent_state with img_a_bootable := 0 } },
          Path.mtd5)) ∧
    (Emits (fun e => is_storage_call e = false) w (main w args).2.world ∨
      ∃ L, (validate_boot_img_info L).1 = XST_SUCCESS ∧
        Emits (fun e => ∀ p buf ret, e = Event.write p buf ret →
            p = Path.mtd2 ∨ p = Path.mtd3 →
            ∃ r : sys_boot_img_info, r.WF ∧ buf = r.toBytes ∧
              sys_boot_img_info.ofBytes buf = r ∧
              r.persistent_state.last_booted_img = L.persistent_state.last_booted_img ∧
              running_flag r ≠ 0)
          w (main w args).2.world) := by
  refine ⟨fun r => ⟨running_flag_mark r, other_flag_mark r⟩, running_flag_select,
    running_flag_request, fun r h => ?_, ?_⟩
  · unfold running_flag select_target
    simp [h]
  · rcases main_trace w args with h | ⟨L, hwf, hval, hem, -, -⟩
    · exact Or.inl h
    · refine Or.inr ⟨L, hval, hem.mono (fun e he p buf ret heq hp => ?_)⟩
      subst heq
      obtain ⟨r, h1, h2, h3, h4, h5⟩ := run_call_state_write L hwf _ p buf ret he hp
      exact ⟨r, h1, h2, h3, carried_last r L h4, h5⟩

set_option maxRecDepth 1000000 in
/-- Witness of C21: a record with `last_booted_img` 7 counts as bank B booted last in
both branches; the update run of the sample world writes records with
`img_a_bootable` 1 to "/dev/mtd2". -/
theorem running_bank_stays_bootable_witness :
    running_flag (mark_running_bootable
      { sample_record with
        persistent_state := { last_booted_img := 7, requested_boot_img := 0,
                              img_b_bootable := 0, img_a_bootable := 1 } }) ≠ 0 ∧
    Event.write Path.mtd2 (stamped (select_target sample_record).1).toBytes 32 ∈
      (main sample_world update_args).2.world.log :=
  ⟨((running_bank_stays_bootable sample_world update_args).1 _).1, by decide⟩

/-- C22. A single-byte difference is always detected by the image CRC.  For every
seed of 32 bits and every two byte sequences that differ in one position (bytes
`x ≠ y` below 256 between the same `pre` and `suf`), `calculate_image_checksum`
gives different values; the byte step is injective in the running value (of 32
bits) for a fixed byte and injective in the byte for a fixed running value; the
top bytes of the 256 entries of `crc_table` are pairwise distinct.  Hence,
whatever the environment answers, when the bytes that the read-back of
`update_image` reads differ from the image in one position, `update_image` does
not return `XST_SUCCESS`. -/
theorem single_byte_difference_detected :
    (∀ (pre suf : List Nat) (x y seed : Nat), seed < 2 ^ 32 → x < 256 → y < 256 → x ≠ y →
      calculate_image_checksum (pre ++ x :: suf) seed ≠
        calculate_image_checksum (pre ++ y :: suf) seed) ∧
    (∀ byte s1 s2 : Nat, s1 < 2 ^ 32 → s2 < 2 ^ 32 →
      calculate_image_checksum [byte] s1 = calculate_image_checksum [byte] s2 → s1 = s2) ∧
    (∀ s x y : Nat, x < 256 → y < 256 →
      calculate_image_checksum [x] s = calculate_image_checksum [y] s → x = y) ∧
    (∀ i j : Nat, i < 256 → j < 256 →
      crc_table.getD i 0 >>> 24 = crc_table.getD j 0 >>> 24 → i = j) ∧
    (∀ (s : State) (p : Path) (evs : List Event) (pre suf : List Nat) (x y : Nat),
      (update_image s p).2.world.log = s.world.log ++ evs →
      s.srcaddr.take s.image_size = pre ++ x :: suf →
      bytes_read evs p = pre ++ y :: suf →
      x < 256 → y < 256 → x ≠ y →
      (update_image s p).1 ≠ XST_SUCCESS) := by
  refine ⟨fun pre suf x y seed hs hx hy hxy =>
      calculate_image_checksum_one_byte pre suf x y seed hs hx hy hxy,
    fun b s1 s2 h1 h2 h => crc_step_injective_seed b s1 s2 h1 h2 h,
    fun s x y hx hy h => crc_step_injective_byte s x y hx hy h,
    crc_table_top_inj, ?_⟩
  intro s p evs pre suf x y hlog himg hread hx hy hxy hok
  obtain ⟨evs', heff, -, -, hcrc⟩ := update_image_spec s p
  have he : evs' = evs := List.append_cancel_left (heff.1.symm.trans hlog)
  subst he
  have h := hcrc hok
  rw [himg, hread] at h
  exact calculate_image_checksum_one_byte pre suf y x 0xFFFFFFFF (by norm_num) hy hx
    (Ne.symm hxy) h

set_option maxRecDepth 1000000 in
/-- Witness of C22: the medium stores the 43-byte sample image with its last byte
changed from 3 to 4; the read-back reads these bytes and `update_image` fails. -/
theorem single_byte_difference_detected_witness :
    (update_image corrupt_write_state Path.mtd7).1 ≠ XST_SUCCESS :=
  single_byte_difference_detected.2.2.2.2 corrupt_write_state Path.mtd7
    (update_image corrupt_write_state Path.mtd7).2.world.log
    (List.replicate 0x24 7 ++ [0x58, 0x4E, 0x4C, 0x58, 1, 2]) [] 3 4
    (by decide) (by decide) (by decide) (by decide) (by decide) (by decide)

/-- C23. Carried fields are framed.  With `carried` the fields `idstr`, `ver`, `len`,
`last_booted_img` and the three offsets: `validate_boot_img_info`, the marking
step, target selection, the update of `requested_boot_img`,
`update_persistent_registers` and the whole of the confirm step with what
follows it leave the carried fields of the record in memory as they are; two
records have the same carried fields exactly when they differ in `checksum`,
`requested_boot_img`, `img_a_bootable` and `img_b_bootable` at most.  Whatever
the environment answers, a run of `main` either makes no erase and no write, or
it loaded a record `L` that validates, the record in memory at the end has the
carried fields of `L`, and every write to "/dev/mtd2" or "/dev/mtd3" writes the
bytes of a well-formed record with the carried fields of `L`. -/
theorem carried_fields_framed (w : World) (args : Args) :
    (∀ r : sys_boot_img_info, carried (validate_boot_img_info r).2 = carried r) ∧
    (∀ r : sys_boot_img_info, carried (mark_running_bootable r) = carried r) ∧
    (∀ r : sys_boot_img_info, carried (select_target r).1 = carried r) ∧
    (∀ r : sys_boot_img_info, carried (request_target r) = carried r) ∧
    (∀ (s : State) (p : Path),
      carried (update_persistent_registers s p).2.boot_img_info = carried s.boot_img_info) ∧
    (∀ (s : State) (update_flag : Bool),
      carried (confirm_and_update s update_flag).2.boot_img_info = carried s.boot_img_info) ∧
    (∀ r L : sys_boot_img_info,
      carried r = carried L ↔
        r = { L with
          checksum := r.checksum,
          persistent_state := { L.persistent_state with
            requested_boot_img := r.persistent_state.requested_boot_img,
            img_b_bootable := r.persistent_state.img_b_bootable,
            img_a_bootable := r.persistent_state.img_a_bootable } }) ∧
    (Emits (fun e => is_storage_call e = false) w (main w args).2.world ∨
      ∃ L, (validate_boot_img_info L).1 = XST_SUCCESS ∧
        carried (main w args).2.boot_img_info = carried L ∧
        Emits (fun e => ∀ p buf ret, e = Event.write p buf ret →
            p = Path.mtd2 ∨ p = Path.mtd3 →
            ∃ r : sys_boot_img_info, r.WF ∧ buf = r.toBytes ∧
              sys_boot_img_info.ofBytes buf = r ∧ carried r = carried L)
          w (main w args).2.world) := by
  refine ⟨carried_validate, carried_mark, carried_select, carried_request,
    update_persistent_registers_carried, confirm_and_update_carried, carried_eq_iff, ?_⟩
  rcases main_carried w args with h | ⟨L, hwf, hval, hem, hc⟩
  · exact Or.inl h
  · refine Or.inr ⟨L, hval, hc, hem.mono (fun e he p buf ret heq hp => ?_)⟩
    subst heq
    obtain ⟨r, h1, h2, h3, h4, -⟩ := run_call_state_write L hwf _ p buf ret he hp
    exact ⟨r, h1, h2, h3, h4⟩

set_option maxRecDepth 1000000 in
/-- Witness of C23: after the update run of the sample world the record in memory
and the record on "/dev/mtd2" have the carried fields of the sample record. -/
theorem carried_fields_framed_witness :
    carried (request_target (select_target sample_record).1) = carried sample_record ∧
    carried (main sample_world update_args).2.boot_img_info = carried sample_record ∧
    carried (stored_record (main sample_world update_args).2.world Path.mtd2) =
      carried sample_record :=
  ⟨((carried_fields_framed sample_world update_args).2.2.2.1 _).trans
      ((carried_fields_framed sample_world update_args).2.2.1 _),
    by decide, by decide⟩

end ImageUpdate
